import Mathlib

/-!
# The Python frontend bindings

A shallow embedding of bindings of `taichi/python/export_lang.cpp`: the global
`scope_stack`, the `begin_*` / `end_*` / `pop_scope` calls, the
statement-inserting calls, the loop-only helpers `insert_thread_idx_expr` and
`insert_patch_idx_expr`, the operator and atomic expression builders, the
accessors of `Expr` on global-variable nodes, the pickle support of `DataType`,
the sparse-matrix constructors and the mesh setters.

Pointers are indices into two heaps owned by the builder: `Stmt *` is an index
into `ASTBuilder.stmts`, `Block *` an index into `ASTBuilder.blocks`, and
`nullptr` is `none`.  `std::vector` is a `List` whose last element is `back()`.
-/

namespace Taichi

/-! ## Outcome of a call -/

/-- How a bound call ends: it returns, it raises `TI_ERROR_IF(cond, msg)`, it
fails a `TI_ASSERT(cond)`, or it runs into an operation for which the source has
no check and C++ defines no behaviour (`pop_back` on an empty vector, integer
division by zero). -/
inductive Status (α : Type) where
  | ok (value : α)
  | error (msg : String)
  | assertion_failure (cond : String)
  | undefined_behavior (what : String)
  deriving Repr

/-- The call returned. -/
def Status.isOk {α : Type} : Status α → Bool
  | .ok _ => true
  | _ => false

/-- The call raised an error (`TI_ERROR_IF`) or failed an assertion. -/
def Status.isError {α : Type} : Status α → Bool
  | .error _ => true
  | .assertion_failure _ => true
  | _ => false

/-- Forget the returned value. -/
def Status.void {α : Type} : Status α → Status Unit
  | .ok _ => .ok ()
  | .error m => .error m
  | .assertion_failure c => .assertion_failure c
  | .undefined_behavior w => .undefined_behavior w

/-! ## Data model -/

/-- A `Stmt *`: index into the statement heap of the builder. -/
abbrev StmtPtr := Nat

/-- A `Block *`: index into the block heap of the builder. -/
abbrev BlockPtr := Nat

/-- An enumerator of `Arch` (the list `taichi/inc/archs.inc.h` is not in src/). -/
abbrev Arch := Nat

/-- A `mesh::MeshPtr` handle. -/
abbrev MeshPtr := Nat

/-- The enumeration `mesh::MeshElementType` as exported at lines 1282-1287. -/
inductive MeshElementType where
  | Vertex
  | Edge
  | Face
  | Cell
  deriving DecidableEq, Repr

/-- Modelled from the spec: `DataType` (taichi/ir/type.h is not in src/): a
primitive variant, a custom variant, the `unknown` primitive used by
`expr_alloca`, and the tensor type of a local tensor. -/
inductive DataType where
  | unknown
  | primitive (id : Nat)
  | custom (id : Nat)
  | tensor (shape : List Int) (element : DataType)
  deriving Repr

/-- An enumerator of `BinaryOpType`, by its integer value (the list
`taichi/inc/binary_op.inc.h` is not in src/). -/
abbrev BinaryOpType := Nat

/-- An enumerator of `UnaryOpType`, by its integer value (the list
`taichi/inc/unary_op.inc.h` is not in src/). -/
abbrev UnaryOpType := Nat

/-- The enumerators of `AtomicOpType` named at lines 776-800. -/
inductive AtomicOpType where
  | add
  | sub
  | min
  | max
  | bit_and
  | bit_or
  | bit_xor
  deriving DecidableEq, Repr

/-- Expression nodes built by the bindings modelled here.  `other` stands for
every node kind whose structure these bindings never inspect.  An operator
node holds the arguments of its constructor call in their order. -/
inductive Expr where
  | IdExpression (id : Nat) (name : String) (ret_type : DataType)
  | ConstExpression_int32 (val : Int)
  | TensorElementExpression (var : Expr) (indices : List Expr) (shape : List Int)
      (stride : Nat)
  | InternalFuncCallExpression (func_name : String) (args : List Expr)
  | MeshPatchIndexExpression
  | BinaryOpExpression (type : BinaryOpType) (lhs rhs : Expr)
  | UnaryOpExpression (type : UnaryOpType) (operand : Expr)
  | AtomicOpExpression (op_type : AtomicOpType) (dest val : Expr)
  | other (kind : String) (operands : List Expr)
  deriving Repr

/-- An `ExprGroup`: ordered sequence of expressions. -/
structure ExprGroup where
  exprs : List Expr
  deriving Repr

/-- The three constructors of `FrontendForStmt` used at lines 303, 314, 325. -/
inductive ForHeader where
  | range (i s e : Expr)
  | struct (loop_vars : ExprGroup) (global : Expr)
  | mesh (i : Expr) (mesh_ptr : MeshPtr) (element_type : MeshElementType)
  deriving Repr

/-- Modelled from the spec: the flag `FrontendForStmt::mesh_for`
(taichi/ir/frontend_ir.h is not in src/): set exactly by the mesh-for
constructor. -/
def ForHeader.mesh_for : ForHeader → Bool
  | .mesh _ _ _ => true
  | _ => false

/-- Frontend statements created by the bindings.  A compound statement holds
the pointers of the child blocks it owns. -/
inductive Stmt where
  | FrontendReturnStmt (values : ExprGroup)
  | FrontendPrintStmt (contents : List (Expr ⊕ String))
  | FrontendIfStmt (cond : Expr) (true_statements false_statements : BlockPtr)
  | FrontendForStmt (header : ForHeader) (body : BlockPtr)
  | FrontendWhileStmt (cond : Expr) (body : BlockPtr)
  | FrontendBreakStmt
  | FrontendContinueStmt
  | FrontendExprStmt (val : Expr)
  | FrontendAllocaStmt (ident : Nat) (ret_type : DataType)
  | FrontendAssignStmt (lhs rhs : Expr) (tb : String)
  | FrontendExternalFuncStmt (func_addr : Nat) (source filename funcname : String)
      (args outputs : List Expr)
  | FrontendAssertStmt (cond : Expr) (msg : String) (args : List Expr)
  | FrontendFuncDefStmt (funcid : String) (body : BlockPtr)
  deriving Repr

/-- The test `stmt->is<FrontendForStmt>()`. -/
def Stmt.is_FrontendForStmt : Stmt → Bool
  | .FrontendForStmt _ _ => true
  | _ => false

/-- The test `stmt->is<FrontendIfStmt>()`. -/
def Stmt.is_FrontendIfStmt : Stmt → Bool
  | .FrontendIfStmt _ _ _ => true
  | _ => false

/-- The field read `loop->as<FrontendForStmt>()->mesh_for` (false on other
statements, where the source never reads it). -/
def Stmt.mesh_for : Stmt → Bool
  | .FrontendForStmt h _ => h.mesh_for
  | _ => false

/-- The child blocks a statement owns. -/
def Stmt.child_blocks : Stmt → List BlockPtr
  | .FrontendIfStmt _ t f => [t, f]
  | .FrontendForStmt _ b => [b]
  | .FrontendWhileStmt _ b => [b]
  | .FrontendFuncDefStmt _ b => [b]
  | _ => []

/-- A block: its statements in insertion order and the `parent_stmt` pointer
read at lines 1055, 1061, 1074, 1078. -/
structure Block where
  statements : List StmtPtr
  parent_stmt : Option StmtPtr
  deriving Repr

/-- Modelled from the spec: the `ASTBuilder` (taichi/ir/frontend_ir.h is not in
src/).  It owns every statement and block created during one trace; block `0`
is the root block. -/
structure ASTBuilder where
  stmts : List Stmt
  blocks : List Block
  deriving Repr

/-- An `ASTBuilder::ScopeGuard`: the source reads only its `list` field. -/
structure ScopeGuard where
  list : BlockPtr
  deriving DecidableEq, Repr

/-- The ambient state of the bindings: the architecture of the current
program's config, the current builder, the global `scope_stack` of line 64 and
the counter handing out fresh identifiers to `IdExpression()`. -/
structure State where
  arch : Arch
  builder : ASTBuilder
  scope_stack : List ScopeGuard
  id_counter : Nat
  deriving Repr

/-- Declarations of the repository that the bindings consult and that are not
in src/, taken as parameters: the enumerator `Arch::cuda`, `arch_is_cpu`,
`Expression::is_lvalue` and `data_type_size`. -/
structure Externals where
  cuda : Arch
  arch_is_cpu : Arch → Bool
  is_lvalue : Expr → Bool
  data_type_size : DataType → Nat

/-- The root block pointer. -/
def root_block : BlockPtr := 0

/-- The state in which a trace starts: one empty root block, no statement,
empty scope stack. -/
def State.init (arch : Arch) : State :=
  { arch := arch
    builder := { stmts := [], blocks := [{ statements := [], parent_stmt := none }] }
    scope_stack := []
    id_counter := 0 }

/-! ## Builder operations -/

/-- Modelled from the spec: the block `insert` appends to: "the block at the
top of the scope stack, or the root block if the stack is empty". -/
def State.current_block (s : State) : BlockPtr :=
  match s.scope_stack.getLast? with
  | some g => g.list
  | none => root_block

/-- Modelled from the spec: construction of a statement node
(`std::make_unique<...>(...)`; the constructors are in taichi/ir/frontend_ir.h,
not in src/): "each compound variant owns one or more child blocks".  The node
gets the next statement pointer, and each of its `nchild` child blocks a fresh,
empty block whose `parent_stmt` is the new node.  `mk` receives the pointer of
the first child block. -/
def State.alloc (s : State) (nchild : Nat) (mk : BlockPtr → Stmt) : StmtPtr × State :=
  let p := s.builder.stmts.length
  let base := s.builder.blocks.length
  (p, { s with builder :=
          { stmts := s.builder.stmts ++ [mk base]
            blocks := s.builder.blocks ++
              List.replicate nchild { statements := [], parent_stmt := some p } } })

/-- Modelled from the spec: `ASTBuilder::insert`: "appends a statement to the
block at the top of the scope stack, or to the root block if the stack is
empty". -/
def State.insert (s : State) (p : StmtPtr) : State :=
  match s.builder.blocks[s.current_block]? with
  | some blk =>
    { s with builder :=
        { s.builder with
          blocks := s.builder.blocks.set s.current_block
            { blk with statements := blk.statements ++ [p] } } }
  | none => s

/-- Build a statement without child blocks and insert it into the current
block. -/
def State.insert_leaf (s : State) (stmt : Stmt) : State :=
  let r := s.alloc 0 (fun _ => stmt)
  r.2.insert r.1

/-- Modelled from the spec: `ASTBuilder::get_last_stmt`: "the most recently
inserted statement in the current block"; `none` when that block is empty. -/
def State.get_last_stmt (s : State) : Option StmtPtr :=
  match s.builder.blocks[s.current_block]? with
  | some blk => blk.statements.getLast?
  | none => none

/-- Modelled from the spec: `ASTBuilder::create_scope`: a new scope "bound to"
the given child block. -/
def create_scope (list : BlockPtr) : ScopeGuard :=
  { list := list }

/-- The statement `scope_stack.push_back(...)`. -/
def State.push_back (s : State) (g : ScopeGuard) : State :=
  { s with scope_stack := s.scope_stack ++ [g] }

/-- The statement `scope_stack.pop_back()`, which the source performs without
looking at the size of the vector; on an empty vector C++ defines no
behaviour. -/
def State.pop_back (s : State) : Status Unit × State :=
  if s.scope_stack.isEmpty then
    (.undefined_behavior "pop_back on an empty vector", s)
  else
    (.ok (), { s with scope_stack := s.scope_stack.dropLast })

/-! ## The `begin_*` / `end_*` bindings (lines 279-344 and 690-766)

The `ASTBuilder` methods and the module-level functions of the same name run
the same code, on `self` and on `current_ast_builder()`; the model has one
builder, so each pair is one definition. -/

/-- Lines 279-283 and 726-729. -/
def begin_frontend_if (cond : Expr) (s : State) : Status Unit × State :=
  let r := s.alloc 2 (fun b => .FrontendIfStmt cond b (b + 1))
  (.ok (), r.2.insert r.1)

/-- The shared head of `begin_frontend_if_true` / `_false`:
`get_last_stmt()->as<FrontendIfStmt>()`, giving the two child blocks of the if
node.  Modelled from the spec: `Stmt::as` (taichi/ir/ir.h is not in src/):
"recovering a node of the wrong kind where a specific kind is assumed is a
programming-defect assertion"; with no statement in the current block there is
no node to look at. -/
def last_if_stmt (s : State) : Status (BlockPtr × BlockPtr) :=
  match s.get_last_stmt with
  | none => .undefined_behavior "get_last_stmt on an empty block"
  | some p =>
    match s.builder.stmts[p]? with
    | some (.FrontendIfStmt _ t f) => .ok (t, f)
    | _ => .assertion_failure "is<FrontendIfStmt>()"

/-- Lines 284-289 and 731-735. -/
def begin_frontend_if_true (s : State) : Status Unit × State :=
  match last_if_stmt s with
  | .ok (true_statements, _) => (.ok (), s.push_back (create_scope true_statements))
  | st => (st.void, s)

/-- Lines 291-296 and 737-741. -/
def begin_frontend_if_false (s : State) : Status Unit × State :=
  match last_if_stmt s with
  | .ok (_, false_statements) => (.ok (), s.push_back (create_scope false_statements))
  | st => (st.void, s)

/-- Lines 290 and 724. -/
def pop_scope (s : State) : Status Unit × State :=
  s.pop_back

/-- The field read `stmt->body` through a statement pointer. -/
def State.body (s : State) (stmt : StmtPtr) : BlockPtr :=
  match s.builder.stmts[stmt]? with
  | some (.FrontendForStmt _ body) => body
  | some (.FrontendWhileStmt _ body) => body
  | some (.FrontendFuncDefStmt _ body) => body
  | _ => root_block

/-- The body shared by the loop and function constructors: build the node,
keep its pointer, insert it, push a scope for `stmt->body`. -/
def begin_with_body (mk : BlockPtr → Stmt) (s : State) : Status Unit × State :=
  let r := s.alloc 1 mk
  let stmt := r.1
  let s1 := r.2.insert stmt
  (.ok (), s1.push_back (create_scope (s1.body stmt)))

/-- Lines 301-307 and 697-703. -/
def begin_frontend_range_for (i b e : Expr) (s : State) : Status Unit × State :=
  begin_with_body (fun body => .FrontendForStmt (.range i b e) body) s

/-- Lines 308-309 and 723. -/
def end_frontend_range_for (s : State) : Status Unit × State :=
  s.pop_back

/-- Lines 310-318 and 705-711. -/
def begin_frontend_struct_for (loop_vars : ExprGroup) (global : Expr) (s : State) :
    Status Unit × State :=
  begin_with_body (fun body => .FrontendForStmt (.struct loop_vars global) body) s

/-- Lines 319-320. -/
def end_frontend_struct_for (s : State) : Status Unit × State :=
  s.pop_back

/-- Lines 321-329 and 713-721. -/
def begin_frontend_mesh_for (i : Expr) (mesh_ptr : MeshPtr) (element_type : MeshElementType)
    (s : State) : Status Unit × State :=
  begin_with_body (fun body => .FrontendForStmt (.mesh i mesh_ptr element_type) body) s

/-- Lines 330-331. -/
def end_frontend_mesh_for (s : State) : Status Unit × State :=
  s.pop_back

/-- Lines 338-344 and 690-695. -/
def begin_frontend_while (cond : Expr) (s : State) : Status Unit × State :=
  begin_with_body (fun body => .FrontendWhileStmt cond body) s

/-- Lines 759-764. -/
def begin_func (funcid : String) (s : State) : Status Unit × State :=
  begin_with_body (fun body => .FrontendFuncDefStmt funcid body) s

/-- Line 766: the argument is not used. -/
def end_func (_funcid : String) (s : State) : Status Unit × State :=
  s.pop_back

/-! ## Statement-inserting bindings -/

/-- Lines 270-273. -/
def create_kernel_return (value : Expr) (s : State) : Status Unit × State :=
  (.ok (), s.insert_leaf (.FrontendReturnStmt { exprs := [value] }))

/-- Lines 747-749. -/
def create_kernel_exprgroup_return (group : ExprGroup) (s : State) : Status Unit × State :=
  (.ok (), s.insert_leaf (.FrontendReturnStmt group))

/-- Lines 274-278 and 1020-1024. -/
def create_print (contents : List (Expr ⊕ String)) (s : State) : Status Unit × State :=
  (.ok (), s.insert_leaf (.FrontendPrintStmt contents))

/-- Lines 679-683. -/
def create_assert_stmt (cond : Expr) (msg : String) (args : List Expr) (s : State) :
    Status Unit × State :=
  (.ok (), s.insert_leaf (.FrontendAssertStmt cond msg args))

/-- Lines 345-348 and 743-745. -/
def insert_break_stmt (s : State) : Status Unit × State :=
  (.ok (), s.insert_leaf .FrontendBreakStmt)

/-- Lines 349-352 and 751-753. -/
def insert_continue_stmt (s : State) : Status Unit × State :=
  (.ok (), s.insert_leaf .FrontendContinueStmt)

/-- Lines 353-356 and 755-757. -/
def insert_expr_stmt (val : Expr) (s : State) : Status Unit × State :=
  (.ok (), s.insert_leaf (.FrontendExprStmt val))

/-- Lines 661-669. -/
def insert_external_func_call (func_addr : Nat) (source filename funcname : String)
    (args outputs : ExprGroup) (s : State) : Status Unit × State :=
  (.ok (), s.insert_leaf
    (.FrontendExternalFuncStmt func_addr source filename funcname args.exprs outputs.exprs))

/-- Lines 57-62. -/
def expr_assign (ext : Externals) (lhs rhs : Expr) (tb : String) (s : State) :
    Status Unit × State :=
  if ext.is_lvalue lhs then
    (.ok (), s.insert_leaf (.FrontendAssignStmt lhs rhs tb))
  else
    (.assertion_failure "lhs->is_lvalue()", s)

/-- The expression `Expr(std::make_shared<IdExpression>())`: a fresh
identifier, no name, type not yet known. -/
def State.fresh_id (s : State) : Nat × State :=
  (s.id_counter, { s with id_counter := s.id_counter + 1 })

/-- Lines 859-865. -/
def expr_alloca (s : State) : Status Expr × State :=
  let r := s.fresh_id
  (.ok (.IdExpression r.1 "" .unknown), r.2.insert_leaf (.FrontendAllocaStmt r.1 .unknown))

/-- The loop of lines 877-881, run over `shape` from its last axis to its first:
the argument is the part of `shape` still to visit, last axis first.  C++ `%`
and `/` on `int` truncate towards zero; a zero extent is a division by zero,
for which there is no result. -/
def reversed_indices : List Int → Int → Option (List Expr)
  | [], _ => some []
  | extent :: rest, linearized_index =>
    if extent = 0 then none
    else
      match reversed_indices rest (Int.tdiv linearized_index extent) with
      | none => none
      | some r => some (.ConstExpression_int32 (Int.tmod linearized_index extent) :: r)

/-- The loop of lines 874-889 from element position `i` on. -/
def alloca_local_tensor_loop (ext : Externals) (var : Expr) (shape : List Int)
    (element_type : DataType) : Nat → List Expr → State → Status Unit × State
  | _, [], s => (.ok (), s)
  | i, element :: rest, s =>
    match reversed_indices shape.reverse (i : Int) with
    | none => (.undefined_behavior "integer division by zero", s)
    | some reversed =>
      alloca_local_tensor_loop ext var shape element_type (i + 1) rest
        (s.insert_leaf (.FrontendAssignStmt
          (.TensorElementExpression var reversed.reverse shape
            (ext.data_type_size element_type)) element ""))

/-- The field read `get_last_stmt()->ret_type` of line 873. -/
def State.last_ret_type (s : State) : DataType :=
  match s.get_last_stmt with
  | some p =>
    match s.builder.stmts[p]? with
    | some (.FrontendAllocaStmt _ t) => t
    | _ => .unknown
  | none => .unknown

/-- Lines 866-891. -/
def expr_alloca_local_tensor (ext : Externals) (shape : List Int) (element_type : DataType)
    (elements : ExprGroup) (s : State) : Status Expr × State :=
  let r := s.fresh_id
  let s1 := r.2.insert_leaf (.FrontendAllocaStmt r.1 (.tensor shape element_type))
  let var := Expr.IdExpression r.1 "" s1.last_ret_type
  match alloca_local_tensor_loop ext var shape element_type 0 elements.exprs s1 with
  | (.ok _, s2) => (.ok var, s2)
  | (.error m, s2) => (.error m, s2)
  | (.assertion_failure c, s2) => (.assertion_failure c, s2)
  | (.undefined_behavior w, s2) => (.undefined_behavior w, s2)

/-! ## Loop-only helpers (lines 1052-1087) -/

/-- The pointer `g->list->parent_stmt` of a scope. -/
def State.parent_stmt (s : State) (g : ScopeGuard) : Option StmtPtr :=
  match s.builder.blocks[g.list]? with
  | some blk => blk.parent_stmt
  | none => none

/-- The pointer `scope_stack[i]->list->parent_stmt`. -/
def State.parent_stmt_at (s : State) (i : Nat) : Option StmtPtr :=
  match s.scope_stack[i]? with
  | some g => s.parent_stmt g
  | none => none

/-- The test `loop->is<FrontendForStmt>()` through a statement pointer. -/
def State.is_for (s : State) (loop : StmtPtr) : Bool :=
  match s.builder.stmts[loop]? with
  | some stmt => stmt.is_FrontendForStmt
  | none => false

/-- The field read `loop->as<FrontendForStmt>()->mesh_for` through a pointer. -/
def State.is_mesh_for (s : State) (loop : StmtPtr) : Bool :=
  match s.builder.stmts[loop]? with
  | some stmt => stmt.mesh_for
  | none => false

/-- Lines 1054-1055 and 1073-1074: the initial value of `loop`. -/
def State.innermost_parent (s : State) : Option StmtPtr :=
  if s.scope_stack.length ≠ 0 then s.parent_stmt_at (s.scope_stack.length - 1) else none

/-- The loop `while (!(loop->is<FrontendForStmt>()))` of lines 1060-1064 and
1077-1081, entered with a non-null `loop` and the index `i`; the result is the
value of `loop` when the loop is left. -/
def State.walk_outward (s : State) : Nat → StmtPtr → Option StmtPtr
  | 0, loop => if s.is_for loop then some loop else none
  | i + 1, loop =>
    if s.is_for loop then some loop
    else
      match s.parent_stmt_at i with
      | none => none
      | some outer => s.walk_outward i outer

/-- Lines 1058-1065 and 1075-1082: the value of `loop` after the guarded walk. -/
def State.walk_from (s : State) (loop : Option StmtPtr) : Option StmtPtr :=
  match loop with
  | some l => s.walk_outward (s.scope_stack.length - 1) l
  | none => none

/-- Lines 1052-1070. -/
def insert_thread_idx_expr (ext : Externals) (s : State) : Status Expr × State :=
  let arch := s.arch
  let loop := s.innermost_parent
  if arch ≠ ext.cuda ∧ ext.arch_is_cpu arch = false then
    (.error "ti.thread_idx() is only available in cuda or cpu context.", s)
  else
    match s.walk_from loop with
    | some l =>
      if s.is_for l then
        (.ok (.InternalFuncCallExpression "linear_thread_idx" []), s)
      else
        (.error "ti.thread_idx() is only valid within loops.", s)
    | none => (.error "ti.thread_idx() is only valid within loops.", s)

/-- Lines 1072-1087. -/
def insert_patch_idx_expr (s : State) : Status Expr × State :=
  let loop := s.innermost_parent
  match s.walk_from loop with
  | some l =>
    if s.is_for l ∧ s.is_mesh_for l then
      (.ok .MeshPatchIndexExpression, s)
    else
      (.error "ti.mesh_patch_idx() is only valid within mesh-for loops.", s)
  | none => (.error "ti.mesh_patch_idx() is only valid within mesh-for loops.", s)

/-- The nearest enclosing for-loop in the words of the spec: going outward
from the innermost scope (the list is innermost first), the first parent
statement that is a for-loop. -/
def State.nearest_for_in (s : State) : List ScopeGuard → Option StmtPtr
  | [] => none
  | g :: outer =>
    match s.parent_stmt g with
    | some p => if s.is_for p then some p else s.nearest_for_in outer
    | none => s.nearest_for_in outer

/-- The nearest enclosing for-loop of the current scope stack. -/
def State.nearest_for (s : State) : Option StmtPtr :=
  s.nearest_for_in s.scope_stack.reverse

/-! ## Sequences of calls -/

/-- The bound calls of the tracing interface modelled here. -/
inductive Call where
  | create_kernel_return (value : Expr)
  | create_kernel_exprgroup_return (group : ExprGroup)
  | create_print (contents : List (Expr ⊕ String))
  | create_assert_stmt (cond : Expr) (msg : String) (args : List Expr)
  | insert_break_stmt
  | insert_continue_stmt
  | insert_expr_stmt (val : Expr)
  | insert_external_func_call (func_addr : Nat) (source filename funcname : String)
      (args outputs : ExprGroup)
  | expr_assign (lhs rhs : Expr) (tb : String)
  | expr_alloca
  | expr_alloca_local_tensor (shape : List Int) (element_type : DataType)
      (elements : ExprGroup)
  | insert_thread_idx_expr
  | insert_patch_idx_expr
  | begin_frontend_if (cond : Expr)
  | begin_frontend_if_true
  | begin_frontend_if_false
  | begin_frontend_while (cond : Expr)
  | begin_frontend_range_for (i b e : Expr)
  | begin_frontend_struct_for (loop_vars : ExprGroup) (global : Expr)
  | begin_frontend_mesh_for (i : Expr) (mesh_ptr : MeshPtr) (element_type : MeshElementType)
  | begin_func (funcid : String)
  | pop_scope
  | end_frontend_range_for
  | end_frontend_struct_for
  | end_frontend_mesh_for
  | end_func (funcid : String)
  deriving Repr

/-- The calls that end in `scope_stack.push_back`. -/
def Call.is_push : Call → Bool
  | .begin_frontend_if_true => true
  | .begin_frontend_if_false => true
  | .begin_frontend_while _ => true
  | .begin_frontend_range_for _ _ _ => true
  | .begin_frontend_struct_for _ _ => true
  | .begin_frontend_mesh_for _ _ _ => true
  | .begin_func _ => true
  | _ => false

/-- The calls whose body is `scope_stack.pop_back()`. -/
def Call.is_pop : Call → Bool
  | .pop_scope => true
  | .end_frontend_range_for => true
  | .end_frontend_struct_for => true
  | .end_frontend_mesh_for => true
  | .end_func _ => true
  | _ => false

/-- One call: its status (the returned value dropped) and the state it leaves;
for a call that does not return, the state at the point where it stopped. -/
def step (ext : Externals) (c : Call) (s : State) : Status Unit × State :=
  match c with
  | .create_kernel_return value => create_kernel_return value s
  | .create_kernel_exprgroup_return group => create_kernel_exprgroup_return group s
  | .create_print contents => create_print contents s
  | .create_assert_stmt cond msg args => create_assert_stmt cond msg args s
  | .insert_break_stmt => insert_break_stmt s
  | .insert_continue_stmt => insert_continue_stmt s
  | .insert_expr_stmt val => insert_expr_stmt val s
  | .insert_external_func_call a src fn name args outs =>
    insert_external_func_call a src fn name args outs s
  | .expr_assign lhs rhs tb => expr_assign ext lhs rhs tb s
  | .expr_alloca => ((expr_alloca s).1.void, (expr_alloca s).2)
  | .expr_alloca_local_tensor shape t elements =>
    ((expr_alloca_local_tensor ext shape t elements s).1.void,
      (expr_alloca_local_tensor ext shape t elements s).2)
  | .insert_thread_idx_expr =>
    ((insert_thread_idx_expr ext s).1.void, (insert_thread_idx_expr ext s).2)
  | .insert_patch_idx_expr => ((insert_patch_idx_expr s).1.void, (insert_patch_idx_expr s).2)
  | .begin_frontend_if cond => begin_frontend_if cond s
  | .begin_frontend_if_true => begin_frontend_if_true s
  | .begin_frontend_if_false => begin_frontend_if_false s
  | .begin_frontend_while cond => begin_frontend_while cond s
  | .begin_frontend_range_for i b e => begin_frontend_range_for i b e s
  | .begin_frontend_struct_for loop_vars global => begin_frontend_struct_for loop_vars global s
  | .begin_frontend_mesh_for i m t => begin_frontend_mesh_for i m t s
  | .begin_func funcid => begin_func funcid s
  | .pop_scope => pop_scope s
  | .end_frontend_range_for => end_frontend_range_for s
  | .end_frontend_struct_for => end_frontend_struct_for s
  | .end_frontend_mesh_for => end_frontend_mesh_for s
  | .end_func funcid => end_func funcid s

/-- A sequence of calls in which every call returns: the final state, or
`none` as soon as one call does not return. -/
def run (ext : Externals) : List Call → State → Option State
  | [], s => some s
  | c :: cs, s =>
    match step ext c s with
    | (.ok _, s1) => run ext cs s1
    | _ => none

/-- The number of pushing calls in a sequence. -/
def count_push (cs : List Call) : Nat :=
  (cs.filter Call.is_push).length

/-- The number of popping calls in a sequence. -/
def count_pop (cs : List Call) : Nat :=
  (cs.filter Call.is_pop).length

/-- A sequence is balanced above depth `d`: no pop reaches below the depth at
which the sequence starts minus `d`, and it ends `d` levels below its start
(read with `d = 0`: every push is closed inside the sequence and nothing else
is closed). -/
def balanced_from : Nat → List Call → Bool
  | d, [] => d == 0
  | d, c :: cs =>
    if c.is_push then balanced_from (d + 1) cs
    else if c.is_pop then
      match d with
      | 0 => false
      | d + 1 => balanced_from d cs
    else balanced_from d cs

/-- A balanced sequence of calls. -/
def balanced (cs : List Call) : Bool :=
  balanced_from 0 cs

/-! ## Concrete inputs for evaluating the bindings -/

/-- A concrete choice of the external declarations: enumerator `5` is
`Arch::cuda`, the enumerators below it are the CPU architectures, identifiers
and tensor elements are lvalues, every type is four bytes wide. -/
def sample_externals : Externals :=
  { cuda := 5
    arch_is_cpu := fun a => decide (a < 5)
    is_lvalue := fun e =>
      match e with
      | .IdExpression _ _ _ => true
      | .TensorElementExpression _ _ _ _ => true
      | _ => false
    data_type_size := fun _ => 4 }

/-- An expression of a kind the bindings do not inspect, used as a condition
or loop bound in examples. -/
def sample_expr (name : String) : Expr :=
  .other name []

/-- The trace `while c: (break)` followed by the opening of a function. -/
def sample_trace : List Call :=
  [.begin_frontend_while (sample_expr "c"), .insert_break_stmt, .pop_scope, .begin_func "f"]

/-- The state the bindings are in after `sample_trace`. -/
def sample_trace_state : State :=
  { arch := 0
    builder :=
      { stmts := [.FrontendWhileStmt (sample_expr "c") 1, .FrontendBreakStmt,
          .FrontendFuncDefStmt "f" 2]
        blocks := [{ statements := [0, 2], parent_stmt := none },
          { statements := [1], parent_stmt := some 0 },
          { statements := [], parent_stmt := some 2 }] }
    scope_stack := [{ list := 2 }]
    id_counter := 0 }

/-- Every scope on the stack has a non-null parent statement. -/
def State.all_scopes_parented (s : State) : Prop :=
  ∀ g ∈ s.scope_stack, (s.parent_stmt g).isSome = true

/-- Evaluation of `all_scopes_parented` on a concrete state. -/
instance (s : State) : Decidable s.all_scopes_parented := by
  unfold State.all_scopes_parented
  infer_instance

/-- The state after `for i in mesh: for j in range(b, e):`, the range-for
nested in the mesh-for. -/
def sample_range_in_mesh_state : State :=
  (begin_frontend_range_for (sample_expr "j") (sample_expr "b") (sample_expr "e")
    (begin_frontend_mesh_for (sample_expr "i") 0 .Vertex (State.init 0)).2).2

/-- The state after `for j in range(b, e): for i in mesh: while c:`, a
while-loop inside a mesh-for nested in a range-for. -/
def sample_while_in_mesh_state : State :=
  (begin_frontend_while (sample_expr "c")
    (begin_frontend_mesh_for (sample_expr "i") 0 .Vertex
      (begin_frontend_range_for (sample_expr "j") (sample_expr "b") (sample_expr "e")
        (State.init 0)).2).2).2

/-- The state after `def f: while c: if d: (true branch)`, a stack made only
of function, while-loop and if-branch scopes. -/
def sample_no_loop_state : State :=
  (begin_frontend_if_true
    (begin_frontend_if (sample_expr "d")
      (begin_frontend_while (sample_expr "c") (begin_func "f" (State.init 0)).2).2).2).2

/-- The scope is bound to a block whose parent statement is a for-loop. -/
def State.has_for_parent (s : State) (g : ScopeGuard) : Bool :=
  match s.parent_stmt g with
  | some p => s.is_for p
  | none => false

/-! ## Invariants of the builder state -/

/-- Build a statement with `nchild` child blocks and insert it into the
current block: the pair `std::make_unique<...>(...)`, `insert(std::move(...))`
that opens every statement-creating binding. -/
def State.insert_new (s : State) (nchild : Nat) (mk : BlockPtr → Stmt) : State :=
  (s.alloc nchild mk).2.insert (s.alloc nchild mk).1

/-- The state `t` arises from `s` by building statements and inserting them
into the current block (and drawing fresh identifiers); each statement built
owns exactly the child blocks allocated with it. -/
inductive Inserts : State → State → Prop where
  | refl (s : State) : Inserts s s
  | fresh (s t : State) : Inserts s t → Inserts s t.fresh_id.2
  | insert_new (s t : State) (nchild : Nat) (mk : BlockPtr → Stmt) :
      (∀ c ∈ (mk t.builder.blocks.length).child_blocks,
        t.builder.blocks.length ≤ c ∧ c < t.builder.blocks.length + nchild) →
      Inserts s t → Inserts s (t.insert_new nchild mk)

/-- Well-formed states: the root block exists; every scope on the stack is
bound to an existing block with a parent statement; every child block of a
statement exists and has that statement as its parent; the statements listed
in a block exist, and their child blocks were created after the block. -/
structure State.WF (s : State) : Prop where
  root : 0 < s.builder.blocks.length
  scope : ∀ g ∈ s.scope_stack, ∃ (blk : Block) (p : StmtPtr),
    s.builder.blocks[g.list]? = some blk ∧ blk.parent_stmt = some p
  child : ∀ (p : StmtPtr) (stmt : Stmt), s.builder.stmts[p]? = some stmt →
    ∀ c ∈ stmt.child_blocks,
      ∃ blk : Block, s.builder.blocks[c]? = some blk ∧ blk.parent_stmt = some p
  stmts_valid : ∀ (b : BlockPtr) (blk : Block), s.builder.blocks[b]? = some blk →
    ∀ p ∈ blk.statements, p < s.builder.stmts.length
  order : ∀ (b : BlockPtr) (blk : Block), s.builder.blocks[b]? = some blk →
    ∀ p ∈ blk.statements, ∀ stmt : Stmt, s.builder.stmts[p]? = some stmt →
      ∀ c ∈ stmt.child_blocks, b < c

/-- The states the bindings can be in: the start of a trace, and the state
left by any call (returning or not) made in such a state. -/
inductive Reachable (ext : Externals) : State → Prop where
  | init (arch : Arch) : Reachable ext (State.init arch)
  | step (c : Call) (s : State) : Reachable ext s → Reachable ext (step ext c s).2

/-- A scope that may be pushed in state `t`: bound to an existing block with a
parent statement, created after the current block. -/
def good_push (t : State) (g : ScopeGuard) : Prop :=
  (∃ blk p, t.builder.blocks[g.list]? = some blk ∧ blk.parent_stmt = some p) ∧
    t.current_block < g.list

/-- The effect claimed of a loop or function constructor taking `s` to `s1`:
one new statement node `stmt body` whose body is one new, empty block with
that node as parent; the node appended to the current block of `s` and no
other block of `s` touched; one scope pushed, bound to that body. -/
def inserts_and_pushes_body (s s1 : State) (stmt : BlockPtr → Stmt) : Prop :=
  s1.builder.stmts = s.builder.stmts ++ [stmt s.builder.blocks.length] ∧
    s1.builder.blocks.length = s.builder.blocks.length + 1 ∧
    s1.builder.blocks[s.builder.blocks.length]? =
      some { statements := [], parent_stmt := some s.builder.stmts.length } ∧
    (∃ blk, s.builder.blocks[s.current_block]? = some blk ∧
      s1.builder.blocks[s.current_block]? =
        some { blk with statements := blk.statements ++ [s.builder.stmts.length] }) ∧
    (∀ b, b ≠ s.current_block → b < s.builder.blocks.length →
      s1.builder.blocks[b]? = s.builder.blocks[b]?) ∧
    s1.scope_stack = s.scope_stack ++ [{ list := s.builder.blocks.length }]

/-- The state after `begin_frontend_if(d)` at the start of a trace. -/
def sample_if_state : State :=
  (begin_frontend_if (sample_expr "d") (State.init 0)).2

/-- The state after `if d: (true branch) break; while c: (end)`, the true
branch of the if statement still open. -/
def sample_if_true_done_state : State :=
  (pop_scope
    (begin_frontend_while (sample_expr "c")
      (insert_break_stmt (begin_frontend_if_true sample_if_state).2).2).2).2

/-- The state after the false branch `continue` has been traced on top of
`sample_if_true_done_state`, the false branch still open. -/
def sample_if_false_done_state : State :=
  (insert_continue_stmt
    (begin_frontend_if_false (pop_scope sample_if_true_done_state).2).2).2

/-- The calls traced in the true branch of the sample if statement. -/
def sample_true_branch : List Call :=
  [.insert_break_stmt, .begin_frontend_while (sample_expr "c"), .pop_scope]

/-- The calls traced in the false branch of the sample if statement. -/
def sample_false_branch : List Call :=
  [.insert_continue_stmt]

/-! ## Operator expressions (lines 775-801 and 917-930) -/

/-- Lines 917-920: the values given to the Python enumeration `BinaryOpType`:
one for every `t` from `0` up to and including `(int)BinaryOpType::undefined`,
under the name `binary_op_type_name` gives it (a parameter: it is not in
src/). -/
def exported_BinaryOpType (binary_op_type_name : BinaryOpType → String)
    (undefined : BinaryOpType) : List (String × BinaryOpType) :=
  (List.range (undefined + 1)).map (fun t => (binary_op_type_name t, t))

/-- Lines 925-928: the values given to the Python enumeration `UnaryOpType`. -/
def exported_UnaryOpType (unary_op_type_name : UnaryOpType → String)
    (undefined : UnaryOpType) : List (String × UnaryOpType) :=
  (List.range (undefined + 1)).map (fun t => (unary_op_type_name t, t))

/-- Lines 921-923: `Expr::make<BinaryOpExpression, const BinaryOpType &,
const Expr &, const Expr &>`. -/
def make_binary_op_expr (type : BinaryOpType) (lhs rhs : Expr) : Expr :=
  .BinaryOpExpression type lhs rhs

/-- Lines 929-930: `Expr::make<UnaryOpExpression, const UnaryOpType &,
const Expr &>`. -/
def make_unary_op_expr (type : UnaryOpType) (operand : Expr) : Expr :=
  .UnaryOpExpression type operand

/-- The operator of a binary-op expression. -/
def Expr.binary_op_type : Expr → Option BinaryOpType
  | .BinaryOpExpression type _ _ => some type
  | _ => none

/-- The operator of a unary-op expression. -/
def Expr.unary_op_type : Expr → Option UnaryOpType
  | .UnaryOpExpression type _ => some type
  | _ => none

/-- Lines 775-777. -/
def expr_atomic_add (a b : Expr) : Expr :=
  .AtomicOpExpression .add a b

/-- Lines 779-781. -/
def expr_atomic_sub (a b : Expr) : Expr :=
  .AtomicOpExpression .sub a b

/-- Lines 783-785. -/
def expr_atomic_min (a b : Expr) : Expr :=
  .AtomicOpExpression .min a b

/-- Lines 787-789. -/
def expr_atomic_max (a b : Expr) : Expr :=
  .AtomicOpExpression .max a b

/-- Lines 791-793. -/
def expr_atomic_bit_and (a b : Expr) : Expr :=
  .AtomicOpExpression .bit_and a b

/-- Lines 795-797. -/
def expr_atomic_bit_or (a b : Expr) : Expr :=
  .AtomicOpExpression .bit_or a b

/-- Lines 799-801. -/
def expr_atomic_bit_xor (a b : Expr) : Expr :=
  .AtomicOpExpression .bit_xor a b

/-- The operation tag, destination and value of an atomic-op expression. -/
def Expr.atomic_op : Expr → Option (AtomicOpType × Expr × Expr)
  | .AtomicOpExpression op_type dest val => some (op_type, dest, val)
  | _ => none

/-- The operation tag of an atomic-op expression. -/
def Expr.atomic_op_type : Expr → Option AtomicOpType
  | .AtomicOpExpression op_type _ _ => some op_type
  | _ => none

/-- The seven atomic builders in the order of the source. -/
def atomic_builders : List (Expr → Expr → Expr) :=
  [expr_atomic_add, expr_atomic_sub, expr_atomic_min, expr_atomic_max, expr_atomic_bit_and,
    expr_atomic_bit_or, expr_atomic_bit_xor]

/-! ## Backend preconditions (lines 1052-1057, 1236-1241, 1260-1264) -/

/-- The object made by the constructor call `SparseMatrixBuilder(n, m,
max_num_entries)` (taichi/program/sparse_matrix.h is not in src/), as the
arguments it is made from. -/
structure SparseMatrixBuilder where
  n : Int
  m : Int
  max_num_entries : Nat
  deriving DecidableEq, Repr

/-- The object made by the constructor call `SparseMatrix(n, m)`, as the
arguments it is made from. -/
structure SparseMatrix where
  n : Int
  m : Int
  deriving DecidableEq, Repr

/-- Lines 1236-1241. -/
def create_sparse_matrix_builder (ext : Externals) (n m : Int) (max_num_entries : Nat)
    (s : State) : Status SparseMatrixBuilder × State :=
  if ext.arch_is_cpu s.arch = false then
    (.error "SparseMatrix only supports CPU for now.", s)
  else
    (.ok { n := n, m := m, max_num_entries := max_num_entries }, s)

/-- Lines 1260-1264. -/
def create_sparse_matrix (ext : Externals) (n m : Int) (s : State) :
    Status SparseMatrix × State :=
  if ext.arch_is_cpu s.arch = false then
    (.error "SparseMatrix only supports CPU for now.", s)
  else
    (.ok { n := n, m := m }, s)

/-- The local variables `arch` and `loop` of `insert_thread_idx_expr`. -/
structure ThreadIdxLocals where
  arch : Arch
  loop : Option StmtPtr
  deriving DecidableEq, Repr

/-- Lines 1052-1070 once more, keeping with the status the values the local
variables hold at the point where the call ends: line 1053 loads `arch`, lines
1054-1055 load `loop` from the scope stack, line 1056 is the architecture
check, lines 1058-1065 the walk, line 1066 the loop check. -/
def insert_thread_idx_expr_locals (ext : Externals) (s : State) :
    Status Expr × ThreadIdxLocals :=
  let arch := s.arch
  let loop := s.innermost_parent
  if arch ≠ ext.cuda ∧ ext.arch_is_cpu arch = false then
    (.error "ti.thread_idx() is only available in cuda or cpu context.",
      { arch := arch, loop := loop })
  else
    let loop := s.walk_from loop
    match loop with
    | some l =>
      if s.is_for l then
        (.ok (.InternalFuncCallExpression "linear_thread_idx" []), { arch := arch, loop := loop })
      else
        (.error "ti.thread_idx() is only valid within loops.", { arch := arch, loop := loop })
    | none =>
      (.error "ti.thread_idx() is only valid within loops.", { arch := arch, loop := loop })

/-! ## `Expr` handles and `Expression` nodes in memory (lines 593-634, 944-948)

The bindings of this part look at an `Expr` object through its address and
mutate the node it points to, so here an `Expr` is an address in a memory of
`Expr` objects, each holding the pointer `expr` to a shared node. -/

/-- An `Expression *`: index into the node memory. -/
abbrev ExpressionPtr := Nat

/-- An `Expr *`: index into the memory of `Expr` objects. -/
abbrev ExprAddr := Nat

/-- An `SNode *`. -/
abbrev SNodePtr := Nat

/-- Modelled from the spec: an `Expression` node (taichi/ir/frontend_ir.h is not
in src/): the global-variable node with its name, its backing snode and the
flag `is_primal` ("toggling gradient storage ... named flags on place-backed
nodes"), or a node of another kind of the closed set. -/
inductive Expression where
  | GlobalVariableExpression (name : String) (snode : Option SNodePtr) (is_primal : Bool)
  | other (kind : String)
  deriving DecidableEq, Repr

/-- The memory of one trace: the `Expression` nodes, and the `Expr` objects,
each with the node its field `expr` points to. -/
structure ExprMemory where
  nodes : List Expression
  exprs : List ExpressionPtr
  deriving DecidableEq, Repr

/-- Modelled from the spec: `Expr::cast<GlobalVariableExpression>()`
(taichi/ir/expr.h is not in src/): the pointer cast of the node of the handle,
null when the node is of another kind.  The source tests the kind apart, with
`is<...>()` (lines 596-601), and asserts it before the cast where it wants the
assertion (lines 946-947, 964-965). -/
def ExprMemory.cast_GlobalVariableExpression (mem : ExprMemory) (expr : ExprAddr) :
    Option ExpressionPtr :=
  match mem.exprs[expr]? with
  | some p =>
    match mem.nodes[p]? with
    | some (.GlobalVariableExpression _ _ _) => some p
    | _ => none
  | none => none

/-- Lines 596-597: `expr->is<GlobalVariableExpression>()`, the cast is not
null. -/
def ExprMemory.is_global_var (mem : ExprMemory) (expr : ExprAddr) : Bool :=
  (mem.cast_GlobalVariableExpression expr).isSome

/-- The read `p->is_primal` through a pointer to a global-variable node. -/
def ExprMemory.read_is_primal (mem : ExprMemory) (p : ExpressionPtr) : Bool :=
  match mem.nodes[p]? with
  | some (.GlobalVariableExpression _ _ is_primal) => is_primal
  | _ => false

/-- The read `p->name` through a pointer to a global-variable node. -/
def ExprMemory.read_name (mem : ExprMemory) (p : ExpressionPtr) : String :=
  match mem.nodes[p]? with
  | some (.GlobalVariableExpression name _ _) => name
  | _ => ""

/-- The write `p->is_primal = v` through a pointer to a global-variable node. -/
def ExprMemory.write_is_primal (mem : ExprMemory) (p : ExpressionPtr) (v : Bool) :
    ExprMemory :=
  match mem.nodes[p]? with
  | some (.GlobalVariableExpression name snode _) =>
    { mem with nodes := mem.nodes.set p (.GlobalVariableExpression name snode v) }
  | _ => mem

/-- The write `p->name = na` through a pointer to a global-variable node. -/
def ExprMemory.write_name (mem : ExprMemory) (p : ExpressionPtr) (na : String) : ExprMemory :=
  match mem.nodes[p]? with
  | some (.GlobalVariableExpression _ snode is_primal) =>
    { mem with nodes := mem.nodes.set p (.GlobalVariableExpression na snode is_primal) }
  | _ => mem

/-- Lines 602-605: `expr->cast<GlobalVariableExpression>()->is_primal`; with a
null cast the member is read through a null pointer. -/
def ExprMemory.is_primal (mem : ExprMemory) (expr : ExprAddr) : Status Bool × ExprMemory :=
  match mem.cast_GlobalVariableExpression expr with
  | some p => (.ok (mem.read_is_primal p), mem)
  | none => (.undefined_behavior "member access through a null pointer", mem)

/-- Lines 607-610. -/
def ExprMemory.set_name (mem : ExprMemory) (expr : ExprAddr) (na : String) :
    Status Unit × ExprMemory :=
  match mem.cast_GlobalVariableExpression expr with
  | some p => (.ok (), mem.write_name p na)
  | none => (.undefined_behavior "member access through a null pointer", mem)

/-- Lines 611-614. -/
def ExprMemory.set_is_primal (mem : ExprMemory) (expr : ExprAddr) (v : Bool) :
    Status Unit × ExprMemory :=
  match mem.cast_GlobalVariableExpression expr with
  | some p => (.ok (), mem.write_is_primal p v)
  | none => (.undefined_behavior "member access through a null pointer", mem)

/-- Lines 619-622. -/
def ExprMemory.get_expr_name (mem : ExprMemory) (expr : ExprAddr) :
    Status String × ExprMemory :=
  match mem.cast_GlobalVariableExpression expr with
  | some p => (.ok (mem.read_name p), mem)
  | none => (.undefined_behavior "member access through a null pointer", mem)

/-- Lines 945-948. -/
def ExprMemory.set_global_grad (mem : ExprMemory) (expr : ExprAddr) :
    Status Unit × ExprMemory :=
  if mem.is_global_var expr = false then
    (.assertion_failure "expr.is<GlobalVariableExpression>()", mem)
  else
    match mem.cast_GlobalVariableExpression expr with
    | some p => (.ok (), mem.write_is_primal p false)
    | none => (.undefined_behavior "member access through a null pointer", mem)

/-- Line 624: `(uint64)expr`, the address of the `Expr` object. -/
def get_raw_address (expr : ExprAddr) : Nat :=
  expr

/-- Lines 625-634: `(uint64)e->expr.get()`, the address of the node; nothing
for an address at which there is no `Expr` object. -/
def ExprMemory.get_underlying_ptr_address (mem : ExprMemory) (e : ExprAddr) : Option Nat :=
  mem.exprs[e]?

/-- Modelled from the spec: the copy of an `Expr` (taichi/ir/expr.h is not in
src/): "copying an Expr aliases the same node; it never deep-copies".  The copy
is a new `Expr` object; the result is its address and the memory holding it. -/
def ExprMemory.copy (mem : ExprMemory) (e : ExprAddr) : Option (ExprAddr × ExprMemory) :=
  match mem.exprs[e]? with
  | some p => some (mem.exprs.length, { mem with exprs := mem.exprs ++ [p] })
  | none => none

/-- A memory with a global variable `x` on snode 7 at node 0, an identifier at
node 1, and three `Expr` objects: two on the global variable, one on the
identifier. -/
def sample_memory : ExprMemory :=
  { nodes := [.GlobalVariableExpression "x" (some 7) true, .other "IdExpression"]
    exprs := [0, 1, 0] }

/-! ## Pickling of `DataType` (lines 115-131) -/

/-- The enumerators of `PrimitiveTypeID` (taichi/inc/data_type.inc.h is not in
src/): `unknown`, named at line 863, and the other ones, by the number the
constructor `DataType.primitive` carries. -/
inductive PrimitiveTypeID where
  | unknown
  | known (id : Nat)
  deriving DecidableEq, Repr

/-- The integer values of the enumerators of `PrimitiveTypeID`, not in src/ and
taken as a parameter: the casts `(std::size_t)primitive->type` and
`(PrimitiveTypeID)(n)`.  C++ gives back the enumerator from its own value. -/
structure PrimitiveTypeValues where
  to_size_t : PrimitiveTypeID → Nat
  of_size_t : Nat → PrimitiveTypeID
  of_to : ∀ type : PrimitiveTypeID, of_size_t (to_size_t type) = type

/-- The lines 118-121 up to the cast: `dynamic_cast<const PrimitiveType *>` of
the wrapped type followed by `->type`; `none` when the cast is null, the
wrapped type not being a primitive type. -/
def DataType.primitive_type : DataType → Option PrimitiveTypeID
  | .unknown => some .unknown
  | .primitive id => some (.known id)
  | _ => none

/-- Modelled from the spec: `PrimitiveType::get` (taichi/ir/type.h is not in
src/): "look up a primitive by identity"; types are interned, so the primitive
type of an id is one value. -/
def PrimitiveType_get : PrimitiveTypeID → DataType
  | .unknown => .unknown
  | .known id => .primitive id

/-- An element of a Python tuple as the cast `t[0].cast<std::size_t>()` of
line 128 sees it (pybind11 is a library, not in src/): an integer object that
casts to the `std::size_t` value `n`, or an object on which the cast raises
`py::cast_error` (a negative or too large integer, a float, a string, ...). -/
inductive PyObject where
  | integer (n : Nat)
  | other (repr : String)
  deriving DecidableEq, Repr

/-- The call `obj.cast<std::size_t>()`; `none` when it raises. -/
def PyObject.cast_size_t : PyObject → Option Nat
  | .integer n => some n
  | .other _ => none

/-- The number `n` is the value of an enumerator of `PrimitiveTypeID`: the cast
`(PrimitiveTypeID)(n)` gives an enumerator, the one whose value is `n`.  For
other numbers the cast gives a value of the enumeration type that is no
enumerator, and `of_size_t` has no meaning. -/
def PrimitiveTypeValues.is_enumerator (values : PrimitiveTypeValues) (n : Nat) : Bool :=
  decide (values.to_size_t (values.of_size_t n) = n)

/-- Modelled from the spec: `PrimitiveType::get` applied to `(PrimitiveTypeID)(n)`
(taichi/ir/type.h is not in src/): "look up a primitive by identity".  A number
that is the value of no enumerator names no primitive type; the lookup finds
none and the call returns no `DataType`. -/
def PrimitiveType_get_of_size_t (values : PrimitiveTypeValues) (n : Nat) : Status DataType :=
  if values.is_enumerator n then .ok (PrimitiveType_get (values.of_size_t n))
  else .error "PrimitiveType::get: no primitive type has this id"

/-- Lines 116-122: the get-state function of the pickle support; the Python
tuple is the list of its elements, here the one integer object made from
`(std::size_t)primitive->type`. -/
def DataType.getstate (values : PrimitiveTypeValues) (dt : DataType) :
    Status (List PyObject) :=
  match dt.primitive_type with
  | some type => .ok [.integer (values.to_size_t type)]
  | none => .assertion_failure "primitive"

/-- Lines 123-131: the set-state function of the pickle support: the size test
of lines 124-125, then the cast of `t[0]` to `std::size_t`, which raises on an
object that is no such integer, then `PrimitiveType::get`. -/
def DataType.setstate (values : PrimitiveTypeValues) (t : List PyObject) : Status DataType :=
  if t.length ≠ 1 then .error "Invalid state!"
  else
    match t[0]? with
    | some obj =>
      match obj.cast_size_t with
      | some n => PrimitiveType_get_of_size_t values n
      | none => .error "py::cast_error"
    | none => .error "Invalid state!"

/-- A concrete choice of the enumerator values: `unknown` is `0`, the
enumerator carried as `id` is `id + 1`. -/
def sample_primitive_values : PrimitiveTypeValues :=
  { to_size_t := fun type =>
      match type with
      | .unknown => 0
      | .known id => id + 1
    of_size_t := fun n =>
      match n with
      | 0 => .unknown
      | n + 1 => .known n
    of_to := fun type => by cases type <;> rfl }

/-- Another choice of the enumerator values, with a gap: `unknown` is `0`, the
enumerator carried as `id` is `id + 2`, and `1` is the value of no
enumerator. -/
def sample_gap_primitive_values : PrimitiveTypeValues :=
  { to_size_t := fun type =>
      match type with
      | .unknown => 0
      | .known id => id + 2
    of_size_t := fun n =>
      match n with
      | 0 => .unknown
      | 1 => .unknown
      | n + 2 => .known n
    of_to := fun type => by cases type <;> rfl }

/-! ## Mesh bindings (lines 1277-1381) -/

/-- The enumeration `mesh::MeshRelationType` as exported at lines 1289-1306. -/
inductive MeshRelationType where
  | VV | VE | VF | VC
  | EV | EE | EF | EC
  | FV | FE | FF | FC
  | CV | CE | CF | CC
  deriving DecidableEq, Repr

/-- The enumeration `mesh::ConvType` as exported at lines 1308-1312. -/
inductive ConvType where
  | l2g
  | l2r
  | g2r
  deriving DecidableEq, Repr

/-- Lines 1282-1287: the names and values given to the Python enumeration
`MeshElementType`, in the order of the source. -/
def exported_MeshElementType : List (String × MeshElementType) :=
  [("Vertex", .Vertex), ("Edge", .Edge), ("Face", .Face), ("Cell", .Cell)]

/-- Lines 1289-1306: the names and values given to the Python enumeration
`MeshRelationType`, in the order of the source. -/
def exported_MeshRelationType : List (String × MeshRelationType) :=
  [("VV", .VV), ("VE", .VE), ("VF", .VF), ("VC", .VC),
    ("EV", .EV), ("EE", .EE), ("EF", .EF), ("EC", .EC),
    ("FV", .FV), ("FE", .FE), ("FF", .FF), ("FC", .FC),
    ("CV", .CV), ("CE", .CE), ("CF", .CF), ("CC", .CC)]

/-- The initial of an element type, the letter it has in the names of the
relation types. -/
def MeshElementType.initial : MeshElementType → String
  | .Vertex => "V"
  | .Edge => "E"
  | .Face => "F"
  | .Cell => "C"

/-- The four element types in the order of the source. -/
def all_element_types : List MeshElementType :=
  [.Vertex, .Edge, .Face, .Cell]

/-- The initials of each ordered pair `(from, to)` of element types put
together, the pairs taken row by row. -/
def relation_names_by_pairs : List String :=
  all_element_types.flatMap (fun a => all_element_types.map (fun b => a.initial ++ b.initial))

/-- Modelled from the spec: the enumerator of `mesh::MeshRelationType` for the
ordered pair `(from, to)` (taichi/ir/mesh.h is not in src/): "element types
{Vertex, Edge, Face, Cell} relate pairwise (16 ordered pairs)"; the enumerator
written `mesh::MeshRelationType::XY` at lines 1290-1305 is the relation from the
element type of initial `X` to the element type of initial `Y`. -/
def MeshRelationType.of_pair : MeshElementType → MeshElementType → MeshRelationType
  | .Vertex, .Vertex => .VV
  | .Vertex, .Edge => .VE
  | .Vertex, .Face => .VF
  | .Vertex, .Cell => .VC
  | .Edge, .Vertex => .EV
  | .Edge, .Edge => .EE
  | .Edge, .Face => .EF
  | .Edge, .Cell => .EC
  | .Face, .Vertex => .FV
  | .Face, .Edge => .FE
  | .Face, .Face => .FF
  | .Face, .Cell => .FC
  | .Cell, .Vertex => .CV
  | .Cell, .Edge => .CE
  | .Cell, .Face => .CF
  | .Cell, .Cell => .CC

/-- The 16 ordered pairs `(from, to)` of element types, row by row, each with
its name (the two initials, `from` first) and its enumerator. -/
def relation_entries_by_pairs : List (String × MeshRelationType) :=
  all_element_types.flatMap (fun a =>
    all_element_types.map (fun b => (a.initial ++ b.initial, MeshRelationType.of_pair a b)))

/-- A `std::map` (or `std::unordered_map`) as the list of its entries in the
order they were inserted; the order is not looked at. -/
structure StdMap (K V : Type) where
  entries : List (K × V)
  deriving Repr

/-- The call `m.count(k)`: the number of entries of key `k`. -/
def StdMap.count {K V : Type} [DecidableEq K] (m : StdMap K V) (k : K) : Nat :=
  (m.entries.filter (fun e => decide (e.1 = k))).length

/-- The call `m.find(k)`: the value of the first entry of key `k`, `none` for
the end iterator. -/
def StdMap.find {K V : Type} [DecidableEq K] (m : StdMap K V) (k : K) : Option V :=
  match m.entries.find? (fun e => decide (e.1 = k)) with
  | some e => some e.2
  | none => none

/-- The call `m.insert(std::pair(k, v))`: a new entry when the key is not in
the map, and no change when it is. -/
def StdMap.insert {K V : Type} [DecidableEq K] (m : StdMap K V) (k : K) (v : V) : StdMap K V :=
  if m.count k = 0 then { entries := m.entries ++ [(k, v)] } else m

/-- Modelled from the spec: `mesh::MeshLocalRelation` (taichi/ir/mesh.h is not
in src/): "a relation is either fixed (... backed by one spatial-tree field) or
dynamic (... backed by a values field plus an offsets field)". -/
structure MeshLocalRelation where
  fixed : Bool
  value : SNodePtr
  offset : Option SNodePtr
  deriving DecidableEq, Repr

/-- The constructor call `mesh::MeshLocalRelation(value)` of line 1373. -/
def MeshLocalRelation.of_value (value : SNodePtr) : MeshLocalRelation :=
  { fixed := true, value := value, offset := none }

/-- The constructor call `mesh::MeshLocalRelation(value, offset)` of line 1380. -/
def MeshLocalRelation.of_value_offset (value offset : SNodePtr) : MeshLocalRelation :=
  { fixed := false, value := value, offset := some offset }

/-- The fields of `mesh::Mesh` that the bindings of lines 1334-1381 write. -/
structure Mesh where
  num_elements : StdMap MeshElementType Int
  patch_max_element_num : StdMap MeshElementType Int
  owned_offset : StdMap MeshElementType SNodePtr
  total_offset : StdMap MeshElementType SNodePtr
  index_mapping : StdMap (MeshElementType × ConvType) SNodePtr
  relations : StdMap MeshRelationType MeshLocalRelation
  num_patches : Int
  deriving Repr

/-- Lines 1324-1331: the mesh made by `create_mesh`, with empty maps. -/
def create_mesh : Mesh :=
  { num_elements := { entries := [] }
    patch_max_element_num := { entries := [] }
    owned_offset := { entries := [] }
    total_offset := { entries := [] }
    index_mapping := { entries := [] }
    relations := { entries := [] }
    num_patches := 0 }

/-- Lines 1334-1337. -/
def set_owned_offset (mesh : Mesh) (type : MeshElementType) (snode : SNodePtr) : Mesh :=
  { mesh with owned_offset := mesh.owned_offset.insert type snode }

/-- Lines 1338-1341. -/
def set_total_offset (mesh : Mesh) (type : MeshElementType) (snode : SNodePtr) : Mesh :=
  { mesh with total_offset := mesh.total_offset.insert type snode }

/-- Lines 1342-1344. -/
def set_num_patches (mesh : Mesh) (num_patches : Int) : Mesh :=
  { mesh with num_patches := num_patches }

/-- Lines 1346-1349. -/
def set_num_elements (mesh : Mesh) (type : MeshElementType) (num_elements : Int) : Mesh :=
  { mesh with num_elements := mesh.num_elements.insert type num_elements }

/-- Lines 1351-1354: `num_elements.find(type)->second`; for a type not in the
map the end iterator is dereferenced. -/
def get_num_elements (mesh : Mesh) (type : MeshElementType) : Status Int :=
  match mesh.num_elements.find type with
  | some n => .ok n
  | none => .undefined_behavior "dereference of the end iterator"

/-- Lines 1356-1361. -/
def set_patch_max_element_num (mesh : Mesh) (type : MeshElementType) (max_element_num : Int) :
    Mesh :=
  { mesh with patch_max_element_num := mesh.patch_max_element_num.insert type max_element_num }

/-- Lines 1363-1368. -/
def set_index_mapping (mesh : Mesh) (element_type : MeshElementType) (conv_type : ConvType)
    (snode : SNodePtr) : Mesh :=
  { mesh with index_mapping := mesh.index_mapping.insert (element_type, conv_type) snode }

/-- Lines 1370-1374. -/
def set_relation_fixed (mesh : Mesh) (type : MeshRelationType) (value : SNodePtr) : Mesh :=
  { mesh with relations := mesh.relations.insert type (MeshLocalRelation.of_value value) }

/-- Lines 1376-1381. -/
def set_relation_dynamic (mesh : Mesh) (type : MeshRelationType) (value offset : SNodePtr) :
    Mesh :=
  { mesh with
    relations := mesh.relations.insert type (MeshLocalRelation.of_value_offset value offset) }

/-- A mesh with 8 vertices, 12 edges and a fixed edge-to-vertex relation. -/
def sample_mesh : Mesh :=
  set_relation_fixed (set_num_elements (set_num_elements create_mesh .Vertex 8) .Edge 12) .EV 5

/-- The mesh `sample_mesh` with, in addition, an entry for vertices in each of
the other maps. -/
def sample_full_mesh : Mesh :=
  set_index_mapping
    (set_patch_max_element_num (set_total_offset (set_owned_offset sample_mesh .Vertex 1) .Vertex 2)
      .Vertex 32) .Vertex .l2g 3

/-! ## Index tuples of a local tensor (lines 874-889) -/

/-- The index tuple `indices` built at lines 875-884 for one value of
`linearized_index`: the constants of the inner loop, put back in axis order;
`none` when the loop divides by zero. -/
def local_tensor_indices (shape : List Int) (linearized_index : Int) : Option (List Expr) :=
  match reversed_indices shape.reverse linearized_index with
  | some reversed => some reversed.reverse
  | none => none

/-- The integers computed by the loop of lines 877-881, last axis first, with
the truncating `%` and `/` of C++ (taken where no extent is zero). -/
def reversed_index_values : List Int → Int → List Int
  | [], _ => []
  | extent :: rest, linearized_index =>
    Int.tmod linearized_index extent ::
      reversed_index_values rest (Int.tdiv linearized_index extent)

/-- The integers of the index tuple of one element position, in axis order. -/
def local_tensor_index_values (shape : List Int) (linearized_index : Int) : List Int :=
  (reversed_index_values shape.reverse linearized_index).reverse

/-- The row-major linearisation of an index tuple (last axis fastest): the sum
over the axes `d` of `idx[d]` times the product of the extents of the axes
after `d`. -/
def row_major_index : List Int → List Int → Int
  | _ :: shape, x :: idx => x * shape.prod + row_major_index shape idx
  | _, _ => 0

/-- The same number read from the last axis on: digit plus extent times the
number of the remaining digits. -/
def reversed_index_number : List Int → List Int → Int
  | extent :: rest, x :: idx => x + extent * reversed_index_number rest idx
  | _, _ => 0

/-- The assignment statements of lines 885-888 for the elements `es`, the
first of them at position `i`: element `k` is assigned to the tensor element of
`var` at the index tuple built for `k`. -/
def local_tensor_assigns (ext : Externals) (var : Expr) (shape : List Int)
    (element_type : DataType) (i : Nat) (es : List Expr) : List Stmt :=
  (es.enumFrom i).map (fun ke =>
    .FrontendAssignStmt
      (.TensorElementExpression var ((local_tensor_indices shape (ke.1 : Int)).getD []) shape
        (ext.data_type_size element_type)) ke.2 "")

/-- The state `t` is `s` with the statements `new` built, in this order, and
appended to the current block: the statement heap grows by `new`, the current
block by their pointers, and no other block, no scope and no block count
changes. -/
def appends_to_current_block (s t : State) (new : List Stmt) : Prop :=
  t.builder.stmts = s.builder.stmts ++ new ∧
    t.scope_stack = s.scope_stack ∧
    t.builder.blocks.length = s.builder.blocks.length ∧
    (∃ blk, s.builder.blocks[s.current_block]? = some blk ∧
      t.builder.blocks[s.current_block]? =
        some { blk with
          statements := blk.statements ++ List.range' s.builder.stmts.length new.length }) ∧
    (∀ b : BlockPtr, b ≠ s.current_block → t.builder.blocks[b]? = s.builder.blocks[b]?)

/-! ## Sequences of calls with failing calls -/

/-- A sequence of calls in which the caller goes on after a call that did not
return: each call is made in the state the one before left, which for a call
that stopped is the state at the point where it stopped. -/
def run_all (ext : Externals) : List Call → State → State
  | [], s => s
  | c :: cs, s => run_all ext cs (step ext c s).2

/-- No popping call of the sequence is applied to an empty scope stack. -/
def no_pop_on_empty (ext : Externals) : List Call → State → Bool
  | [], _ => true
  | c :: cs, s =>
    !(c.is_pop && s.scope_stack.isEmpty) && no_pop_on_empty ext cs (step ext c s).2

/-- The number of pushing calls of the sequence that return. -/
def count_returned_push (ext : Externals) : List Call → State → Nat
  | [], _ => 0
  | c :: cs, s =>
    (if c.is_push && (step ext c s).1.isOk then 1 else 0) +
      count_returned_push ext cs (step ext c s).2

/-- The two pushing calls that look at the last statement first:
`begin_frontend_if_true` and `begin_frontend_if_false`. -/
def Call.is_if_branch : Call → Bool
  | .begin_frontend_if_true => true
  | .begin_frontend_if_false => true
  | _ => false

/-- A break statement followed by the opening of a true branch: no if
statement is the last statement when the branch is opened. -/
def sample_failed_push_trace : List Call :=
  [.insert_break_stmt, .begin_frontend_if_true]

/-- A trace with two calls that do not return, `insert_thread_idx_expr`
outside of a loop and `begin_frontend_if_true` after a break statement, among
calls that do: `while c: break`, closed by `pop_scope`. -/
def sample_mixed_trace : List Call :=
  [.insert_thread_idx_expr, .begin_frontend_while (sample_expr "c"), .insert_break_stmt,
    .begin_frontend_if_true, .pop_scope, .begin_func "f"]

/-! ## Basic facts about the builder operations -/

@[simp]
theorem alloc_scope_stack (s : State) (n : Nat) (mk : BlockPtr → Stmt) :
    (s.alloc n mk).2.scope_stack = s.scope_stack := rfl

@[simp]
theorem alloc_fst (s : State) (n : Nat) (mk : BlockPtr → Stmt) :
    (s.alloc n mk).1 = s.builder.stmts.length := rfl

@[simp]
theorem alloc_stmts (s : State) (n : Nat) (mk : BlockPtr → Stmt) :
    (s.alloc n mk).2.builder.stmts = s.builder.stmts ++ [mk s.builder.blocks.length] := rfl

@[simp]
theorem alloc_blocks (s : State) (n : Nat) (mk : BlockPtr → Stmt) :
    (s.alloc n mk).2.builder.blocks = s.builder.blocks ++
      List.replicate n { statements := [], parent_stmt := some s.builder.stmts.length } := rfl

@[simp]
theorem alloc_current_block (s : State) (n : Nat) (mk : BlockPtr → Stmt) :
    (s.alloc n mk).2.current_block = s.current_block := rfl

@[simp]
theorem insert_scope_stack (s : State) (p : StmtPtr) :
    (s.insert p).scope_stack = s.scope_stack := by
  unfold State.insert
  split <;> rfl

@[simp]
theorem insert_stmts (s : State) (p : StmtPtr) :
    (s.insert p).builder.stmts = s.builder.stmts := by
  unfold State.insert
  split <;> rfl

@[simp]
theorem insert_blocks_length (s : State) (p : StmtPtr) :
    (s.insert p).builder.blocks.length = s.builder.blocks.length := by
  unfold State.insert
  split <;> simp

@[simp]
theorem insert_current_block (s : State) (p : StmtPtr) :
    (s.insert p).current_block = s.current_block := by
  simp [State.current_block]

theorem insert_blocks_ne (s : State) (p : StmtPtr) (b : BlockPtr) (h : b ≠ s.current_block) :
    (s.insert p).builder.blocks[b]? = s.builder.blocks[b]? := by
  unfold State.insert
  split
  · simp [List.getElem?_set_ne (Ne.symm h)]
  · rfl

theorem insert_blocks_self (s : State) (p : StmtPtr) (blk : Block)
    (h : s.builder.blocks[s.current_block]? = some blk) :
    (s.insert p).builder.blocks[s.current_block]? =
      some { blk with statements := blk.statements ++ [p] } := by
  have hlt : s.current_block < s.builder.blocks.length := by
    rcases List.getElem?_eq_some_iff.mp h with ⟨hl, _⟩
    exact hl
  unfold State.insert
  rw [h]
  simp [List.getElem?_set_self hlt]

@[simp]
theorem insert_leaf_scope_stack (s : State) (stmt : Stmt) :
    (s.insert_leaf stmt).scope_stack = s.scope_stack := by
  simp [State.insert_leaf]

@[simp]
theorem fresh_id_scope_stack (s : State) : s.fresh_id.2.scope_stack = s.scope_stack := rfl

@[simp]
theorem push_back_scope_stack (s : State) (g : ScopeGuard) :
    (s.push_back g).scope_stack = s.scope_stack ++ [g] := rfl

theorem pop_back_nonempty (s : State) (h : s.scope_stack ≠ []) :
    s.pop_back = (.ok (), { s with scope_stack := s.scope_stack.dropLast }) := by
  unfold State.pop_back
  have : s.scope_stack.isEmpty = false := by
    cases hs : s.scope_stack with
    | nil => exact absurd hs h
    | cons a l => rfl
  simp [this]

theorem pop_back_empty (s : State) (h : s.scope_stack = []) :
    s.pop_back = (.undefined_behavior "pop_back on an empty vector", s) := by
  unfold State.pop_back
  simp [h]

theorem pop_back_ok (s : State) (h : s.pop_back.1 = .ok ()) :
    s.scope_stack ≠ [] ∧ s.pop_back.2.scope_stack = s.scope_stack.dropLast := by
  by_cases he : s.scope_stack = []
  · rw [pop_back_empty s he] at h
    cases h
  · exact ⟨he, by rw [pop_back_nonempty s he]⟩

@[simp]
theorem alloca_local_tensor_loop_scope_stack (ext : Externals) (var : Expr) (shape : List Int)
    (t : DataType) (es : List Expr) (i : Nat) (s : State) :
    (alloca_local_tensor_loop ext var shape t i es s).2.scope_stack = s.scope_stack := by
  induction es generalizing i s with
  | nil => rfl
  | cons e es ih =>
    unfold alloca_local_tensor_loop
    split
    · rfl
    · rw [ih]
      simp

@[simp]
theorem expr_alloca_local_tensor_scope_stack (ext : Externals) (shape : List Int)
    (t : DataType) (elements : ExprGroup) (s : State) :
    (expr_alloca_local_tensor ext shape t elements s).2.scope_stack = s.scope_stack := by
  unfold expr_alloca_local_tensor
  simp only []
  split <;> rename_i h <;>
    · have h2 := congrArg (fun r => r.2.scope_stack) h
      simp at h2
      simpa using h2.symm

/-! ## Effect of one call on the scope stack -/

theorem begin_frontend_if_true_ok (s : State) (h : (begin_frontend_if_true s).1 = .ok ()) :
    ∃ t f, last_if_stmt s = .ok (t, f) ∧
      begin_frontend_if_true s = (.ok (), s.push_back (create_scope t)) := by
  unfold begin_frontend_if_true at h ⊢
  cases hl : last_if_stmt s with
  | ok v => exact ⟨v.1, v.2, rfl, rfl⟩
  | error m => rw [hl] at h; simp [Status.void] at h
  | assertion_failure c => rw [hl] at h; simp [Status.void] at h
  | undefined_behavior w => rw [hl] at h; simp [Status.void] at h

theorem begin_frontend_if_false_ok (s : State) (h : (begin_frontend_if_false s).1 = .ok ()) :
    ∃ t f, last_if_stmt s = .ok (t, f) ∧
      begin_frontend_if_false s = (.ok (), s.push_back (create_scope f)) := by
  unfold begin_frontend_if_false at h ⊢
  cases hl : last_if_stmt s with
  | ok v => exact ⟨v.1, v.2, rfl, rfl⟩
  | error m => rw [hl] at h; simp [Status.void] at h
  | assertion_failure c => rw [hl] at h; simp [Status.void] at h
  | undefined_behavior w => rw [hl] at h; simp [Status.void] at h

theorem begin_with_body_scope_stack (mk : BlockPtr → Stmt) (s : State) :
    (begin_with_body mk s).1 = .ok () ∧
      ∃ g, (begin_with_body mk s).2.scope_stack = s.scope_stack ++ [g] := by
  refine ⟨rfl, ⟨create_scope
    (((s.alloc 1 mk).2.insert (s.alloc 1 mk).1).body (s.alloc 1 mk).1), ?_⟩⟩
  simp [begin_with_body]

/-- A call that is neither a push nor a pop leaves the scope stack as it was,
whatever its status. -/
theorem step_other_scope_stack (ext : Externals) (c : Call) (s : State)
    (h1 : c.is_push = false) (h2 : c.is_pop = false) :
    (step ext c s).2.scope_stack = s.scope_stack := by
  cases c <;> simp [Call.is_push, Call.is_pop] at h1 h2 <;>
    simp [step, create_kernel_return, create_kernel_exprgroup_return, create_print,
      create_assert_stmt, insert_break_stmt, insert_continue_stmt, insert_expr_stmt,
      insert_external_func_call, expr_alloca, insert_thread_idx_expr,
      insert_patch_idx_expr, begin_frontend_if]
  case expr_assign lhs rhs tb =>
    unfold expr_assign
    split <;> simp
  case insert_thread_idx_expr =>
    split
    · rfl
    · split
      · split <;> rfl
      · rfl
  case insert_patch_idx_expr =>
    split
    · split <;> rfl
    · rfl

/-- A pushing call that returns has appended exactly one scope. -/
theorem step_push_scope_stack (ext : Externals) (c : Call) (s : State)
    (h1 : c.is_push = true) (h : (step ext c s).1 = .ok ()) :
    ∃ g, (step ext c s).2.scope_stack = s.scope_stack ++ [g] := by
  cases c <;> simp [Call.is_push] at h1
  case begin_frontend_if_true =>
    obtain ⟨t, f, _, h3⟩ := begin_frontend_if_true_ok s h
    exact ⟨create_scope t, by simp [step, h3]⟩
  case begin_frontend_if_false =>
    obtain ⟨t, f, _, h3⟩ := begin_frontend_if_false_ok s h
    exact ⟨create_scope f, by simp [step, h3]⟩
  all_goals exact (begin_with_body_scope_stack _ s).2

/-- A popping call that returns was applied to a non-empty stack and has
removed exactly its last scope. -/
theorem step_pop_scope_stack (ext : Externals) (c : Call) (s : State)
    (h1 : c.is_pop = true) (h : (step ext c s).1 = .ok ()) :
    s.scope_stack ≠ [] ∧ (step ext c s).2.scope_stack = s.scope_stack.dropLast := by
  cases c <;> simp [Call.is_pop] at h1 <;> exact pop_back_ok s h

theorem is_push_not_is_pop (c : Call) (h : c.is_push = true) : c.is_pop = false := by
  cases c <;> simp [Call.is_push] at h <;> rfl

theorem run_cons_some (ext : Externals) (c : Call) (cs : List Call) (s s2 : State)
    (h : run ext (c :: cs) s = some s2) :
    (step ext c s).1 = .ok () ∧ run ext cs (step ext c s).2 = some s2 := by
  unfold run at h
  split at h
  · rename_i u s1 hs
    rw [hs]
    exact ⟨rfl, h⟩
  · cases h

theorem run_depth (ext : Externals) (cs : List Call) (s s2 : State)
    (h : run ext cs s = some s2) :
    s2.scope_stack.length + count_pop cs = s.scope_stack.length + count_push cs := by
  induction cs generalizing s with
  | nil =>
    simp [run] at h
    subst h
    simp [count_pop, count_push]
  | cons c cs ih =>
    obtain ⟨hok, hrun⟩ := run_cons_some ext c cs s s2 h
    have ih2 := ih _ hrun
    by_cases hp : c.is_push = true
    · obtain ⟨g, hg⟩ := step_push_scope_stack ext c s hp hok
      have hq := is_push_not_is_pop c hp
      simp [count_pop, count_push, List.filter_cons, hp, hq, hg] at ih2 ⊢
      omega
    · by_cases hq : c.is_pop = true
      · obtain ⟨hne, hd⟩ := step_pop_scope_stack ext c s hq hok
        have hlen : 0 < s.scope_stack.length := List.length_pos.mpr hne
        simp [count_pop, count_push, List.filter_cons, hp, hq, hd] at ih2 ⊢
        omega
      · have hs := step_other_scope_stack ext c s (by simpa using hp) (by simpa using hq)
        simp [count_pop, count_push, List.filter_cons, hp, hq, hs] at ih2 ⊢
        omega

/-! ## Scope-stack discipline -/

/-- C2, as stated, fails: `pop_scope` on the empty scope stack of the initial
state raises no error; the call is an unchecked `pop_back` on an empty vector. -/
theorem pop_scope_empty_not_rejected :
    (pop_scope (State.init 0)).1 = .undefined_behavior "pop_back on an empty vector" ∧
      (pop_scope (State.init 0)).1.isError = false ∧
      (end_frontend_range_for (State.init 0)).1.isError = false ∧
      (end_func "f" (State.init 0)).1.isError = false :=
  ⟨rfl, rfl, rfl, rfl⟩

/-- C2 (amended): `pop_scope` and every `end_*` call are an unchecked
`scope_stack.pop_back()`: on a non-empty stack they return and remove exactly
the last scope, changing nothing else; on the empty stack they raise no error
and fail no assertion, the call being a `pop_back` on an empty vector. -/
theorem pop_is_unchecked (ext : Externals) (c : Call) (s : State) (rest : List ScopeGuard)
    (g : ScopeGuard) (hc : c.is_pop = true) :
    step ext c { s with scope_stack := rest ++ [g] } =
        (.ok (), { s with scope_stack := rest }) ∧
      step ext c { s with scope_stack := [] } =
        (.undefined_behavior "pop_back on an empty vector", { s with scope_stack := [] }) ∧
      (step ext c { s with scope_stack := [] }).1.isError = false := by
  have h1 : ∀ t : State, step ext c t = t.pop_back := by
    intro t
    cases c <;> simp [Call.is_pop] at hc <;> rfl
  have h2 : ({ s with scope_stack := rest ++ [g] } : State).pop_back =
      (.ok (), { s with scope_stack := rest }) := by
    rw [pop_back_nonempty _ (by simp)]
    simp
  have h3 : ({ s with scope_stack := [] } : State).pop_back =
      (.undefined_behavior "pop_back on an empty vector", { s with scope_stack := [] }) :=
    pop_back_empty _ rfl
  refine ⟨by rw [h1, h2], by rw [h1, h3], by rw [h1, h3]; rfl⟩

/-- Witness of the amended C2: `end_func` on a one-scope stack and on the
empty stack. -/
theorem pop_is_unchecked_witness :
    Call.is_pop (.end_func "f") = true ∧
      step sample_externals (.end_func "f") { sample_trace_state with scope_stack := [] ++ [⟨2⟩] } =
        (.ok (), { sample_trace_state with scope_stack := [] }) ∧
      step sample_externals (.end_func "f") { sample_trace_state with scope_stack := [] } =
        (.undefined_behavior "pop_back on an empty vector",
          { sample_trace_state with scope_stack := [] }) ∧
      (step sample_externals (.end_func "f")
        { sample_trace_state with scope_stack := [] }).1.isError = false :=
  ⟨rfl, pop_is_unchecked sample_externals (.end_func "f") sample_trace_state [] ⟨2⟩ rfl⟩

/-- C6 (strict LIFO): a pushing call that returns appends one scope to the
stack, and `pop_scope` right after it returns and leaves exactly the scope
stack from before the push: the pop removes the scope just pushed and no
other. -/
theorem push_then_pop_scope (ext : Externals) (c : Call) (s : State)
    (hc : c.is_push = true) (hok : (step ext c s).1 = .ok ()) :
    (∃ g, (step ext c s).2.scope_stack = s.scope_stack ++ [g]) ∧
      (pop_scope (step ext c s).2).1 = .ok () ∧
      (pop_scope (step ext c s).2).2.scope_stack = s.scope_stack := by
  obtain ⟨g, hg⟩ := step_push_scope_stack ext c s hc hok
  have hne : (step ext c s).2.scope_stack ≠ [] := by simp [hg]
  refine ⟨⟨g, hg⟩, ?_, ?_⟩
  · unfold pop_scope
    rw [pop_back_nonempty _ hne]
  · unfold pop_scope
    rw [pop_back_nonempty _ hne]
    simp [hg]

/-- Witness of C6: `begin_frontend_mesh_for` on top of an open function scope. -/
theorem push_then_pop_scope_witness :
    Call.is_push (.begin_frontend_mesh_for (sample_expr "i") 0 .Vertex) = true ∧
      (step sample_externals (.begin_frontend_mesh_for (sample_expr "i") 0 .Vertex)
        sample_trace_state).1 = .ok () ∧
      (∃ g, (step sample_externals (.begin_frontend_mesh_for (sample_expr "i") 0 .Vertex)
        sample_trace_state).2.scope_stack = sample_trace_state.scope_stack ++ [g]) ∧
      (pop_scope (step sample_externals (.begin_frontend_mesh_for (sample_expr "i") 0 .Vertex)
        sample_trace_state).2).1 = .ok () ∧
      (pop_scope (step sample_externals (.begin_frontend_mesh_for (sample_expr "i") 0 .Vertex)
        sample_trace_state).2).2.scope_stack = sample_trace_state.scope_stack :=
  ⟨rfl, rfl, push_then_pop_scope sample_externals
    (.begin_frontend_mesh_for (sample_expr "i") 0 .Vertex) sample_trace_state rfl rfl⟩

/-- C7 (frame): every bound operation that inserts a statement or builds an
expression and is not a `begin_*` push or an `end_*` / `pop_scope` pop leaves
the scope stack exactly as it was, whether it returns or not. -/
theorem scope_stack_frame (ext : Externals) (s : State) (value cond val lhs rhs : Expr)
    (group args outputs elements : ExprGroup) (contents : List (Expr ⊕ String))
    (msg tb source filename funcname : String) (assert_args : List Expr) (func_addr : Nat)
    (shape : List Int) (element_type : DataType) :
    (create_kernel_return value s).2.scope_stack = s.scope_stack ∧
      (create_kernel_exprgroup_return group s).2.scope_stack = s.scope_stack ∧
      (create_print contents s).2.scope_stack = s.scope_stack ∧
      (create_assert_stmt cond msg assert_args s).2.scope_stack = s.scope_stack ∧
      (insert_break_stmt s).2.scope_stack = s.scope_stack ∧
      (insert_continue_stmt s).2.scope_stack = s.scope_stack ∧
      (insert_expr_stmt val s).2.scope_stack = s.scope_stack ∧
      (insert_external_func_call func_addr source filename funcname args outputs s).2.scope_stack
        = s.scope_stack ∧
      (expr_assign ext lhs rhs tb s).2.scope_stack = s.scope_stack ∧
      (expr_alloca s).2.scope_stack = s.scope_stack ∧
      (expr_alloca_local_tensor ext shape element_type elements s).2.scope_stack
        = s.scope_stack ∧
      (insert_thread_idx_expr ext s).2.scope_stack = s.scope_stack ∧
      (insert_patch_idx_expr s).2.scope_stack = s.scope_stack :=
  ⟨step_other_scope_stack ext (.create_kernel_return value) s rfl rfl,
    step_other_scope_stack ext (.create_kernel_exprgroup_return group) s rfl rfl,
    step_other_scope_stack ext (.create_print contents) s rfl rfl,
    step_other_scope_stack ext (.create_assert_stmt cond msg assert_args) s rfl rfl,
    step_other_scope_stack ext .insert_break_stmt s rfl rfl,
    step_other_scope_stack ext .insert_continue_stmt s rfl rfl,
    step_other_scope_stack ext (.insert_expr_stmt val) s rfl rfl,
    step_other_scope_stack ext
      (.insert_external_func_call func_addr source filename funcname args outputs) s rfl rfl,
    step_other_scope_stack ext (.expr_assign lhs rhs tb) s rfl rfl,
    step_other_scope_stack ext .expr_alloca s rfl rfl,
    step_other_scope_stack ext (.expr_alloca_local_tensor shape element_type elements) s rfl rfl,
    step_other_scope_stack ext .insert_thread_idx_expr s rfl rfl,
    step_other_scope_stack ext .insert_patch_idx_expr s rfl rfl⟩

/-! ## The outward walk of the loop-only helpers -/

theorem walk_outward_is_for (s : State) (i : Nat) (l r : StmtPtr)
    (h : s.walk_outward i l = some r) : s.is_for r = true := by
  induction i generalizing l with
  | zero =>
    unfold State.walk_outward at h
    split at h
    · cases h; assumption
    · cases h
  | succ i ih =>
    unfold State.walk_outward at h
    split at h
    · cases h; assumption
    · split at h
      · cases h
      · exact ih _ h

theorem parent_stmt_at_mem (s : State) (i : Nat) (p : StmtPtr)
    (h : s.parent_stmt_at i = some p) : ∃ g ∈ s.scope_stack, s.parent_stmt g = some p := by
  unfold State.parent_stmt_at at h
  split at h
  · rename_i g hg
    exact ⟨g, List.getElem?_mem hg, h⟩
  · cases h

theorem walk_outward_mem (s : State) (i : Nat) (l r : StmtPtr)
    (hl : ∃ g ∈ s.scope_stack, s.parent_stmt g = some l)
    (h : s.walk_outward i l = some r) : ∃ g ∈ s.scope_stack, s.parent_stmt g = some r := by
  induction i generalizing l with
  | zero =>
    unfold State.walk_outward at h
    split at h
    · cases h; exact hl
    · cases h
  | succ i ih =>
    unfold State.walk_outward at h
    split at h
    · cases h; exact hl
    · split at h
      · cases h
      · rename_i outer ho
        exact ih outer (parent_stmt_at_mem s i outer ho) h

/-- The loop found by the guarded walk is a for-loop and the parent statement
of a scope on the stack. -/
theorem walk_from_some (s : State) (r : StmtPtr)
    (h : s.walk_from s.innermost_parent = some r) :
    s.is_for r = true ∧ ∃ g ∈ s.scope_stack, s.parent_stmt g = some r := by
  unfold State.walk_from at h
  split at h
  · rename_i l hl
    refine ⟨walk_outward_is_for s _ l r h, walk_outward_mem s _ l r ?_ h⟩
    unfold State.innermost_parent at hl
    split at hl
    · exact parent_stmt_at_mem s _ l hl
    · cases hl
  · cases h

theorem nearest_for_in_is_for (s : State) (gs : List ScopeGuard) (r : StmtPtr)
    (h : s.nearest_for_in gs = some r) : s.is_for r = true := by
  induction gs with
  | nil => cases h
  | cons g gs ih =>
    unfold State.nearest_for_in at h
    split at h
    · split at h
      · cases h; assumption
      · exact ih h
    · exact ih h

theorem take_succ_reverse (gs : List ScopeGuard) (i : Nat) (g : ScopeGuard)
    (h : gs[i]? = some g) : (gs.take (i + 1)).reverse = g :: (gs.take i).reverse := by
  rw [List.take_succ, h]
  simp

/-- On a stack whose scopes all have a parent statement the walk of the source
computes the nearest enclosing for-loop of the scopes `0 .. i`. -/
theorem walk_outward_eq_nearest (s : State) (hp : s.all_scopes_parented) (i : Nat)
    (g : ScopeGuard) (l : StmtPtr) (hg : s.scope_stack[i]? = some g)
    (hl : s.parent_stmt g = some l) :
    s.walk_outward i l = s.nearest_for_in (s.scope_stack.take (i + 1)).reverse := by
  induction i generalizing g l with
  | zero =>
    rw [take_succ_reverse _ _ g hg]
    simp [State.walk_outward, State.nearest_for_in, hl]
  | succ i ih =>
    rw [take_succ_reverse _ _ g hg]
    unfold State.walk_outward
    rw [State.nearest_for_in, hl]
    by_cases hf : s.is_for l = true
    · simp [hf]
    · simp only [hf]
      have hi : i < s.scope_stack.length := by
        have := (List.getElem?_eq_some_iff.mp hg).1
        omega
      obtain ⟨g2, hg2⟩ : ∃ g2, s.scope_stack[i]? = some g2 :=
        ⟨s.scope_stack[i], List.getElem?_eq_getElem hi⟩
      have hsome := hp g2 (List.getElem?_mem hg2)
      obtain ⟨l2, hl2⟩ := Option.isSome_iff_exists.mp hsome
      have hat : s.parent_stmt_at i = some l2 := by
        simp [State.parent_stmt_at, hg2, hl2]
      simp only [hat, if_false]
      exact ih g2 l2 hg2 hl2

/-- On a stack whose scopes all have a parent statement, lines 1054-1065 leave
in `loop` the nearest enclosing for-loop, or null when there is none. -/
theorem walk_from_eq_nearest_for (s : State) (hp : s.all_scopes_parented) :
    s.walk_from s.innermost_parent = s.nearest_for := by
  unfold State.nearest_for
  cases hs : s.scope_stack.length with
  | zero =>
    have hnil : s.scope_stack = [] := List.length_eq_zero.mp hs
    simp [State.walk_from, State.innermost_parent, hnil, State.nearest_for_in]
  | succ n =>
    have hn : n < s.scope_stack.length := by omega
    have hg : s.scope_stack[n]? = some s.scope_stack[n] := List.getElem?_eq_getElem hn
    have hsome := hp _ (List.getElem?_mem hg)
    obtain ⟨l, hl⟩ := Option.isSome_iff_exists.mp hsome
    have hat : s.parent_stmt_at n = some l := by
      simp [State.parent_stmt_at, hg, hl]
    have hin : s.innermost_parent = some l := by
      simp [State.innermost_parent, hs, hat]
    rw [hin]
    simp only [State.walk_from, hs, Nat.add_sub_cancel]
    rw [walk_outward_eq_nearest s hp n _ l hg hl]
    have : s.scope_stack.take (n + 1) = s.scope_stack := by
      rw [← hs]
      exact List.take_length _
    rw [this]

/-! ## The loop-only helpers -/

/-- C8: `insert_thread_idx_expr` raises an error, returns no expression and
changes nothing whenever the architecture is neither cuda nor a CPU
architecture (whatever the scope stack), and whenever no scope on the stack is
bound to a block whose parent statement is a for-loop. -/
theorem insert_thread_idx_expr_fails (ext : Externals) (s : State)
    (h : (s.arch ≠ ext.cuda ∧ ext.arch_is_cpu s.arch = false) ∨
      (∀ g ∈ s.scope_stack, s.has_for_parent g = false)) :
    insert_thread_idx_expr ext s =
      (.error (if s.arch ≠ ext.cuda ∧ ext.arch_is_cpu s.arch = false
        then "ti.thread_idx() is only available in cuda or cpu context."
        else "ti.thread_idx() is only valid within loops."), s) := by
  unfold insert_thread_idx_expr
  by_cases ha : s.arch ≠ ext.cuda ∧ ext.arch_is_cpu s.arch = false
  · rw [if_pos ha, if_pos ha]
  · rw [if_neg ha, if_neg ha]
    have hno : ∀ g ∈ s.scope_stack, s.has_for_parent g = false := by
      rcases h with h | h
      · exact absurd h ha
      · exact h
    cases hw : s.walk_from s.innermost_parent with
    | none => rfl
    | some l =>
      obtain ⟨hf, g, hg, hpar⟩ := walk_from_some s l hw
      have := hno g hg
      simp [State.has_for_parent, hpar, hf] at this

/-- Witness of C8: an unsupported architecture inside two nested for-loops,
the empty stack, and a stack of function, while-loop and if-branch scopes. -/
theorem insert_thread_idx_expr_fails_witness :
    insert_thread_idx_expr sample_externals { sample_range_in_mesh_state with arch := 7 } =
        (.error "ti.thread_idx() is only available in cuda or cpu context.",
          { sample_range_in_mesh_state with arch := 7 }) ∧
      insert_thread_idx_expr sample_externals (State.init 0) =
        (.error "ti.thread_idx() is only valid within loops.", State.init 0) ∧
      sample_no_loop_state.scope_stack.length = 3 ∧
      insert_thread_idx_expr sample_externals sample_no_loop_state =
        (.error "ti.thread_idx() is only valid within loops.", sample_no_loop_state) :=
  ⟨insert_thread_idx_expr_fails sample_externals { sample_range_in_mesh_state with arch := 7 }
      (Or.inl (by decide)),
    insert_thread_idx_expr_fails sample_externals (State.init 0) (Or.inr (by decide)),
    rfl,
    insert_thread_idx_expr_fails sample_externals sample_no_loop_state (Or.inr (by decide))⟩

/-- C10: on a scope stack whose scopes all have a parent statement,
`insert_patch_idx_expr` returns the mesh-patch-index expression exactly when
the nearest enclosing for-loop exists and is a mesh-for; it raises its error in
every other case (empty stack, no enclosing for-loop, nearest for-loop not a
mesh-for, whatever encloses that loop), and changes nothing. -/
theorem insert_patch_idx_expr_nearest (s : State) (hp : s.all_scopes_parented) :
    insert_patch_idx_expr s =
        (match s.nearest_for with
          | some l =>
            if s.is_mesh_for l = true then (.ok .MeshPatchIndexExpression, s)
            else (.error "ti.mesh_patch_idx() is only valid within mesh-for loops.", s)
          | none => (.error "ti.mesh_patch_idx() is only valid within mesh-for loops.", s)) ∧
      ((insert_patch_idx_expr s).1.isOk = true ↔
        ∃ l, s.nearest_for = some l ∧ s.is_mesh_for l = true) := by
  have hw := walk_from_eq_nearest_for s hp
  have heq : insert_patch_idx_expr s =
      (match s.nearest_for with
        | some l =>
          if s.is_mesh_for l = true then (.ok .MeshPatchIndexExpression, s)
          else (.error "ti.mesh_patch_idx() is only valid within mesh-for loops.", s)
        | none => (.error "ti.mesh_patch_idx() is only valid within mesh-for loops.", s)) := by
    unfold insert_patch_idx_expr
    simp only [hw]
    cases hn : s.nearest_for with
    | none => rfl
    | some l =>
      have hf : s.is_for l = true := nearest_for_in_is_for s _ l hn
      simp [hf]
  refine ⟨heq, ?_⟩
  rw [heq]
  cases hn : s.nearest_for with
  | none => simp [Status.isOk]
  | some l =>
    by_cases hm : s.is_mesh_for l = true
    · simp [hm, Status.isOk]
    · simp [hm, Status.isOk]

/-- Witness of C10: inside a range-for nested in a mesh-for the helper fails,
the nearest for-loop being the range-for. -/
theorem insert_patch_idx_expr_nearest_witness :
    sample_range_in_mesh_state.all_scopes_parented ∧
      sample_range_in_mesh_state.nearest_for = some 1 ∧
      sample_range_in_mesh_state.is_mesh_for 1 = false ∧
      sample_range_in_mesh_state.is_mesh_for 0 = true ∧
      insert_patch_idx_expr sample_range_in_mesh_state =
        (.error "ti.mesh_patch_idx() is only valid within mesh-for loops.",
          sample_range_in_mesh_state) :=
  ⟨by decide, rfl, rfl, rfl,
    (insert_patch_idx_expr_nearest sample_range_in_mesh_state (by decide)).1⟩

/-! ## Building and inserting statements -/

@[simp]
theorem insert_new_scope_stack (s : State) (n : Nat) (mk : BlockPtr → Stmt) :
    (s.insert_new n mk).scope_stack = s.scope_stack := by
  simp [State.insert_new]

@[simp]
theorem insert_new_current_block (s : State) (n : Nat) (mk : BlockPtr → Stmt) :
    (s.insert_new n mk).current_block = s.current_block := by
  simp [State.insert_new]

@[simp]
theorem insert_new_stmts (s : State) (n : Nat) (mk : BlockPtr → Stmt) :
    (s.insert_new n mk).builder.stmts = s.builder.stmts ++ [mk s.builder.blocks.length] := by
  simp [State.insert_new]

@[simp]
theorem insert_new_blocks_length (s : State) (n : Nat) (mk : BlockPtr → Stmt) :
    (s.insert_new n mk).builder.blocks.length = s.builder.blocks.length + n := by
  simp [State.insert_new]

/-- Blocks of `s` other than the current one are not touched. -/
theorem insert_new_blocks_ne (s : State) (n : Nat) (mk : BlockPtr → Stmt) (b : BlockPtr)
    (hb : b ≠ s.current_block) (hlt : b < s.builder.blocks.length) :
    (s.insert_new n mk).builder.blocks[b]? = s.builder.blocks[b]? := by
  unfold State.insert_new
  rw [insert_blocks_ne _ _ b (by simpa using hb)]
  simp [List.getElem?_append_left hlt]

/-- The new statement is appended to the current block. -/
theorem insert_new_blocks_self (s : State) (n : Nat) (mk : BlockPtr → Stmt) (blk : Block)
    (h : s.builder.blocks[s.current_block]? = some blk) :
    (s.insert_new n mk).builder.blocks[s.current_block]? =
      some { blk with statements := blk.statements ++ [s.builder.stmts.length] } := by
  have hlt : s.current_block < s.builder.blocks.length :=
    (List.getElem?_eq_some_iff.mp h).1
  unfold State.insert_new
  have h2 : (s.alloc n mk).2.builder.blocks[(s.alloc n mk).2.current_block]? = some blk := by
    simp [List.getElem?_append_left hlt, h]
  have := insert_blocks_self (s.alloc n mk).2 (s.alloc n mk).1 blk h2
  simpa using this

/-- The child blocks allocated with the new statement are empty and have the
new statement as parent. -/
theorem insert_new_blocks_new (s : State) (n : Nat) (mk : BlockPtr → Stmt) (c : BlockPtr)
    (h1 : s.builder.blocks.length ≤ c) (h2 : c < s.builder.blocks.length + n)
    (hcur : s.current_block < s.builder.blocks.length) :
    (s.insert_new n mk).builder.blocks[c]? =
      some { statements := [], parent_stmt := some s.builder.stmts.length } := by
  unfold State.insert_new
  have hne : c ≠ (s.alloc n mk).2.current_block := by
    rw [alloc_current_block]
    simp only [BlockPtr] at *
    omega
  rw [insert_blocks_ne _ _ c hne]
  simp only [alloc_blocks]
  rw [List.getElem?_append_right h1]
  rw [List.getElem?_replicate]
  have : c - s.builder.blocks.length < n := by
    simp only [BlockPtr] at *
    omega
  simp [this]

theorem current_block_lt (s : State) (h : s.WF) : s.current_block < s.builder.blocks.length := by
  unfold State.current_block
  cases hl : s.scope_stack.getLast? with
  | none => exact h.root
  | some g =>
    have hmem : g ∈ s.scope_stack := List.mem_of_mem_getLast? hl
    obtain ⟨blk, p, hb, _⟩ := h.scope g hmem
    exact (List.getElem?_eq_some_iff.mp hb).1

theorem getElem?_concat_cases {α : Type} (l : List α) (x y : α) (i : Nat)
    (h : (l ++ [x])[i]? = some y) :
    (i < l.length ∧ l[i]? = some y) ∨ (i = l.length ∧ y = x) := by
  by_cases hi : i < l.length
  · rw [List.getElem?_append_left hi] at h
    exact Or.inl ⟨hi, h⟩
  · have hle : l.length ≤ i := Nat.le_of_not_lt hi
    rw [List.getElem?_append_right hle] at h
    cases hd : i - l.length with
    | zero =>
      rw [hd] at h
      simp at h
      exact Or.inr ⟨by omega, h.symm⟩
    | succ k =>
      rw [hd] at h
      simp at h

/-- The blocks of the state after building and inserting a statement. -/
theorem insert_new_blocks_cases (s : State) (n : Nat) (mk : BlockPtr → Stmt) (b : BlockPtr)
    (blk1 : Block) (hcur : s.current_block < s.builder.blocks.length)
    (h : (s.insert_new n mk).builder.blocks[b]? = some blk1) :
    (b ≠ s.current_block ∧ s.builder.blocks[b]? = some blk1) ∨
      (b = s.current_block ∧ ∃ blk, s.builder.blocks[b]? = some blk ∧
        blk1 = { blk with statements := blk.statements ++ [s.builder.stmts.length] }) ∨
      (s.builder.blocks.length ≤ b ∧
        blk1 = { statements := [], parent_stmt := some s.builder.stmts.length }) := by
  have hlen : b < s.builder.blocks.length + n := by
    have := (List.getElem?_eq_some_iff.mp h).1
    simpa using this
  by_cases hb : b = s.current_block
  · subst hb
    obtain ⟨blk, hblk⟩ : ∃ blk, s.builder.blocks[s.current_block]? = some blk :=
      ⟨_, List.getElem?_eq_getElem hcur⟩
    rw [insert_new_blocks_self s n mk blk hblk] at h
    exact Or.inr (Or.inl ⟨rfl, blk, hblk, (Option.some.inj h).symm⟩)
  · by_cases hlt : b < s.builder.blocks.length
    · rw [insert_new_blocks_ne s n mk b hb hlt] at h
      exact Or.inl ⟨hb, h⟩
    · have hle : s.builder.blocks.length ≤ b := Nat.le_of_not_lt hlt
      rw [insert_new_blocks_new s n mk b hle hlen hcur] at h
      exact Or.inr (Or.inr ⟨hle, (Option.some.inj h).symm⟩)

/-- A block of `s` is still there afterwards, with the same parent statement. -/
theorem insert_new_blocks_parent (s : State) (n : Nat) (mk : BlockPtr → Stmt) (b : BlockPtr)
    (blk : Block) (h : s.builder.blocks[b]? = some blk) :
    ∃ blk1, (s.insert_new n mk).builder.blocks[b]? = some blk1 ∧
      blk1.parent_stmt = blk.parent_stmt := by
  have hlt : b < s.builder.blocks.length := (List.getElem?_eq_some_iff.mp h).1
  by_cases hb : b = s.current_block
  · subst hb
    exact ⟨_, insert_new_blocks_self s n mk blk h, rfl⟩
  · exact ⟨blk, by rw [insert_new_blocks_ne s n mk b hb hlt]; exact h, rfl⟩

theorem insert_new_WF (s : State) (n : Nat) (mk : BlockPtr → Stmt)
    (hmk : ∀ c ∈ (mk s.builder.blocks.length).child_blocks,
      s.builder.blocks.length ≤ c ∧ c < s.builder.blocks.length + n)
    (h : s.WF) : (s.insert_new n mk).WF := by
  have hcur := current_block_lt s h
  constructor
  · rw [insert_new_blocks_length]
    exact Nat.lt_of_lt_of_le h.root (Nat.le_add_right _ _)
  · intro g hg
    rw [insert_new_scope_stack] at hg
    obtain ⟨blk, p, hb, hp⟩ := h.scope g hg
    obtain ⟨blk1, hb1, hp1⟩ := insert_new_blocks_parent s n mk g.list blk hb
    exact ⟨blk1, p, hb1, by rw [hp1, hp]⟩
  · intro p stmt hp c hc
    rw [insert_new_stmts] at hp
    rcases getElem?_concat_cases _ _ _ _ hp with ⟨_, hold⟩ | ⟨hpe, hse⟩
    · obtain ⟨blk, hb, hpar⟩ := h.child p stmt hold c hc
      obtain ⟨blk1, hb1, hp1⟩ := insert_new_blocks_parent s n mk c blk hb
      exact ⟨blk1, hb1, by rw [hp1, hpar]⟩
    · subst hse
      obtain ⟨h1, h2⟩ := hmk c hc
      exact ⟨_, insert_new_blocks_new s n mk c h1 h2 hcur, by rw [hpe]⟩
  · intro b blk1 hb p hp
    rw [insert_new_stmts, List.length_append, List.length_singleton]
    rcases insert_new_blocks_cases s n mk b blk1 hcur hb with
      ⟨_, hold⟩ | ⟨_, blk, hold, hnew⟩ | ⟨_, hnew⟩
    · exact Nat.lt_succ_of_lt (h.stmts_valid b blk1 hold p hp)
    · subst hnew
      rcases List.mem_append.mp hp with hp | hp
      · exact Nat.lt_succ_of_lt (h.stmts_valid b blk hold p hp)
      · rw [List.mem_singleton.mp hp]
        exact Nat.lt_succ_self _
    · subst hnew
      cases hp
  · intro b blk1 hb p hp stmt hs c hc
    rw [insert_new_stmts] at hs
    have hold_case : ∀ blk : Block, s.builder.blocks[b]? = some blk → p ∈ blk.statements →
        b < c := by
      intro blk hblk hpb
      have hlt := h.stmts_valid b blk hblk p hpb
      rw [List.getElem?_append_left hlt] at hs
      exact h.order b blk hblk p hpb stmt hs c hc
    rcases insert_new_blocks_cases s n mk b blk1 hcur hb with
      ⟨_, hold⟩ | ⟨hbc, blk, hold, hnew⟩ | ⟨_, hnew⟩
    · exact hold_case blk1 hold hp
    · subst hnew
      rcases List.mem_append.mp hp with hp | hp
      · exact hold_case blk hold hp
      · have hpe : p = s.builder.stmts.length := List.mem_singleton.mp hp
        subst hpe
        rw [List.getElem?_append_right (Nat.le_refl _)] at hs
        simp at hs
        subst hs
        obtain ⟨h1, _⟩ := hmk c hc
        rw [hbc]
        exact Nat.lt_of_lt_of_le hcur h1
    · subst hnew
      cases hp

theorem WF_of_eq (s t : State) (hb : t.builder = s.builder) (hs : t.scope_stack = s.scope_stack)
    (h : s.WF) : t.WF := by
  constructor
  · rw [hb]; exact h.root
  · rw [hb, hs]; exact h.scope
  · rw [hb]; exact h.child
  · rw [hb]; exact h.stmts_valid
  · rw [hb]; exact h.order

theorem push_back_WF (s : State) (g : ScopeGuard) (h : s.WF)
    (hg : ∃ (blk : Block) (p : StmtPtr),
      s.builder.blocks[g.list]? = some blk ∧ blk.parent_stmt = some p) :
    (s.push_back g).WF := by
  constructor
  · exact h.root
  · intro g1 hg1
    rw [push_back_scope_stack] at hg1
    rcases List.mem_append.mp hg1 with hm | hm
    · exact h.scope g1 hm
    · rw [List.mem_singleton.mp hm]
      exact hg
  · exact h.child
  · exact h.stmts_valid
  · exact h.order

theorem pop_back_WF (s : State) (h : s.WF) : s.pop_back.2.WF := by
  unfold State.pop_back
  split
  · exact h
  · constructor
    · exact h.root
    · intro g hg
      exact h.scope g (List.mem_of_mem_dropLast hg)
    · exact h.child
    · exact h.stmts_valid
    · exact h.order

theorem init_WF (arch : Arch) : (State.init arch).WF := by
  have hblk : ∀ (b : BlockPtr) (blk : Block),
      (State.init arch).builder.blocks[b]? = some blk → blk.statements = [] := by
    intro b blk hb
    have hm := List.getElem?_mem hb
    simp [State.init] at hm
    rw [hm]
  constructor
  · exact Nat.zero_lt_one
  · intro g hg
    cases hg
  · intro p stmt hp
    simp [State.init] at hp
  · intro b blk hb p hp
    rw [hblk b blk hb] at hp
    cases hp
  · intro b blk hb p hp
    rw [hblk b blk hb] at hp
    cases hp

/-! ## Calls as insertions followed by at most one push or pop -/

theorem Inserts.scope_stack_eq {s t : State} (h : Inserts s t) :
    t.scope_stack = s.scope_stack := by
  induction h with
  | refl => rfl
  | fresh t _ ih => exact ih
  | insert_new t n mk _ _ ih => rw [insert_new_scope_stack]; exact ih

theorem Inserts.current_block_eq {s t : State} (h : Inserts s t) :
    t.current_block = s.current_block := by
  unfold State.current_block
  rw [h.scope_stack_eq]

theorem Inserts.WF {s t : State} (h : Inserts s t) (hwf : s.WF) : t.WF := by
  induction h with
  | refl => exact hwf
  | fresh t _ ih => exact WF_of_eq t _ rfl rfl ih
  | insert_new t n mk hmk _ ih => exact insert_new_WF t n mk hmk ih

/-- Insertions only append to the heaps and, among the blocks of `s`, write to
the current block only. -/
theorem Inserts.keeps {s t : State} (h : Inserts s t) :
    (∀ b : BlockPtr, b ≠ s.current_block → b < s.builder.blocks.length →
        t.builder.blocks[b]? = s.builder.blocks[b]?) ∧
      (∀ p : StmtPtr, p < s.builder.stmts.length →
        t.builder.stmts[p]? = s.builder.stmts[p]?) ∧
      s.builder.blocks.length ≤ t.builder.blocks.length ∧
      s.builder.stmts.length ≤ t.builder.stmts.length := by
  induction h with
  | refl => exact ⟨fun _ _ _ => rfl, fun _ _ => rfl, Nat.le_refl _, Nat.le_refl _⟩
  | fresh t _ ih => exact ih
  | insert_new t n mk _ hst ih =>
    obtain ⟨h1, h2, h3, h4⟩ := ih
    refine ⟨?_, ?_, ?_, ?_⟩
    · intro b hb hlt
      rw [insert_new_blocks_ne t n mk b (by rw [hst.current_block_eq]; exact hb)
        (Nat.lt_of_lt_of_le hlt h3)]
      exact h1 b hb hlt
    · intro p hp
      rw [insert_new_stmts, List.getElem?_append_left (Nat.lt_of_lt_of_le hp h4)]
      exact h2 p hp
    · rw [insert_new_blocks_length]
      exact Nat.le_trans h3 (Nat.le_add_right _ _)
    · rw [insert_new_stmts, List.length_append]
      exact Nat.le_trans h4 (Nat.le_add_right _ _)

theorem Inserts.insert_leaf {s t : State} (stmt : Stmt) (hleaf : stmt.child_blocks = [])
    (h : Inserts s t) : Inserts s (t.insert_leaf stmt) := by
  have := Inserts.insert_new s t 0 (fun _ => stmt) (by intro c hc; rw [hleaf] at hc; cases hc) h
  exact this

theorem alloca_local_tensor_loop_inserts (ext : Externals) (var : Expr) (shape : List Int)
    (ty : DataType) (es : List Expr) (i : Nat) (s t : State) (h : Inserts s t) :
    Inserts s (alloca_local_tensor_loop ext var shape ty i es t).2 := by
  induction es generalizing i t with
  | nil => exact h
  | cons e es ih =>
    unfold alloca_local_tensor_loop
    split
    · exact h
    · exact ih _ _ (Inserts.insert_leaf _ rfl h)

theorem expr_alloca_local_tensor_inserts (ext : Externals) (shape : List Int) (ty : DataType)
    (elements : ExprGroup) (s : State) :
    Inserts s (expr_alloca_local_tensor ext shape ty elements s).2 := by
  have h0 : Inserts s
      (s.fresh_id.2.insert_leaf (.FrontendAllocaStmt s.fresh_id.1 (.tensor shape ty))) :=
    Inserts.insert_leaf _ rfl (Inserts.fresh s s (Inserts.refl s))
  have h1 := alloca_local_tensor_loop_inserts ext
    (Expr.IdExpression s.fresh_id.1 ""
      (s.fresh_id.2.insert_leaf (.FrontendAllocaStmt s.fresh_id.1 (.tensor shape ty))).last_ret_type)
    shape ty elements.exprs 0 s _ h0
  unfold expr_alloca_local_tensor
  simp only []
  split <;> rename_i hr <;>
    · have h2 := congrArg Prod.snd hr
      simp only at h2
      rw [← h2]
      exact h1

/-- A call that is neither a push nor a pop only inserts statements. -/
theorem step_other_inserts (ext : Externals) (c : Call) (s : State)
    (h1 : c.is_push = false) (h2 : c.is_pop = false) : Inserts s (step ext c s).2 := by
  cases c <;> simp [Call.is_push, Call.is_pop] at h1 h2
  case create_kernel_return v => exact Inserts.insert_leaf _ rfl (Inserts.refl s)
  case create_kernel_exprgroup_return g => exact Inserts.insert_leaf _ rfl (Inserts.refl s)
  case create_print cs => exact Inserts.insert_leaf _ rfl (Inserts.refl s)
  case create_assert_stmt c m a => exact Inserts.insert_leaf _ rfl (Inserts.refl s)
  case insert_break_stmt => exact Inserts.insert_leaf _ rfl (Inserts.refl s)
  case insert_continue_stmt => exact Inserts.insert_leaf _ rfl (Inserts.refl s)
  case insert_expr_stmt v => exact Inserts.insert_leaf _ rfl (Inserts.refl s)
  case insert_external_func_call a b c d e f =>
    exact Inserts.insert_leaf _ rfl (Inserts.refl s)
  case expr_assign lhs rhs tb =>
    simp only [step, expr_assign]
    split
    · exact Inserts.insert_leaf _ rfl (Inserts.refl s)
    · exact Inserts.refl s
  case expr_alloca =>
    exact Inserts.insert_leaf _ rfl (Inserts.fresh s s (Inserts.refl s))
  case expr_alloca_local_tensor shape ty els =>
    exact expr_alloca_local_tensor_inserts ext shape ty els s
  case insert_thread_idx_expr =>
    have : (step ext .insert_thread_idx_expr s).2 = s := by
      simp only [step, insert_thread_idx_expr]
      split
      · rfl
      · split
        · split <;> rfl
        · rfl
    rw [this]
    exact Inserts.refl s
  case insert_patch_idx_expr =>
    have : (step ext .insert_patch_idx_expr s).2 = s := by
      simp only [step, insert_patch_idx_expr]
      split
      · split <;> rfl
      · rfl
    rw [this]
    exact Inserts.refl s
  case begin_frontend_if cond =>
    exact Inserts.insert_new s s 2 (fun b => .FrontendIfStmt cond b (b + 1)) (by
      intro c hc
      simp only [Stmt.child_blocks, List.mem_cons, List.mem_singleton, List.mem_nil_iff,
        or_false] at hc
      rcases hc with hc | hc <;> subst hc
      · exact ⟨Nat.le_refl _, Nat.lt_add_of_pos_right (by decide)⟩
      · exact ⟨Nat.le_succ _, Nat.lt_succ_self _⟩) (Inserts.refl s)

theorem last_if_stmt_ok (s : State) (t f : BlockPtr) (h : last_if_stmt s = .ok (t, f)) :
    ∃ (blk : Block) (p : StmtPtr) (cond : Expr),
      s.builder.blocks[s.current_block]? = some blk ∧ blk.statements.getLast? = some p ∧
        s.builder.stmts[p]? = some (.FrontendIfStmt cond t f) := by
  unfold last_if_stmt at h
  split at h
  · cases h
  · rename_i p hp
    split at h
    · rename_i cond t1 f1 hs
      cases h
      unfold State.get_last_stmt at hp
      split at hp
      · rename_i blk hblk
        exact ⟨blk, p, cond, hblk, hp, hs⟩
      · cases hp
    · cases h

/-- The child blocks of the if statement found by `begin_frontend_if_true` /
`_false` may be pushed. -/
theorem last_if_stmt_good_push (s : State) (hwf : s.WF) (t f : BlockPtr)
    (h : last_if_stmt s = .ok (t, f)) :
    good_push s (create_scope t) ∧ good_push s (create_scope f) := by
  obtain ⟨blk, p, cond, hblk, hlast, hs⟩ := last_if_stmt_ok s t f h
  have hmem : p ∈ blk.statements := List.mem_of_mem_getLast? hlast
  have ht : t ∈ (Stmt.FrontendIfStmt cond t f).child_blocks := by simp [Stmt.child_blocks]
  have hf : f ∈ (Stmt.FrontendIfStmt cond t f).child_blocks := by simp [Stmt.child_blocks]
  refine ⟨⟨?_, ?_⟩, ⟨?_, ?_⟩⟩
  · obtain ⟨b1, hb1, hp1⟩ := hwf.child p _ hs t ht
    exact ⟨b1, p, hb1, hp1⟩
  · exact hwf.order _ blk hblk p hmem _ hs t ht
  · obtain ⟨b1, hb1, hp1⟩ := hwf.child p _ hs f hf
    exact ⟨b1, p, hb1, hp1⟩
  · exact hwf.order _ blk hblk p hmem _ hs f hf

/-- The loop and function constructors: build and insert the node, then push a
scope bound to the block allocated as its body. -/
theorem begin_with_body_eq (mk : BlockPtr → Stmt)
    (hbody : ∀ (st : State) (p : StmtPtr) (b : BlockPtr),
      st.builder.stmts[p]? = some (mk b) → st.body p = b) (s : State) :
    begin_with_body mk s =
      (.ok (), (s.insert_new 1 mk).push_back { list := s.builder.blocks.length }) := by
  unfold begin_with_body
  simp only []
  have hb : ((s.alloc 1 mk).2.insert (s.alloc 1 mk).1).body (s.alloc 1 mk).1
      = s.builder.blocks.length := by
    apply hbody
    simp
  rw [hb]
  rfl

theorem begin_with_body_good_push (mk : BlockPtr → Stmt) (s : State) (hwf : s.WF) :
    good_push (s.insert_new 1 mk) { list := s.builder.blocks.length } := by
  have hcur := current_block_lt s hwf
  refine ⟨⟨_, _, insert_new_blocks_new s 1 mk _ (Nat.le_refl _) (Nat.lt_succ_self _) hcur, rfl⟩,
    ?_⟩
  rw [insert_new_current_block]
  exact hcur

/-- A pushing call that returns has inserted statements and then pushed one
scope, bound to an existing block created after the current one. -/
theorem step_push_cases (ext : Externals) (c : Call) (s : State) (hc : c.is_push = true)
    (hwf : s.WF) (hok : (step ext c s).1 = .ok ()) :
    ∃ t g, Inserts s t ∧ (step ext c s).2 = t.push_back g ∧ good_push t g := by
  have hins : ∀ mk : BlockPtr → Stmt, (∀ b, (mk b).child_blocks = [b]) →
      Inserts s (s.insert_new 1 mk) := by
    intro mk hmk
    refine Inserts.insert_new s s 1 mk ?_ (Inserts.refl s)
    intro c1 hc1
    rw [hmk] at hc1
    rw [List.mem_singleton.mp hc1]
    exact ⟨Nat.le_refl _, Nat.lt_succ_self _⟩
  have hgen : ∀ mk : BlockPtr → Stmt, (∀ b, (mk b).child_blocks = [b]) →
      (∀ (st : State) (p : StmtPtr) (b : BlockPtr),
        st.builder.stmts[p]? = some (mk b) → st.body p = b) →
      ∃ t g, Inserts s t ∧ (begin_with_body mk s).2 = t.push_back g ∧ good_push t g := by
    intro mk hmk hbody
    refine ⟨s.insert_new 1 mk, { list := s.builder.blocks.length }, hins mk hmk, ?_,
      begin_with_body_good_push mk s hwf⟩
    rw [begin_with_body_eq mk hbody s]
  cases c <;> simp [Call.is_push] at hc
  case begin_frontend_if_true =>
    obtain ⟨t, f, hl, heq⟩ := begin_frontend_if_true_ok s hok
    exact ⟨s, create_scope t, Inserts.refl s, by simp [step, heq],
      (last_if_stmt_good_push s hwf t f hl).1⟩
  case begin_frontend_if_false =>
    obtain ⟨t, f, hl, heq⟩ := begin_frontend_if_false_ok s hok
    exact ⟨s, create_scope f, Inserts.refl s, by simp [step, heq],
      (last_if_stmt_good_push s hwf t f hl).2⟩
  case begin_frontend_while cond =>
    exact hgen _ (fun _ => rfl) (fun st p b h => by simp [State.body, h])
  case begin_frontend_range_for i b e =>
    exact hgen _ (fun _ => rfl) (fun st p b h => by simp [State.body, h])
  case begin_frontend_struct_for vs g =>
    exact hgen _ (fun _ => rfl) (fun st p b h => by simp [State.body, h])
  case begin_frontend_mesh_for i m t =>
    exact hgen _ (fun _ => rfl) (fun st p b h => by simp [State.body, h])
  case begin_func funcid =>
    exact hgen _ (fun _ => rfl) (fun st p b h => by simp [State.body, h])

/-- A pushing call that does not return leaves the state as it was. -/
theorem step_push_fail (ext : Externals) (c : Call) (s : State) (hc : c.is_push = true)
    (hno : (step ext c s).1 ≠ .ok ()) : (step ext c s).2 = s := by
  cases c <;> simp [Call.is_push] at hc
  case begin_frontend_if_true =>
    simp only [step, begin_frontend_if_true] at hno ⊢
    split
    · rename_i h
      rw [h] at hno
      exact absurd rfl hno
    · rfl
  case begin_frontend_if_false =>
    simp only [step, begin_frontend_if_false] at hno ⊢
    split
    · rename_i h
      rw [h] at hno
      exact absurd rfl hno
    · rfl
  all_goals exact absurd rfl hno

theorem step_pop_eq (ext : Externals) (c : Call) (s : State) (hc : c.is_pop = true) :
    step ext c s = s.pop_back := by
  cases c <;> simp [Call.is_pop] at hc <;> rfl

/-- Every call keeps the state well formed. -/
theorem step_WF (ext : Externals) (c : Call) (s : State) (hwf : s.WF) :
    (step ext c s).2.WF := by
  by_cases hp : c.is_push = true
  · by_cases hok : (step ext c s).1 = .ok ()
    · obtain ⟨t, g, hins, heq, hgood⟩ := step_push_cases ext c s hp hwf hok
      rw [heq]
      exact push_back_WF t g (hins.WF hwf) hgood.1
    · rw [step_push_fail ext c s hp hok]
      exact hwf
  · by_cases hq : c.is_pop = true
    · rw [step_pop_eq ext c s hq]
      exact pop_back_WF s hwf
    · exact (step_other_inserts ext c s (by simpa using hp) (by simpa using hq)).WF hwf

/-- Every reachable state is well formed. -/
theorem reachable_WF (ext : Externals) (s : State) (h : Reachable ext s) : s.WF := by
  induction h with
  | init arch => exact init_WF arch
  | step c s _ ih => exact step_WF ext c s ih

theorem WF_all_scopes_parented (s : State) (h : s.WF) : s.all_scopes_parented := by
  intro g hg
  obtain ⟨blk, p, hb, hp⟩ := h.scope g hg
  simp [State.parent_stmt, hb, hp]

theorem nearest_for_in_exists (s : State) (gs : List ScopeGuard)
    (h : ∃ g ∈ gs, s.has_for_parent g = true) : ∃ l, s.nearest_for_in gs = some l := by
  induction gs with
  | nil =>
    obtain ⟨g, hg, _⟩ := h
    cases hg
  | cons g0 gs ih =>
    obtain ⟨g, hg, hf⟩ := h
    unfold State.nearest_for_in
    cases hp : s.parent_stmt g0 with
    | none =>
      simp only []
      apply ih
      rcases List.mem_cons.mp hg with he | hm
      · subst he
        simp [State.has_for_parent, hp] at hf
      · exact ⟨g, hm, hf⟩
    | some p =>
      simp only []
      by_cases hfor : s.is_for p = true
      · exact ⟨p, by simp [hfor]⟩
      · simp only [hfor]
        apply ih
        rcases List.mem_cons.mp hg with he | hm
        · subst he
          simp [State.has_for_parent, hp] at hf
          exact absurd hf hfor
        · exact ⟨g, hm, hf⟩

/-- C9: in every state the bindings can reach, when the architecture is cuda
or a CPU architecture and at least one scope of the stack, at any depth, is
bound to the body of a for-loop, `insert_thread_idx_expr` returns the
internal-call expression `linear_thread_idx` with no arguments, and changes
nothing. -/
theorem insert_thread_idx_expr_succeeds (ext : Externals) (s : State) (hr : Reachable ext s)
    (harch : s.arch = ext.cuda ∨ ext.arch_is_cpu s.arch = true)
    (hfor : ∃ g ∈ s.scope_stack, ∃ (p : StmtPtr) (header : ForHeader),
      s.builder.stmts[p]? = some (.FrontendForStmt header g.list)) :
    insert_thread_idx_expr ext s =
      (.ok (.InternalFuncCallExpression "linear_thread_idx" []), s) := by
  have hwf := reachable_WF ext s hr
  have hw := walk_from_eq_nearest_for s (WF_all_scopes_parented s hwf)
  have hex : ∃ g ∈ s.scope_stack.reverse, s.has_for_parent g = true := by
    obtain ⟨g, hg, p, header, hs⟩ := hfor
    refine ⟨g, List.mem_reverse.mpr hg, ?_⟩
    obtain ⟨blk, hb, hp⟩ := hwf.child p _ hs g.list (by simp [Stmt.child_blocks])
    simp [State.has_for_parent, State.parent_stmt, hb, hp, State.is_for, hs,
      Stmt.is_FrontendForStmt]
  obtain ⟨l, hl⟩ := nearest_for_in_exists s _ hex
  have hfl : s.is_for l = true := nearest_for_in_is_for s _ l hl
  have hna : ¬ (s.arch ≠ ext.cuda ∧ ext.arch_is_cpu s.arch = false) := by
    rintro ⟨h1, h2⟩
    rcases harch with h | h
    · exact h1 h
    · rw [h] at h2
      cases h2
  unfold insert_thread_idx_expr
  simp only []
  rw [if_neg hna, hw]
  unfold State.nearest_for
  rw [hl]
  simp [hfl]

/-- Witness of C9: a while-loop inside a mesh-for inside a range-for, on a CPU
architecture; the scope at depth 0 is bound to the body of the range-for. -/
theorem insert_thread_idx_expr_succeeds_witness :
    (sample_while_in_mesh_state.arch = sample_externals.cuda ∨
        sample_externals.arch_is_cpu sample_while_in_mesh_state.arch = true) ∧
      sample_while_in_mesh_state.scope_stack = [⟨1⟩, ⟨2⟩, ⟨3⟩] ∧
      sample_while_in_mesh_state.builder.stmts[0]? =
        some (.FrontendForStmt
          (.range (sample_expr "j") (sample_expr "b") (sample_expr "e")) 1) ∧
      insert_thread_idx_expr sample_externals sample_while_in_mesh_state =
        (.ok (.InternalFuncCallExpression "linear_thread_idx" []),
          sample_while_in_mesh_state) :=
  ⟨Or.inr rfl, rfl, rfl,
    insert_thread_idx_expr_succeeds sample_externals sample_while_in_mesh_state
      (Reachable.step (.begin_frontend_while (sample_expr "c")) _
        (Reachable.step (.begin_frontend_mesh_for (sample_expr "i") 0 .Vertex) _
          (Reachable.step
            (.begin_frontend_range_for (sample_expr "j") (sample_expr "b") (sample_expr "e")) _
            (Reachable.init 0))))
      (Or.inr rfl)
      ⟨⟨1⟩, by decide, 0, .range (sample_expr "j") (sample_expr "b") (sample_expr "e"), rfl⟩⟩

/-! ## The compound-statement constructors -/

@[simp]
theorem push_back_builder (s : State) (g : ScopeGuard) : (s.push_back g).builder = s.builder :=
  rfl

theorem begin_with_body_spec (mk : BlockPtr → Stmt)
    (hbody : ∀ (st : State) (p : StmtPtr) (b : BlockPtr),
      st.builder.stmts[p]? = some (mk b) → st.body p = b)
    (s : State) (hcur : s.current_block < s.builder.blocks.length) :
    (begin_with_body mk s).1 = .ok () ∧
      inserts_and_pushes_body s (begin_with_body mk s).2 mk := by
  rw [begin_with_body_eq mk hbody s]
  obtain ⟨blk, hblk⟩ : ∃ blk, s.builder.blocks[s.current_block]? = some blk :=
    ⟨_, List.getElem?_eq_getElem hcur⟩
  refine ⟨rfl, ?_, ?_, ?_, ⟨blk, hblk, ?_⟩, ?_, ?_⟩
  · simp
  · simp
  · exact insert_new_blocks_new s 1 mk _ (Nat.le_refl _) (Nat.lt_succ_self _) hcur
  · exact insert_new_blocks_self s 1 mk blk hblk
  · intro b hb hlt
    exact insert_new_blocks_ne s 1 mk b hb hlt
  · simp

/-- C3: in every builder state (whose current block exists), each of
`begin_frontend_while`, `begin_frontend_range_for`, `begin_frontend_struct_for`,
`begin_frontend_mesh_for` and `begin_func` returns, adds exactly one statement
node, the compound statement, appended to the current block, and pushes
exactly one scope, bound to the body block of that very node. -/
theorem begin_constructors_push_body (s : State)
    (hcur : s.current_block < s.builder.blocks.length) (cond i b e global : Expr)
    (loop_vars : ExprGroup) (mesh_ptr : MeshPtr) (element_type : MeshElementType)
    (funcid : String) :
    ((begin_frontend_while cond s).1 = .ok () ∧
        inserts_and_pushes_body s (begin_frontend_while cond s).2
          (fun body => .FrontendWhileStmt cond body)) ∧
      ((begin_frontend_range_for i b e s).1 = .ok () ∧
        inserts_and_pushes_body s (begin_frontend_range_for i b e s).2
          (fun body => .FrontendForStmt (.range i b e) body)) ∧
      ((begin_frontend_struct_for loop_vars global s).1 = .ok () ∧
        inserts_and_pushes_body s (begin_frontend_struct_for loop_vars global s).2
          (fun body => .FrontendForStmt (.struct loop_vars global) body)) ∧
      ((begin_frontend_mesh_for i mesh_ptr element_type s).1 = .ok () ∧
        inserts_and_pushes_body s (begin_frontend_mesh_for i mesh_ptr element_type s).2
          (fun body => .FrontendForStmt (.mesh i mesh_ptr element_type) body)) ∧
      ((begin_func funcid s).1 = .ok () ∧
        inserts_and_pushes_body s (begin_func funcid s).2
          (fun body => .FrontendFuncDefStmt funcid body)) :=
  ⟨begin_with_body_spec _ (fun st p b h => by simp [State.body, h]) s hcur,
    begin_with_body_spec _ (fun st p b h => by simp [State.body, h]) s hcur,
    begin_with_body_spec _ (fun st p b h => by simp [State.body, h]) s hcur,
    begin_with_body_spec _ (fun st p b h => by simp [State.body, h]) s hcur,
    begin_with_body_spec _ (fun st p b h => by simp [State.body, h]) s hcur⟩

/-- Witness of C3 in the state left by `sample_trace`, inside an open function
scope. -/
theorem begin_constructors_push_body_witness :
    sample_trace_state.current_block < sample_trace_state.builder.blocks.length ∧
      (begin_frontend_mesh_for (sample_expr "i") 0 .Face sample_trace_state).2.scope_stack =
        [⟨2⟩, ⟨3⟩] ∧
      inserts_and_pushes_body sample_trace_state
        (begin_frontend_mesh_for (sample_expr "i") 0 .Face sample_trace_state).2
        (fun body => .FrontendForStmt (.mesh (sample_expr "i") 0 .Face) body) :=
  ⟨by decide, rfl,
    (begin_constructors_push_body sample_trace_state (by decide) (sample_expr "c")
      (sample_expr "i") (sample_expr "b") (sample_expr "e") (sample_expr "x") ⟨[]⟩ 0 .Face
      "f").2.2.2.1.2⟩

/-! ## The if statement -/

theorem get_last_stmt_of (s : State) (blk : Block) (p : StmtPtr)
    (hblk : s.builder.blocks[s.current_block]? = some blk)
    (hlast : blk.statements.getLast? = some p) : s.get_last_stmt = some p := by
  unfold State.get_last_stmt
  rw [hblk]
  exact hlast

theorem last_if_stmt_of (s : State) (blk : Block) (p : StmtPtr) (cond : Expr) (t f : BlockPtr)
    (hblk : s.builder.blocks[s.current_block]? = some blk)
    (hlast : blk.statements.getLast? = some p)
    (hs : s.builder.stmts[p]? = some (.FrontendIfStmt cond t f)) :
    last_if_stmt s = .ok (t, f) := by
  unfold last_if_stmt
  rw [get_last_stmt_of s blk p hblk hlast]
  simp only [hs]

/-- C4, as stated, fails: at the start of a trace `begin_frontend_if` returns
and the scope stack is still empty; the depth has not grown by one. -/
theorem begin_frontend_if_pushes_nothing :
    (begin_frontend_if (sample_expr "d") (State.init 0)).1 = .ok () ∧
      (begin_frontend_if (sample_expr "d") (State.init 0)).2.scope_stack = [] ∧
      ¬ ((begin_frontend_if (sample_expr "d") (State.init 0)).2.scope_stack.length =
        (State.init 0).scope_stack.length + 1) :=
  ⟨rfl, rfl, by decide⟩

/-- The effect of `begin_frontend_if` and of the two calls that may follow it. -/
theorem begin_frontend_if_effect (s : State)
    (hcur : s.current_block < s.builder.blocks.length) (cond : Expr) :
    (begin_frontend_if cond s).1 = .ok () ∧
      (begin_frontend_if cond s).2.scope_stack = s.scope_stack ∧
      (begin_frontend_if cond s).2.builder.stmts = s.builder.stmts ++
        [.FrontendIfStmt cond s.builder.blocks.length (s.builder.blocks.length + 1)] ∧
      (∃ blk, s.builder.blocks[s.current_block]? = some blk ∧
        (begin_frontend_if cond s).2.builder.blocks[s.current_block]? =
          some { blk with statements := blk.statements ++ [s.builder.stmts.length] }) ∧
      (begin_frontend_if cond s).2.get_last_stmt = some s.builder.stmts.length ∧
      begin_frontend_if_true (begin_frontend_if cond s).2 =
        (.ok (), (begin_frontend_if cond s).2.push_back { list := s.builder.blocks.length }) ∧
      begin_frontend_if_false (begin_frontend_if cond s).2 =
        (.ok (), (begin_frontend_if cond s).2.push_back
          { list := s.builder.blocks.length + 1 }) := by
  obtain ⟨blk, hblk⟩ : ∃ blk, s.builder.blocks[s.current_block]? = some blk :=
    ⟨_, List.getElem?_eq_getElem hcur⟩
  have heq : (begin_frontend_if cond s).2 =
      s.insert_new 2 (fun b => .FrontendIfStmt cond b (b + 1)) := rfl
  have hself := insert_new_blocks_self s 2 (fun b => .FrontendIfStmt cond b (b + 1)) blk hblk
  have hstmt : (s.insert_new 2 (fun b => .FrontendIfStmt cond b (b + 1))).builder.stmts[
      s.builder.stmts.length]? =
      some (.FrontendIfStmt cond s.builder.blocks.length (s.builder.blocks.length + 1)) := by
    simp
  have hcb : (s.insert_new 2 (fun b => Stmt.FrontendIfStmt cond b (b + 1))).current_block =
      s.current_block := insert_new_current_block _ _ _
  have hlast := last_if_stmt_of (s.insert_new 2 (fun b => .FrontendIfStmt cond b (b + 1)))
    _ s.builder.stmts.length cond _ _ (by rw [hcb]; exact hself) (by simp) hstmt
  refine ⟨rfl, ?_, ?_, ⟨blk, hblk, ?_⟩, ?_, ?_, ?_⟩
  · rw [heq]; simp
  · rw [heq]; simp
  · rw [heq]; exact hself
  · rw [heq]
    exact get_last_stmt_of _ _ _ (by rw [hcb]; exact hself) (by simp)
  · rw [heq]
    unfold begin_frontend_if_true
    rw [hlast]
    rfl
  · rw [heq]
    unfold begin_frontend_if_false
    rw [hlast]
    rfl

/-- C4 (amended): in every builder state (whose current block exists)
`begin_frontend_if(cond)` returns, builds the if node with two new child blocks
and appends it to the current block, and pushes no scope: the scope stack is
as before.  The scopes of the two child blocks are pushed by the calls that
follow it: `begin_frontend_if_true` returns and pushes one scope bound to
`true_statements`, `begin_frontend_if_false` one bound to `false_statements`
of that node. -/
theorem begin_frontend_if_inserts_only (s : State)
    (hcur : s.current_block < s.builder.blocks.length) (cond : Expr) :
    (begin_frontend_if cond s).1 = .ok () ∧
      (begin_frontend_if cond s).2.scope_stack = s.scope_stack ∧
      (begin_frontend_if cond s).2.builder.stmts = s.builder.stmts ++
        [.FrontendIfStmt cond s.builder.blocks.length (s.builder.blocks.length + 1)] ∧
      (∃ blk, s.builder.blocks[s.current_block]? = some blk ∧
        (begin_frontend_if cond s).2.builder.blocks[s.current_block]? =
          some { blk with statements := blk.statements ++ [s.builder.stmts.length] }) ∧
      (begin_frontend_if cond s).2.get_last_stmt = some s.builder.stmts.length ∧
      begin_frontend_if_true (begin_frontend_if cond s).2 =
        (.ok (), (begin_frontend_if cond s).2.push_back { list := s.builder.blocks.length }) ∧
      begin_frontend_if_false (begin_frontend_if cond s).2 =
        (.ok (), (begin_frontend_if cond s).2.push_back
          { list := s.builder.blocks.length + 1 }) :=
  begin_frontend_if_effect s hcur cond

/-- Witness of the amended C4 inside the function scope left open by
`sample_trace`. -/
theorem begin_frontend_if_inserts_only_witness :
    sample_trace_state.current_block < sample_trace_state.builder.blocks.length ∧
      sample_trace_state.scope_stack = [⟨2⟩] ∧
      (begin_frontend_if (sample_expr "d") sample_trace_state).2.scope_stack =
        sample_trace_state.scope_stack ∧
      begin_frontend_if_true (begin_frontend_if (sample_expr "d") sample_trace_state).2 =
        (.ok (), (begin_frontend_if (sample_expr "d") sample_trace_state).2.push_back
          { list := sample_trace_state.builder.blocks.length }) :=
  ⟨by decide, rfl,
    (begin_frontend_if_inserts_only sample_trace_state (by decide) (sample_expr "d")).2.1,
    (begin_frontend_if_inserts_only sample_trace_state (by decide)
      (sample_expr "d")).2.2.2.2.2.1⟩

/-! ## Balanced sequences leave the enclosing scopes and blocks alone -/

theorem is_pop_not_is_push (c : Call) (h : c.is_pop = true) : c.is_push = false := by
  cases c <;> simp [Call.is_pop] at h <;> rfl

theorem current_block_of_stack (s : State) (σ τ : List ScopeGuard) (g0 : ScopeGuard)
    (h : s.scope_stack = σ ++ g0 :: τ) : ∃ g ∈ g0 :: τ, s.current_block = g.list := by
  unfold State.current_block
  rw [h]
  cases hl : (σ ++ g0 :: τ).getLast? with
  | none =>
    rw [List.getLast?_eq_none_iff] at hl
    simp at hl
  | some g =>
    refine ⟨g, ?_, rfl⟩
    rw [List.getLast?_append] at hl
    cases hl2 : (g0 :: τ).getLast? with
    | none =>
      rw [List.getLast?_eq_none_iff] at hl2
      cases hl2
    | some g1 =>
      rw [hl2] at hl
      simp at hl
      subst hl
      exact List.mem_of_mem_getLast? hl2

/-- A balanced sequence run inside an open scope `g0` ends with `g0` on top of
the same enclosing scopes, and has not touched a block `b0` older than every
block open during the sequence, nor any statement node that existed before. -/
theorem run_balanced_frame (ext : Externals) (b0 : BlockPtr) (cs : List Call) :
    ∀ (d : Nat) (s s2 : State) (σ τ : List ScopeGuard) (g0 : ScopeGuard),
      s.WF → s.scope_stack = σ ++ g0 :: τ → τ.length = d →
      (∀ g ∈ g0 :: τ, b0 < g.list) → b0 < s.builder.blocks.length →
      balanced_from d cs = true → run ext cs s = some s2 →
      s2.WF ∧ s2.scope_stack = σ ++ [g0] ∧
        s2.builder.blocks[b0]? = s.builder.blocks[b0]? ∧
        (∀ p : StmtPtr, p < s.builder.stmts.length →
          s2.builder.stmts[p]? = s.builder.stmts[p]?) := by
  induction cs with
  | nil =>
    intro d s s2 σ τ g0 hwf hst hlen _ _ hbal hrun
    simp [run] at hrun
    subst hrun
    simp [balanced_from] at hbal
    subst hbal
    have : τ = [] := List.length_eq_zero.mp hlen
    subst this
    exact ⟨hwf, hst, rfl, fun _ _ => rfl⟩
  | cons c cs ih =>
    intro d s s2 σ τ g0 hwf hst hlen habove hb0 hbal hrun
    obtain ⟨hok, hrun1⟩ := run_cons_some ext c cs s s2 hrun
    obtain ⟨gc, hgc, hcur⟩ := current_block_of_stack s σ τ g0 hst
    have hb0cur : b0 < s.current_block := by rw [hcur]; exact habove gc hgc
    have hne : b0 ≠ s.current_block := Nat.ne_of_lt hb0cur
    have hwf1 := step_WF ext c s hwf
    by_cases hp : c.is_push = true
    · obtain ⟨t, g, hins, heq, hgood⟩ := step_push_cases ext c s hp hwf hok
      obtain ⟨k1, k2, k3, k4⟩ := hins.keeps
      have hbal1 : balanced_from (d + 1) cs = true := by
        unfold balanced_from at hbal
        simpa [hp] using hbal
      have hst1 : (step ext c s).2.scope_stack = σ ++ g0 :: (τ ++ [g]) := by
        rw [heq, push_back_scope_stack, hins.scope_stack_eq, hst]
        simp
      have habove1 : ∀ g1 ∈ g0 :: (τ ++ [g]), b0 < g1.list := by
        intro g1 hg1
        rcases List.mem_cons.mp hg1 with h1 | h1
        · exact habove g1 (by rw [h1]; exact List.mem_cons_self _ _)
        · rcases List.mem_append.mp h1 with h2 | h2
          · exact habove g1 (List.mem_cons_of_mem _ h2)
          · rw [List.mem_singleton.mp h2]
            have := hgood.2
            rw [hins.current_block_eq] at this
            exact Nat.lt_trans hb0cur this
      have hb1 : b0 < (step ext c s).2.builder.blocks.length := by
        rw [heq, push_back_builder]
        exact Nat.lt_of_lt_of_le hb0 k3
      obtain ⟨r1, r2, r3, r4⟩ := ih (d + 1) _ s2 σ (τ ++ [g]) g0 hwf1 hst1
        (by simp [hlen]) habove1 hb1 hbal1 hrun1
      refine ⟨r1, r2, ?_, ?_⟩
      · rw [r3, heq, push_back_builder]
        exact k1 b0 hne hb0
      · intro p hp1
        rw [r4 p (by rw [heq, push_back_builder]; exact Nat.lt_of_lt_of_le hp1 k4), heq,
          push_back_builder]
        exact k2 p hp1
    · by_cases hq : c.is_pop = true
      · have hbal0 := hbal
        unfold balanced_from at hbal0
        simp only [hp, hq, if_true, Bool.false_eq_true, if_false] at hbal0
        cases d with
        | zero => simp at hbal0
        | succ d1 =>
          simp only at hbal0
          have hτ : τ ≠ [] := by
            intro h0
            rw [h0] at hlen
            cases hlen
          have hne2 : s.scope_stack ≠ [] := by rw [hst]; simp
          have hstep : step ext c s = (.ok (), { s with scope_stack := s.scope_stack.dropLast }) := by
            rw [step_pop_eq ext c s hq, pop_back_nonempty s hne2]
          have hst1 : (step ext c s).2.scope_stack = σ ++ g0 :: τ.dropLast := by
            rw [hstep, hst]
            simp only []
            rw [List.dropLast_append_cons]
            congr 1
            cases τ with
            | nil => exact absurd rfl hτ
            | cons x xs => rfl
          have habove1 : ∀ g1 ∈ g0 :: τ.dropLast, b0 < g1.list := by
            intro g1 hg1
            rcases List.mem_cons.mp hg1 with h1 | h1
            · exact habove g1 (by rw [h1]; exact List.mem_cons_self _ _)
            · exact habove g1 (List.mem_cons_of_mem _ (List.mem_of_mem_dropLast h1))
          have hbld : (step ext c s).2.builder = s.builder := by rw [hstep]
          obtain ⟨r1, r2, r3, r4⟩ := ih d1 _ s2 σ τ.dropLast g0 hwf1 hst1
            (by rw [List.length_dropLast, hlen]; rfl) habove1 (by rw [hbld]; exact hb0)
            hbal0 hrun1
          rw [hbld] at r3 r4
          exact ⟨r1, r2, r3, r4⟩
      · have hp0 : c.is_push = false := by simpa using hp
        have hq0 : c.is_pop = false := by simpa using hq
        have hins := step_other_inserts ext c s hp0 hq0
        obtain ⟨k1, k2, k3, k4⟩ := hins.keeps
        have hbal1 : balanced_from d cs = true := by
          unfold balanced_from at hbal
          simpa [hp0, hq0] using hbal
        obtain ⟨r1, r2, r3, r4⟩ := ih d _ s2 σ τ g0 hwf1
          (by rw [hins.scope_stack_eq]; exact hst) hlen habove
          (Nat.lt_of_lt_of_le hb0 k3) hbal1 hrun1
        refine ⟨r1, r2, ?_, ?_⟩
        · rw [r3]
          exact k1 b0 hne hb0
        · intro p hp1
          rw [r4 p (Nat.lt_of_lt_of_le hp1 k4)]
          exact k2 p hp1

/-- C5 (if-statement scope lifetimes): in every reachable state `s`, for
balanced sequences `B1`, `B2` that run to their end in the two branches, the
sequence `begin_frontend_if(c); begin_frontend_if_true; B1; pop_scope;
begin_frontend_if_false; B2; pop_scope` goes through: `begin_frontend_if_true`
pushes a scope bound to `true_statements` of the node inserted by
`begin_frontend_if`; after `B1; pop_scope` the stack is that of `s` and the
last statement of the current block is still that node;
`begin_frontend_if_false` then pushes, on the stack of `s` again (not on top of
the first scope), a scope bound to `false_statements` of the same node; and
after `B2; pop_scope` the stack is that of `s`. -/
theorem if_scope_lifetimes (ext : Externals) (s : State) (hr : Reachable ext s) (cond : Expr)
    (B1 B2 : List Call) (hB1 : balanced B1 = true) (hB2 : balanced B2 = true) (s3 s6 : State)
    (h1 : run ext B1 (begin_frontend_if_true (begin_frontend_if cond s).2).2 = some s3)
    (h2 : run ext B2 (begin_frontend_if_false (pop_scope s3).2).2 = some s6) :
    (begin_frontend_if cond s).2.builder.stmts[s.builder.stmts.length]? =
        some (.FrontendIfStmt cond s.builder.blocks.length (s.builder.blocks.length + 1)) ∧
      (begin_frontend_if_true (begin_frontend_if cond s).2).1 = .ok () ∧
      (begin_frontend_if_true (begin_frontend_if cond s).2).2.scope_stack =
        s.scope_stack ++ [{ list := s.builder.blocks.length }] ∧
      (pop_scope s3).1 = .ok () ∧
      (pop_scope s3).2.scope_stack = s.scope_stack ∧
      (pop_scope s3).2.get_last_stmt = some s.builder.stmts.length ∧
      (pop_scope s3).2.builder.stmts[s.builder.stmts.length]? =
        some (.FrontendIfStmt cond s.builder.blocks.length (s.builder.blocks.length + 1)) ∧
      (begin_frontend_if_false (pop_scope s3).2).1 = .ok () ∧
      (begin_frontend_if_false (pop_scope s3).2).2.scope_stack =
        s.scope_stack ++ [{ list := s.builder.blocks.length + 1 }] ∧
      (pop_scope s6).1 = .ok () ∧
      (pop_scope s6).2.scope_stack = s.scope_stack := by
  have hwf := reachable_WF ext s hr
  have hcur := current_block_lt s hwf
  obtain ⟨_, a2, a3, ⟨blk, hblk, a4⟩, _, a6, _⟩ := begin_frontend_if_effect s hcur cond
  -- the state after `begin_frontend_if; begin_frontend_if_true`
  have hwf1 : (begin_frontend_if cond s).2.WF := step_WF ext (.begin_frontend_if cond) s hwf
  have hwf2 : (begin_frontend_if_true (begin_frontend_if cond s).2).2.WF :=
    step_WF ext .begin_frontend_if_true _ hwf1
  have hnode : (begin_frontend_if cond s).2.builder.stmts[s.builder.stmts.length]? =
      some (.FrontendIfStmt cond s.builder.blocks.length (s.builder.blocks.length + 1)) := by
    rw [a3]
    simp
  have hlen1 : (begin_frontend_if cond s).2.builder.blocks.length =
      s.builder.blocks.length + 2 := insert_new_blocks_length s 2 _
  have hslen1 : (begin_frontend_if cond s).2.builder.stmts.length =
      s.builder.stmts.length + 1 := by
    rw [a3]
    simp
  have hst2 : (begin_frontend_if_true (begin_frontend_if cond s).2).2.scope_stack =
      s.scope_stack ++ [{ list := s.builder.blocks.length }] := by
    rw [a6, push_back_scope_stack, a2]
  have hbld2 : (begin_frontend_if_true (begin_frontend_if cond s).2).2.builder =
      (begin_frontend_if cond s).2.builder := by
    rw [a6]
    rfl
  -- the true branch
  obtain ⟨w3, st3, bl3, sm3⟩ := run_balanced_frame ext s.current_block B1 0 _ s3 s.scope_stack []
    { list := s.builder.blocks.length } hwf2 hst2 rfl
    (by
      intro g hg
      rw [List.mem_singleton.mp hg]
      exact hcur)
    (by rw [hbld2, hlen1]; exact Nat.lt_of_lt_of_le hcur (Nat.le_add_right _ _))
    hB1 h1
  rw [hbld2] at bl3 sm3
  have hne3 : s3.scope_stack ≠ [] := by rw [st3]; simp
  have hpop3 : pop_scope s3 = (.ok (), { s3 with scope_stack := s3.scope_stack.dropLast }) :=
    pop_back_nonempty s3 hne3
  have hst4 : (pop_scope s3).2.scope_stack = s.scope_stack := by
    rw [hpop3]
    simp [st3]
  have hbld4 : (pop_scope s3).2.builder = s3.builder := by rw [hpop3]
  have hcur4 : (pop_scope s3).2.current_block = s.current_block := by
    unfold State.current_block
    rw [hst4]
  have hblk4 : (pop_scope s3).2.builder.blocks[(pop_scope s3).2.current_block]? =
      some { blk with statements := blk.statements ++ [s.builder.stmts.length] } := by
    rw [hcur4, hbld4, bl3]
    exact a4
  have hnode4 : (pop_scope s3).2.builder.stmts[s.builder.stmts.length]? =
      some (.FrontendIfStmt cond s.builder.blocks.length (s.builder.blocks.length + 1)) := by
    rw [hbld4, sm3 _ (by rw [hslen1]; exact Nat.lt_succ_self _)]
    exact hnode
  have hlast4 := last_if_stmt_of (pop_scope s3).2 _ s.builder.stmts.length cond _ _ hblk4
    (by simp) hnode4
  have hfalse : begin_frontend_if_false (pop_scope s3).2 =
      (.ok (), (pop_scope s3).2.push_back { list := s.builder.blocks.length + 1 }) := by
    unfold begin_frontend_if_false
    rw [hlast4]
    rfl
  have hwf4 : (pop_scope s3).2.WF := pop_back_WF s3 w3
  have hwf5 : (begin_frontend_if_false (pop_scope s3).2).2.WF :=
    step_WF ext .begin_frontend_if_false _ hwf4
  have hst5 : (begin_frontend_if_false (pop_scope s3).2).2.scope_stack =
      s.scope_stack ++ [{ list := s.builder.blocks.length + 1 }] := by
    rw [hfalse, push_back_scope_stack, hst4]
  -- the false branch
  obtain ⟨w6, st6, _, _⟩ := run_balanced_frame ext s.current_block B2 0 _ s6 s.scope_stack []
    { list := s.builder.blocks.length + 1 } hwf5 hst5 rfl
    (by
      intro g hg
      rw [List.mem_singleton.mp hg]
      exact Nat.lt_succ_of_lt hcur)
    (by
      rw [hfalse, push_back_builder, hbld4]
      exact (List.getElem?_eq_some_iff.mp (bl3.trans a4)).1)
    hB2 h2
  have hne6 : s6.scope_stack ≠ [] := by rw [st6]; simp
  have hpop6 : pop_scope s6 = (.ok (), { s6 with scope_stack := s6.scope_stack.dropLast }) :=
    pop_back_nonempty s6 hne6
  refine ⟨hnode, by rw [a6], hst2, by rw [hpop3], hst4, ?_, hnode4, by rw [hfalse], hst5,
    by rw [hpop6], ?_⟩
  · exact get_last_stmt_of _ _ _ hblk4 (by simp)
  · rw [hpop6]
    simp [st6]

/-- Witness of C5 at the start of a trace: `if d: break; while c: pass` with
the false branch `continue`. -/
theorem if_scope_lifetimes_witness :
    balanced sample_true_branch = true ∧ balanced sample_false_branch = true ∧
      run sample_externals sample_true_branch
        (begin_frontend_if_true (begin_frontend_if (sample_expr "d") (State.init 0)).2).2 =
          some sample_if_true_done_state ∧
      run sample_externals sample_false_branch
        (begin_frontend_if_false (pop_scope sample_if_true_done_state).2).2 =
          some sample_if_false_done_state ∧
      (begin_frontend_if_true
        (begin_frontend_if (sample_expr "d") (State.init 0)).2).2.scope_stack = [⟨1⟩] ∧
      (begin_frontend_if_false (pop_scope sample_if_true_done_state).2).2.scope_stack = [⟨2⟩] ∧
      (pop_scope sample_if_false_done_state).2.scope_stack = [] :=
  ⟨rfl, rfl, rfl, rfl,
    (if_scope_lifetimes sample_externals (State.init 0) (Reachable.init 0) (sample_expr "d")
      sample_true_branch sample_false_branch rfl rfl sample_if_true_done_state
      sample_if_false_done_state rfl rfl).2.2.1,
    (if_scope_lifetimes sample_externals (State.init 0) (Reachable.init 0) (sample_expr "d")
      sample_true_branch sample_false_branch rfl rfl sample_if_true_done_state
      sample_if_false_done_state rfl rfl).2.2.2.2.2.2.2.2.1,
    (if_scope_lifetimes sample_externals (State.init 0) (Reachable.init 0) (sample_expr "d")
      sample_true_branch sample_false_branch rfl rfl sample_if_true_done_state
      sample_if_false_done_state rfl rfl).2.2.2.2.2.2.2.2.2.2⟩

/-! ## Operator expressions -/

theorem mem_exported_values (name : Nat → String) (undefined t : Nat) :
    t ∈ ((List.range (undefined + 1)).map (fun t => (name t, t))).map Prod.snd ↔
      t ≤ undefined := by
  simp [List.mem_map, List.mem_range, Nat.lt_succ_iff]

/-- C14, as stated, fails: it is not the case that every operator value of the
exported `BinaryOpType` enumeration gives, through `make_binary_op_expr`, an
expression whose operator differs from the `undefined` sentinel; the sentinel
itself is exported and is built as given. -/
theorem undefined_operator_is_constructible :
    ¬ ∀ (name : BinaryOpType → String) (undefined t : BinaryOpType) (lhs rhs : Expr),
      t ∈ (exported_BinaryOpType name undefined).map Prod.snd →
        (make_binary_op_expr t lhs rhs).binary_op_type ≠ some undefined := by
  intro h
  have hmem : (23 : Nat) ∈ (exported_BinaryOpType (fun _ => "") 23).map Prod.snd :=
    (mem_exported_values _ 23 23).mpr (Nat.le_refl _)
  exact h (fun _ => "") 23 23 (sample_expr "a") (sample_expr "b") hmem rfl

/-- C14 (amended): the exported `BinaryOpType` and `UnaryOpType` enumerations
hold exactly the operator values from `0` up to and including the `undefined`
sentinel, and `make_binary_op_expr` / `make_unary_op_expr` build an expression
that carries exactly the operator given: its operator is the sentinel exactly
when the sentinel was passed, and differs from it for every other exported
value. -/
theorem operator_expr_keeps_operator (binary_name : BinaryOpType → String)
    (unary_name : UnaryOpType → String) (binary_undefined : BinaryOpType)
    (unary_undefined : UnaryOpType) (t : Nat) (lhs rhs operand : Expr) :
    (t ∈ (exported_BinaryOpType binary_name binary_undefined).map Prod.snd ↔
        t ≤ binary_undefined) ∧
      (t ∈ (exported_UnaryOpType unary_name unary_undefined).map Prod.snd ↔
        t ≤ unary_undefined) ∧
      make_binary_op_expr t lhs rhs = .BinaryOpExpression t lhs rhs ∧
      make_unary_op_expr t operand = .UnaryOpExpression t operand ∧
      ((make_binary_op_expr t lhs rhs).binary_op_type = some binary_undefined ↔
        t = binary_undefined) ∧
      ((make_unary_op_expr t operand).unary_op_type = some unary_undefined ↔
        t = unary_undefined) := by
  refine ⟨mem_exported_values _ _ _, mem_exported_values _ _ _, rfl, rfl, ?_, ?_⟩
  · simp [make_binary_op_expr, Expr.binary_op_type]
  · simp [make_unary_op_expr, Expr.unary_op_type]

/-- C15: each of the seven atomic builders builds an atomic-op expression with
its own operation tag (add, sub, min, max, bit_and, bit_or, bit_xor in the
order of the builders, seven pairwise distinct tags), the first argument `a` as
destination and the second argument `b` as value. -/
theorem atomic_builders_tags (a b : Expr) :
    (expr_atomic_add a b).atomic_op = some (.add, a, b) ∧
      (expr_atomic_sub a b).atomic_op = some (.sub, a, b) ∧
      (expr_atomic_min a b).atomic_op = some (.min, a, b) ∧
      (expr_atomic_max a b).atomic_op = some (.max, a, b) ∧
      (expr_atomic_bit_and a b).atomic_op = some (.bit_and, a, b) ∧
      (expr_atomic_bit_or a b).atomic_op = some (.bit_or, a, b) ∧
      (expr_atomic_bit_xor a b).atomic_op = some (.bit_xor, a, b) ∧
      atomic_builders.map (fun build => (build a b).atomic_op_type) =
        [some .add, some .sub, some .min, some .max, some .bit_and, some .bit_or,
          some .bit_xor] ∧
      (atomic_builders.map (fun build => (build a b).atomic_op_type)).Nodup := by
  refine ⟨rfl, rfl, rfl, rfl, rfl, rfl, rfl, rfl, ?_⟩
  have : atomic_builders.map (fun build => (build a b).atomic_op_type) =
      [some .add, some .sub, some .min, some .max, some .bit_and, some .bit_or,
        some .bit_xor] := rfl
  rw [this]
  decide

/-! ## Backend preconditions -/

theorem insert_thread_idx_expr_locals_status (ext : Externals) (s : State) :
    (insert_thread_idx_expr_locals ext s).1 = (insert_thread_idx_expr ext s).1 := by
  unfold insert_thread_idx_expr_locals insert_thread_idx_expr
  simp only []
  split
  · rfl
  · split
    · split <;> rfl
    · rfl

/-- C11, as stated, fails: inside two nested for-loops on an unsupported
architecture `insert_thread_idx_expr` raises the architecture error with the
local `loop` already loaded from the scope stack (the parent statement of the
top scope, where the empty stack gives null): the stack has been inspected
before the check. -/
theorem thread_idx_reads_stack_before_arch_check :
    (insert_thread_idx_expr sample_externals { sample_range_in_mesh_state with arch := 7 }).1 =
        .error "ti.thread_idx() is only available in cuda or cpu context." ∧
      (insert_thread_idx_expr_locals sample_externals
        { sample_range_in_mesh_state with arch := 7 }).2.loop = some 1 ∧
      (insert_thread_idx_expr_locals sample_externals
        { sample_range_in_mesh_state with arch := 7, scope_stack := [] }).2.loop = none :=
  ⟨rfl, rfl, rfl⟩

/-- C11 (amended): `create_sparse_matrix` and `create_sparse_matrix_builder`
raise their error exactly when the architecture is not a CPU architecture, and
then return no matrix or builder and change nothing; on a CPU architecture they
return the object made from their arguments.  `insert_thread_idx_expr` on an
architecture that is neither cuda nor CPU raises the architecture error
whatever the scope stack is and changes nothing; when it raises, it has read
the size of the scope stack and the parent statement of its top scope into
`loop`, and has not started the walk. -/
theorem backend_preconditions (ext : Externals) (s : State) (n m : Int)
    (max_num_entries : Nat) :
    create_sparse_matrix ext n m s =
        (if ext.arch_is_cpu s.arch = true then (.ok { n := n, m := m }, s)
          else (.error "SparseMatrix only supports CPU for now.", s)) ∧
      create_sparse_matrix_builder ext n m max_num_entries s =
        (if ext.arch_is_cpu s.arch = true then
            (.ok { n := n, m := m, max_num_entries := max_num_entries }, s)
          else (.error "SparseMatrix only supports CPU for now.", s)) ∧
      ((create_sparse_matrix ext n m s).1.isError = true ↔ ext.arch_is_cpu s.arch = false) ∧
      ((create_sparse_matrix_builder ext n m max_num_entries s).1.isError = true ↔
        ext.arch_is_cpu s.arch = false) ∧
      (if s.arch ≠ ext.cuda ∧ ext.arch_is_cpu s.arch = false then
          insert_thread_idx_expr ext s =
              (.error "ti.thread_idx() is only available in cuda or cpu context.", s) ∧
            insert_thread_idx_expr_locals ext s =
              (.error "ti.thread_idx() is only available in cuda or cpu context.",
                { arch := s.arch, loop := s.innermost_parent })
        else (insert_thread_idx_expr_locals ext s).2.loop = s.walk_from s.innermost_parent) := by
  refine ⟨?_, ?_, ?_, ?_, ?_⟩
  · unfold create_sparse_matrix
    cases h : ext.arch_is_cpu s.arch <;> simp
  · unfold create_sparse_matrix_builder
    cases h : ext.arch_is_cpu s.arch <;> simp
  · unfold create_sparse_matrix
    cases h : ext.arch_is_cpu s.arch <;> simp [Status.isError]
  · unfold create_sparse_matrix_builder
    cases h : ext.arch_is_cpu s.arch <;> simp [Status.isError]
  · by_cases ha : s.arch ≠ ext.cuda ∧ ext.arch_is_cpu s.arch = false
    · rw [if_pos ha]
      unfold insert_thread_idx_expr insert_thread_idx_expr_locals
      simp only []
      rw [if_pos ha, if_pos ha]
      exact ⟨rfl, rfl⟩
    · rw [if_neg ha]
      unfold insert_thread_idx_expr_locals
      simp only []
      rw [if_neg ha]
      split
      · split <;> simp_all
      · simp_all

/-! ## `Expr` handles and global-variable nodes -/

theorem cast_GlobalVariableExpression_some (mem : ExprMemory) (expr : ExprAddr)
    (p : ExpressionPtr) (h : mem.cast_GlobalVariableExpression expr = some p) :
    mem.exprs[expr]? = some p ∧ ∃ name snode is_primal,
      mem.nodes[p]? = some (.GlobalVariableExpression name snode is_primal) := by
  unfold ExprMemory.cast_GlobalVariableExpression at h
  split at h
  · rename_i q hq
    split at h
    · rename_i name snode is_primal hn
      cases h
      exact ⟨hq, name, snode, is_primal, hn⟩
    · cases h
  · cases h

theorem cast_GlobalVariableExpression_of (mem : ExprMemory) (expr : ExprAddr)
    (p : ExpressionPtr) (name : String) (snode : Option SNodePtr) (is_primal : Bool)
    (he : mem.exprs[expr]? = some p)
    (hn : mem.nodes[p]? = some (.GlobalVariableExpression name snode is_primal)) :
    mem.cast_GlobalVariableExpression expr = some p := by
  unfold ExprMemory.cast_GlobalVariableExpression
  simp only [he, hn]

theorem is_global_var_false (mem : ExprMemory) (expr : ExprAddr)
    (h : mem.is_global_var expr = false) : mem.cast_GlobalVariableExpression expr = none := by
  unfold ExprMemory.is_global_var at h
  cases hc : mem.cast_GlobalVariableExpression expr with
  | none => rfl
  | some p => rw [hc] at h; cases h

/-- C12: `set_global_grad(expr)` fails its assertion exactly when `expr` is not
a global-variable expression, and then changes nothing; when the node of
`expr` is a global-variable node it returns, and the memory differs only in
that node, which keeps its name and its snode and has `is_primal` false. -/
theorem set_global_grad_effect (mem : ExprMemory) (expr : ExprAddr) :
    ((mem.set_global_grad expr).1 = .assertion_failure "expr.is<GlobalVariableExpression>()" ↔
        mem.is_global_var expr = false) ∧
      ((mem.set_global_grad expr).1 = .ok () ↔ mem.is_global_var expr = true) ∧
      (mem.is_global_var expr = false → (mem.set_global_grad expr).2 = mem) ∧
      (∀ (p : ExpressionPtr) (name : String) (snode : Option SNodePtr) (is_primal : Bool),
        mem.exprs[expr]? = some p →
        mem.nodes[p]? = some (.GlobalVariableExpression name snode is_primal) →
          mem.set_global_grad expr = (.ok (), { mem with
            nodes := mem.nodes.set p (.GlobalVariableExpression name snode false) }) ∧
          (mem.set_global_grad expr).2.nodes[p]? =
            some (.GlobalVariableExpression name snode false) ∧
          ∀ q : ExpressionPtr, q ≠ p →
            (mem.set_global_grad expr).2.nodes[q]? = mem.nodes[q]?) := by
  have hfalse : mem.is_global_var expr = false →
      mem.set_global_grad expr =
        (.assertion_failure "expr.is<GlobalVariableExpression>()", mem) := by
    intro h
    unfold ExprMemory.set_global_grad
    rw [if_pos h]
  have hgv : ∀ (p : ExpressionPtr) (name : String) (snode : Option SNodePtr)
      (is_primal : Bool), mem.exprs[expr]? = some p →
      mem.nodes[p]? = some (.GlobalVariableExpression name snode is_primal) →
      mem.set_global_grad expr = (.ok (), { mem with
        nodes := mem.nodes.set p (.GlobalVariableExpression name snode false) }) := by
    intro p name snode is_primal he hn
    have hc := cast_GlobalVariableExpression_of mem expr p name snode is_primal he hn
    unfold ExprMemory.set_global_grad
    have hi : mem.is_global_var expr = true := by
      unfold ExprMemory.is_global_var
      rw [hc]
      rfl
    rw [if_neg (by rw [hi]; exact Bool.noConfusion), hc]
    simp only [ExprMemory.write_is_primal, hn]
  have htrue : mem.is_global_var expr = true → (mem.set_global_grad expr).1 = .ok () := by
    intro h
    unfold ExprMemory.is_global_var at h
    obtain ⟨p, hp⟩ := Option.isSome_iff_exists.mp h
    obtain ⟨he, name, snode, is_primal, hn⟩ := cast_GlobalVariableExpression_some mem expr p hp
    rw [hgv p name snode is_primal he hn]
  refine ⟨⟨?_, fun h => by rw [hfalse h]⟩, ⟨?_, htrue⟩, fun h => by rw [hfalse h], ?_⟩
  · intro h
    cases hi : mem.is_global_var expr with
    | false => rfl
    | true =>
      rw [htrue hi] at h
      cases h
  · intro h
    cases hi : mem.is_global_var expr with
    | true => rfl
    | false =>
      rw [hfalse hi] at h
      cases h
  · intro p name snode is_primal he hn
    have hlt : p < mem.nodes.length := (List.getElem?_eq_some_iff.mp hn).1
    refine ⟨hgv p name snode is_primal he hn, ?_, ?_⟩
    · rw [hgv p name snode is_primal he hn]
      simp only []
      exact List.getElem?_set_self hlt
    · intro q hq
      rw [hgv p name snode is_primal he hn]
      simp only []
      exact List.getElem?_set_ne (Ne.symm hq)

/-- Witness of C12: on the handle of the identifier the assertion fails and the
memory is as before; on a handle of the global variable `x` the node keeps
its name and snode and loses `is_primal`. -/
theorem set_global_grad_effect_witness :
    sample_memory.is_global_var 1 = false ∧
      (sample_memory.set_global_grad 1).2 = sample_memory ∧
      sample_memory.set_global_grad 2 = (.ok (), { sample_memory with
        nodes := sample_memory.nodes.set 0 (.GlobalVariableExpression "x" (some 7) false) }) :=
  ⟨rfl, (set_global_grad_effect sample_memory 1).2.2.1 rfl,
    ((set_global_grad_effect sample_memory 2).2.2.2 0 "x" (some 7) true rfl rfl).1⟩

/-- C13 at a failing input: on the handle of an identifier node none of the
four accessors fails an assertion; each goes through the null result of the
cast, where C++ defines no behaviour. -/
theorem accessors_on_identifier_node :
    sample_memory.is_global_var 1 = false ∧
      sample_memory.is_primal 1 =
        (.undefined_behavior "member access through a null pointer", sample_memory) ∧
      sample_memory.set_is_primal 1 false =
        (.undefined_behavior "member access through a null pointer", sample_memory) ∧
      sample_memory.set_name 1 "y" =
        (.undefined_behavior "member access through a null pointer", sample_memory) ∧
      sample_memory.get_expr_name 1 =
        (.undefined_behavior "member access through a null pointer", sample_memory) ∧
      (sample_memory.is_primal 1).1.isError = false ∧
      (sample_memory.set_global_grad 1).1 =
        .assertion_failure "expr.is<GlobalVariableExpression>()" :=
  ⟨rfl, rfl, rfl, rfl, rfl, rfl, rfl⟩

/-- C17: two `Expr` handles with the same raw address have the same underlying
node address; the converse fails: the copy of an `Expr` is another object, at
another raw address, whose underlying node address is that of the original. -/
theorem raw_address_underlying (mem : ExprMemory) (e1 e2 : ExprAddr) (p : ExpressionPtr)
    (h : get_raw_address e1 = get_raw_address e2)
    (hp : mem.get_underlying_ptr_address e1 = some p) :
    mem.get_underlying_ptr_address e1 = mem.get_underlying_ptr_address e2 ∧
      ∃ (c : ExprAddr) (mem1 : ExprMemory), mem.copy e1 = some (c, mem1) ∧
        get_raw_address c ≠ get_raw_address e1 ∧
        mem1.get_underlying_ptr_address c = mem1.get_underlying_ptr_address e1 ∧
        mem1.get_underlying_ptr_address e1 = mem.get_underlying_ptr_address e1 ∧
        mem1.nodes = mem.nodes := by
  unfold get_raw_address at h
  subst h
  unfold ExprMemory.get_underlying_ptr_address at hp
  have hlt : e1 < mem.exprs.length := (List.getElem?_eq_some_iff.mp hp).1
  refine ⟨rfl, mem.exprs.length, { mem with exprs := mem.exprs ++ [p] }, ?_, ?_, ?_, ?_, rfl⟩
  · unfold ExprMemory.copy
    rw [hp]
  · unfold get_raw_address
    exact Nat.ne_of_gt hlt
  · unfold ExprMemory.get_underlying_ptr_address
    simp only []
    rw [List.getElem?_append_left hlt, hp]
    simp
  · unfold ExprMemory.get_underlying_ptr_address
    simp only []
    rw [List.getElem?_append_left hlt]

/-- Witness of C17 on the first `Expr` object of the sample memory. -/
theorem raw_address_underlying_witness :
    get_raw_address 0 = get_raw_address 0 ∧
      sample_memory.get_underlying_ptr_address 0 = some 0 ∧
      sample_memory.get_underlying_ptr_address 2 = sample_memory.get_underlying_ptr_address 0 ∧
      get_raw_address 2 ≠ get_raw_address 0 ∧
      ∃ (c : ExprAddr) (mem1 : ExprMemory), sample_memory.copy 0 = some (c, mem1) ∧
        get_raw_address c ≠ get_raw_address 0 ∧
        mem1.get_underlying_ptr_address c = mem1.get_underlying_ptr_address 0 ∧
        mem1.get_underlying_ptr_address 0 = sample_memory.get_underlying_ptr_address 0 ∧
        mem1.nodes = sample_memory.nodes :=
  ⟨rfl, rfl, rfl, by decide, (raw_address_underlying sample_memory 0 0 0 rfl rfl).2⟩

/-! ## Pickling of primitive types -/

/-- C16 (pickle round trip): for every `DataType` that wraps a primitive type
the get-state function returns the one-element tuple of the type's primitive
id, and the set-state function applied to that tuple returns a `DataType` equal
to the one pickled. -/
theorem pickle_round_trip (values : PrimitiveTypeValues) (dt : DataType)
    (type : PrimitiveTypeID) (h : dt.primitive_type = some type) :
    dt.getstate values = .ok [.integer (values.to_size_t type)] ∧
      DataType.setstate values [.integer (values.to_size_t type)] = .ok dt := by
  constructor
  · unfold DataType.getstate
    rw [h]
  · unfold DataType.setstate
    simp only [List.length_singleton, ne_eq, not_true_eq_false, if_false]
    have : [PyObject.integer (values.to_size_t type)][0]? =
        some (PyObject.integer (values.to_size_t type)) := rfl
    rw [this]
    simp only [PyObject.cast_size_t, PrimitiveType_get_of_size_t,
      PrimitiveTypeValues.is_enumerator, values.of_to, decide_True, if_true]
    cases dt with
    | unknown =>
      cases h
      rfl
    | primitive id =>
      cases h
      rfl
    | custom id => cases h
    | tensor shape element => cases h

/-- Witness of C16 on the primitive type of id 3 and on the `unknown`
primitive. -/
theorem pickle_round_trip_witness :
    (DataType.primitive 3).primitive_type = some (.known 3) ∧
      (DataType.primitive 3).getstate sample_primitive_values = .ok [.integer 4] ∧
      DataType.setstate sample_primitive_values [.integer 4] = .ok (.primitive 3) ∧
      DataType.setstate sample_primitive_values [.integer 0] = .ok .unknown :=
  ⟨rfl, (pickle_round_trip sample_primitive_values (.primitive 3) (.known 3) rfl).1,
    (pickle_round_trip sample_primitive_values (.primitive 3) (.known 3) rfl).2,
    (pickle_round_trip sample_primitive_values .unknown .unknown rfl).2⟩

/-! ## Maps of the mesh -/

theorem StdMap.find_eq_none_iff {K V : Type} [DecidableEq K] (m : StdMap K V) (k : K) :
    m.find k = none ↔ m.count k = 0 := by
  unfold StdMap.find StdMap.count
  rw [List.length_eq_zero, List.filter_eq_nil_iff]
  constructor
  · intro h
    split at h
    · cases h
    · rename_i hnone
      exact List.find?_eq_none.mp hnone
  · intro h
    have : m.entries.find? (fun e => decide (e.1 = k)) = none := List.find?_eq_none.mpr h
    rw [this]

theorem StdMap.insert_of_absent {K V : Type} [DecidableEq K] (m : StdMap K V) (k : K) (v : V)
    (h : m.find k = none) : m.insert k v = { entries := m.entries ++ [(k, v)] } := by
  unfold StdMap.insert
  rw [if_pos ((StdMap.find_eq_none_iff m k).mp h)]

theorem StdMap.insert_of_present {K V : Type} [DecidableEq K] (m : StdMap K V) (k : K) (v : V)
    (h : m.find k ≠ none) : m.insert k v = m := by
  unfold StdMap.insert
  rw [if_neg (fun hc => h ((StdMap.find_eq_none_iff m k).mpr hc))]

theorem StdMap.find_insert_self {K V : Type} [DecidableEq K] (m : StdMap K V) (k : K) (v : V)
    (h : m.find k = none) : (m.insert k v).find k = some v := by
  rw [StdMap.insert_of_absent m k v h]
  have hnone : m.entries.find? (fun e => decide (e.1 = k)) = none := by
    unfold StdMap.find at h
    split at h
    · cases h
    · assumption
  unfold StdMap.find
  simp only [List.find?_append, hnone]
  simp

theorem StdMap.count_insert_self {K V : Type} [DecidableEq K] (m : StdMap K V) (k : K) (v : V)
    (h : m.find k = none) : (m.insert k v).count k = 1 := by
  rw [StdMap.insert_of_absent m k v h]
  have h0 := (StdMap.find_eq_none_iff m k).mp h
  unfold StdMap.count at h0 ⊢
  simp only [List.filter_append, List.length_append, h0]
  simp

theorem StdMap.find_insert_ne {K V : Type} [DecidableEq K] (m : StdMap K V) (k k1 : K) (v : V)
    (hne : k1 ≠ k) : (m.insert k v).find k1 = m.find k1 := by
  unfold StdMap.insert
  split
  · unfold StdMap.find
    simp only [List.find?_append]
    have : [(k, v)].find? (fun e => decide (e.1 = k1)) = none := by
      simp [List.find?_cons, Ne.symm hne]
    rw [this]
    simp
  · rfl

theorem StdMap.count_insert_ne {K V : Type} [DecidableEq K] (m : StdMap K V) (k k1 : K) (v : V)
    (hne : k1 ≠ k) : (m.insert k v).count k1 = m.count k1 := by
  unfold StdMap.insert
  split
  · unfold StdMap.count
    simp only [List.filter_append, List.length_append]
    have : [(k, v)].filter (fun e => decide (e.1 = k1)) = [] := by
      simp [List.filter_cons, Ne.symm hne]
    rw [this]
    simp
  · rfl

/-- C18: on a mesh with no entry for the relation type `R`,
`set_relation_fixed` records for `R` a fixed relation backed by the field
`value` with no offsets field, and `set_relation_dynamic` a dynamic relation
backed by the values field and the offsets field; after either call the
relation map holds exactly one entry for `R`, the entry of every other relation
type is as before, and no other part of the mesh has changed. -/
theorem set_relation_records (mesh : Mesh) (R : MeshRelationType) (value offset : SNodePtr)
    (h : mesh.relations.find R = none) :
    ((set_relation_fixed mesh R value).relations.find R =
          some { fixed := true, value := value, offset := none } ∧
        (set_relation_fixed mesh R value).relations.count R = 1 ∧
        (∀ R1 : MeshRelationType, R1 ≠ R →
          (set_relation_fixed mesh R value).relations.find R1 = mesh.relations.find R1 ∧
          (set_relation_fixed mesh R value).relations.count R1 = mesh.relations.count R1) ∧
        set_relation_fixed mesh R value =
          { mesh with relations := (set_relation_fixed mesh R value).relations }) ∧
      ((set_relation_dynamic mesh R value offset).relations.find R =
          some { fixed := false, value := value, offset := some offset } ∧
        (set_relation_dynamic mesh R value offset).relations.count R = 1 ∧
        (∀ R1 : MeshRelationType, R1 ≠ R →
          (set_relation_dynamic mesh R value offset).relations.find R1 =
            mesh.relations.find R1 ∧
          (set_relation_dynamic mesh R value offset).relations.count R1 =
            mesh.relations.count R1) ∧
        set_relation_dynamic mesh R value offset =
          { mesh with relations := (set_relation_dynamic mesh R value offset).relations }) :=
  ⟨⟨StdMap.find_insert_self _ R _ h, StdMap.count_insert_self _ R _ h,
      fun R1 hne => ⟨StdMap.find_insert_ne _ R R1 _ hne, StdMap.count_insert_ne _ R R1 _ hne⟩,
      rfl⟩,
    ⟨StdMap.find_insert_self _ R _ h, StdMap.count_insert_self _ R _ h,
      fun R1 hne => ⟨StdMap.find_insert_ne _ R R1 _ hne, StdMap.count_insert_ne _ R R1 _ hne⟩,
      rfl⟩⟩

/-- Witness of C18: the face-to-vertex relation on the sample mesh, which has
an entry for the edge-to-vertex relation only. -/
theorem set_relation_records_witness :
    sample_mesh.relations.find .FV = none ∧
      (set_relation_dynamic sample_mesh .FV 6 9).relations.find .FV =
        some { fixed := false, value := 6, offset := some 9 } ∧
      (set_relation_dynamic sample_mesh .FV 6 9).relations.count .FV = 1 ∧
      (set_relation_fixed sample_mesh .FV 6).relations.find .FV =
        some { fixed := true, value := 6, offset := none } :=
  ⟨rfl, (set_relation_records sample_mesh .FV 6 9 rfl).2.1,
    (set_relation_records sample_mesh .FV 6 9 rfl).2.2.1,
    (set_relation_records sample_mesh .FV 6 9 rfl).1.1⟩

/-- C19: on a mesh with no count recorded for the element type `t`, after
`set_num_elements(mesh, t, n)` the call `get_num_elements(mesh, t)` returns
`n` and the call for every other element type gives what it gave before;
before the call `get_num_elements(mesh, t)` has no defined result: it returns
for the element types in the map only. -/
theorem num_elements_set_get (mesh : Mesh) (t : MeshElementType) (n : Int)
    (h : mesh.num_elements.find t = none) :
    get_num_elements (set_num_elements mesh t n) t = .ok n ∧
      (∀ t1 : MeshElementType, t1 ≠ t →
        get_num_elements (set_num_elements mesh t n) t1 = get_num_elements mesh t1) ∧
      get_num_elements mesh t = .undefined_behavior "dereference of the end iterator" ∧
      (∀ (m : Mesh) (t1 : MeshElementType),
        (get_num_elements m t1).isOk = (m.num_elements.find t1).isSome) := by
  refine ⟨?_, ?_, ?_, ?_⟩
  · unfold get_num_elements set_num_elements
    simp only []
    rw [StdMap.find_insert_self _ t n h]
  · intro t1 hne
    unfold get_num_elements set_num_elements
    simp only []
    rw [StdMap.find_insert_ne _ t t1 n hne]
  · unfold get_num_elements
    rw [h]
  · intro m t1
    unfold get_num_elements
    cases m.num_elements.find t1 <;> rfl

/-- Witness of C19: the count of faces on the sample mesh, which has counts for
vertices and edges. -/
theorem num_elements_set_get_witness :
    sample_mesh.num_elements.find .Face = none ∧
      get_num_elements (set_num_elements sample_mesh .Face 6) .Face = .ok 6 ∧
      get_num_elements (set_num_elements sample_mesh .Face 6) .Vertex = .ok 8 ∧
      get_num_elements sample_mesh .Face =
        .undefined_behavior "dereference of the end iterator" :=
  ⟨rfl, (num_elements_set_get sample_mesh .Face 6 rfl).1, rfl,
    (num_elements_set_get sample_mesh .Face 6 rfl).2.2.1⟩

/-! ## Index tuples of a local tensor -/

theorem reversed_indices_of_nonzero (L : List Int) (li : Int) (h : ∀ e ∈ L, e ≠ 0) :
    reversed_indices L li = some ((reversed_index_values L li).map .ConstExpression_int32) := by
  induction L generalizing li with
  | nil => rfl
  | cons e L ih =>
    have he : e ≠ 0 := h e (List.mem_cons_self _ _)
    unfold reversed_indices reversed_index_values
    rw [if_neg he, ih _ (fun x hx => h x (List.mem_cons_of_mem _ hx))]
    rfl

theorem reversed_indices_of_zero (L : List Int) (li : Int) (h : (0 : Int) ∈ L) :
    reversed_indices L li = none := by
  induction L generalizing li with
  | nil => cases h
  | cons e L ih =>
    unfold reversed_indices
    by_cases he : e = 0
    · rw [if_pos he]
    · rw [if_neg he]
      have hm : (0 : Int) ∈ L := by
        rcases List.mem_cons.mp h with h0 | h0
        · exact absurd h0.symm he
        · exact h0
      rw [ih _ hm]

theorem local_tensor_indices_of_nonzero (shape : List Int) (li : Int) (h : ∀ e ∈ shape, e ≠ 0) :
    local_tensor_indices shape li =
      some ((local_tensor_index_values shape li).map .ConstExpression_int32) := by
  unfold local_tensor_indices local_tensor_index_values
  rw [reversed_indices_of_nonzero _ _ (fun e he => h e (List.mem_reverse.mp he))]
  simp [List.map_reverse]

theorem local_tensor_indices_of_zero (shape : List Int) (li : Int) (h : (0 : Int) ∈ shape) :
    local_tensor_indices shape li = none := by
  unfold local_tensor_indices
  rw [reversed_indices_of_zero _ _ (List.mem_reverse.mpr h)]

theorem reversed_index_values_length (L : List Int) (li : Int) :
    (reversed_index_values L li).length = L.length := by
  induction L generalizing li with
  | nil => rfl
  | cons e L ih => simp [reversed_index_values, ih]

theorem prod_pos_of_pos (L : List Int) (h : ∀ e ∈ L, 0 < e) : 0 < L.prod := by
  induction L with
  | nil => simp
  | cons e L ih =>
    rw [List.prod_cons]
    exact Int.mul_pos (h e (List.mem_cons_self _ _)) (ih (fun x hx => h x (List.mem_cons_of_mem _ hx)))

/-- Every digit lies in the range of its extent. -/
theorem reversed_index_values_bounds (L : List Int) (li : Int) (h : ∀ e ∈ L, 0 < e)
    (hli : 0 ≤ li) :
    List.Forall₂ (fun x e => 0 ≤ x ∧ x < e) (reversed_index_values L li) L := by
  induction L generalizing li with
  | nil => exact List.Forall₂.nil
  | cons e L ih =>
    have he : 0 < e := h e (List.mem_cons_self _ _)
    unfold reversed_index_values
    rw [Int.tmod_eq_emod hli (Int.le_of_lt he), Int.tdiv_eq_ediv hli (Int.le_of_lt he)]
    exact List.Forall₂.cons
      ⟨Int.emod_nonneg _ (Int.ne_of_gt he), Int.emod_lt_of_pos _ he⟩
      (ih _ (fun x hx => h x (List.mem_cons_of_mem _ hx)) (Int.ediv_nonneg hli (Int.le_of_lt he)))

/-- Below the product of the extents the digits give the number back. -/
theorem reversed_index_number_values (L : List Int) (li : Int) (h : ∀ e ∈ L, 0 < e)
    (hli : 0 ≤ li) (hlt : li < L.prod) :
    reversed_index_number L (reversed_index_values L li) = li := by
  induction L generalizing li with
  | nil =>
    simp at hlt
    simp [reversed_index_number, reversed_index_values]
    omega
  | cons e L ih =>
    have he : 0 < e := h e (List.mem_cons_self _ _)
    unfold reversed_index_values reversed_index_number
    rw [Int.tmod_eq_emod hli (Int.le_of_lt he), Int.tdiv_eq_ediv hli (Int.le_of_lt he)]
    rw [List.prod_cons] at hlt
    have hq : li / e < L.prod := Int.ediv_lt_of_lt_mul he (by rw [Int.mul_comm]; exact hlt)
    rw [ih _ (fun x hx => h x (List.mem_cons_of_mem _ hx))
      (Int.ediv_nonneg hli (Int.le_of_lt he)) hq]
    exact Int.emod_add_ediv li e

theorem emod_mul_ediv (a b c : Int) (hb : 0 < b) (hc : 0 < c) :
    a % (b * c) / b = a / b % c := by
  have h := Int.emod_add_ediv a (b * c)
  have hr0 : 0 ≤ a % (b * c) := Int.emod_nonneg _ (Int.ne_of_gt (Int.mul_pos hb hc))
  have hrlt : a % (b * c) < b * c := Int.emod_lt_of_pos _ (Int.mul_pos hb hc)
  have h1 : a / b = a % (b * c) / b + c * (a / (b * c)) := by
    conv_lhs => rw [← h]
    rw [Int.mul_assoc, Int.add_mul_ediv_left _ _ (Int.ne_of_gt hb)]
  rw [h1, Int.add_mul_emod_self_left]
  have hq0 : 0 ≤ a % (b * c) / b := Int.ediv_nonneg hr0 (Int.le_of_lt hb)
  have hqlt : a % (b * c) / b < c :=
    Int.ediv_lt_of_lt_mul hb (by rw [Int.mul_comm c b]; exact hrlt)
  exact (Int.emod_eq_of_lt hq0 hqlt).symm

/-- The digits of a number are those of its remainder by the product of the
extents. -/
theorem reversed_index_values_emod (L : List Int) (li : Int) (h : ∀ e ∈ L, 0 < e)
    (hli : 0 ≤ li) :
    reversed_index_values L li = reversed_index_values L (li % L.prod) := by
  induction L generalizing li with
  | nil => rfl
  | cons e L ih =>
    have he : 0 < e := h e (List.mem_cons_self _ _)
    have hL : ∀ x ∈ L, 0 < x := fun x hx => h x (List.mem_cons_of_mem _ hx)
    have hP : 0 < L.prod := prod_pos_of_pos L hL
    have hm0 : 0 ≤ li % (e :: L).prod := by
      rw [List.prod_cons]
      exact Int.emod_nonneg _ (Int.ne_of_gt (Int.mul_pos he hP))
    unfold reversed_index_values
    rw [Int.tmod_eq_emod hli (Int.le_of_lt he), Int.tdiv_eq_ediv hli (Int.le_of_lt he),
      Int.tmod_eq_emod hm0 (Int.le_of_lt he), Int.tdiv_eq_ediv hm0 (Int.le_of_lt he)]
    rw [List.prod_cons, Int.emod_emod_of_dvd _ (Dvd.intro _ rfl), emod_mul_ediv _ _ _ he hP]
    rw [ih (li / e) hL (Int.ediv_nonneg hli (Int.le_of_lt he))]

theorem reversed_index_number_append (L ds : List Int) (e d : Int)
    (hlen : ds.length = L.length) :
    reversed_index_number (L ++ [e]) (ds ++ [d]) = reversed_index_number L ds + L.prod * d := by
  induction L generalizing ds with
  | nil =>
    cases ds with
    | nil => simp [reversed_index_number]
    | cons x xs => simp at hlen
  | cons e0 L ih =>
    cases ds with
    | nil => simp at hlen
    | cons x xs =>
      simp only [List.length_cons, Nat.add_right_cancel_iff] at hlen
      simp only [List.cons_append, reversed_index_number, List.prod_cons]
      show x + e0 * reversed_index_number (L ++ [e]) (xs ++ [d]) = _
      rw [ih xs hlen]
      ring

/-- The row-major number of a tuple is its number read from the last axis. -/
theorem row_major_index_eq (shape idx : List Int) (hlen : idx.length = shape.length) :
    row_major_index shape idx = reversed_index_number shape.reverse idx.reverse := by
  induction shape generalizing idx with
  | nil =>
    cases idx with
    | nil => rfl
    | cons x xs => simp at hlen
  | cons e shape ih =>
    cases idx with
    | nil => simp at hlen
    | cons x xs =>
      simp only [List.length_cons, Nat.add_right_cancel_iff] at hlen
      simp only [List.reverse_cons, row_major_index]
      rw [reversed_index_number_append _ _ _ _ (by simp [hlen]), ih xs hlen, List.prod_reverse]
      ring


theorem local_tensor_index_values_number (shape : List Int) (i : Int)
    (hpos : ∀ e ∈ shape, 0 < e) (h0 : 0 ≤ i) (hlt : i < shape.prod) :
    row_major_index shape (local_tensor_index_values shape i) = i := by
  have hrev : ∀ e ∈ shape.reverse, 0 < e := fun e he => hpos e (List.mem_reverse.mp he)
  rw [row_major_index_eq _ _ (by simp [local_tensor_index_values, reversed_index_values_length])]
  unfold local_tensor_index_values
  rw [List.reverse_reverse]
  exact reversed_index_number_values _ _ hrev h0 (by rw [List.prod_reverse]; exact hlt)

theorem local_tensor_index_values_bounds (shape : List Int) (i : Int)
    (hpos : ∀ e ∈ shape, 0 < e) (h0 : 0 ≤ i) :
    List.Forall₂ (fun x e => 0 ≤ x ∧ x < e) (local_tensor_index_values shape i) shape := by
  have hrev : ∀ e ∈ shape.reverse, 0 < e := fun e he => hpos e (List.mem_reverse.mp he)
  have h := reversed_index_values_bounds shape.reverse i hrev h0
  have h2 := List.forall₂_reverse_iff.mpr h
  rw [List.reverse_reverse] at h2
  exact h2

theorem const_int32_map_injective (a b : List Int)
    (h : a.map Expr.ConstExpression_int32 = b.map Expr.ConstExpression_int32) : a = b := by
  induction a generalizing b with
  | nil =>
    cases b with
    | nil => rfl
    | cons y ys => simp at h
  | cons x xs ih =>
    cases b with
    | nil => simp at h
    | cons y ys =>
      simp only [List.map_cons, List.cons.injEq, Expr.ConstExpression_int32.injEq] at h
      rw [h.1, ih ys h.2]

/-- C21: for a shape of positive extents and a position `0 ≤ i < product(shape)`
the index tuple built for `i` exists (no division by zero), has one constant
per axis, each within `0 ≤ idx[d] < shape[d]`, its row-major linearisation is
`i`, and no other position below the product gets the same tuple. -/
theorem local_tensor_index_unravel (shape : List Int) (i : Int)
    (hpos : ∀ e ∈ shape, 0 < e) (h0 : 0 ≤ i) (hlt : i < shape.prod) :
    ∃ idx : List Int,
      local_tensor_indices shape i = some (idx.map .ConstExpression_int32) ∧
      idx.length = shape.length ∧
      List.Forall₂ (fun x e => 0 ≤ x ∧ x < e) idx shape ∧
      row_major_index shape idx = i ∧
      (∀ j : Int, 0 ≤ j → j < shape.prod →
        local_tensor_indices shape j = local_tensor_indices shape i → j = i) := by
  have hne : ∀ e ∈ shape, e ≠ 0 := fun e he => Int.ne_of_gt (hpos e he)
  refine ⟨local_tensor_index_values shape i, local_tensor_indices_of_nonzero _ _ hne, ?_,
    local_tensor_index_values_bounds _ _ hpos h0,
    local_tensor_index_values_number _ _ hpos h0 hlt, ?_⟩
  · simp [local_tensor_index_values, reversed_index_values_length]
  · intro j hj0 hjlt heq
    rw [local_tensor_indices_of_nonzero _ _ hne, local_tensor_indices_of_nonzero _ _ hne] at heq
    have hv := const_int32_map_injective _ _ (Option.some.inj heq)
    rw [← local_tensor_index_values_number shape j hpos hj0 hjlt, hv,
      local_tensor_index_values_number shape i hpos h0 hlt]

theorem local_tensor_index_unravel_witness :
    ∃ idx : List Int,
      local_tensor_indices [2, 3] 4 = some (idx.map .ConstExpression_int32) ∧
      idx.length = [(2 : Int), 3].length ∧
      List.Forall₂ (fun x e => 0 ≤ x ∧ x < e) idx [2, 3] ∧
      row_major_index [2, 3] idx = 4 ∧
      (∀ j : Int, 0 ≤ j → j < [(2 : Int), 3].prod →
        local_tensor_indices [2, 3] j = local_tensor_indices [2, 3] 4 → j = 4) :=
  local_tensor_index_unravel [2, 3] 4 (by decide) (by decide) (by decide)


/-! ## Statements appended to the current block -/

theorem current_block_of_scope_stack_eq (s t : State) (h : t.scope_stack = s.scope_stack) :
    t.current_block = s.current_block := by
  unfold State.current_block
  rw [h]

theorem appends_of_builder_eq (s t : State) (hb : t.builder = s.builder)
    (hs : t.scope_stack = s.scope_stack)
    (hcur : s.current_block < s.builder.blocks.length) :
    appends_to_current_block s t [] := by
  obtain ⟨blk, hblk⟩ : ∃ blk, s.builder.blocks[s.current_block]? = some blk :=
    ⟨_, List.getElem?_eq_getElem hcur⟩
  refine ⟨by simp [hb], hs, by rw [hb], ⟨blk, hblk, ?_⟩, fun b _ => by rw [hb]⟩
  rw [hb, hblk]
  simp

theorem appends_insert_leaf (s t : State) (new : List Stmt) (stmt : Stmt)
    (h : appends_to_current_block s t new) :
    appends_to_current_block s (t.insert_leaf stmt) (new ++ [stmt]) := by
  obtain ⟨hst, hsc, hlen, ⟨blk, hblk, htblk⟩, hne⟩ := h
  have hcur : t.current_block = s.current_block := current_block_of_scope_stack_eq s t hsc
  have hleaf : t.insert_leaf stmt = t.insert_new 0 (fun _ => stmt) := rfl
  rw [hleaf]
  refine ⟨?_, ?_, ?_, ⟨blk, hblk, ?_⟩, ?_⟩
  · rw [insert_new_stmts, hst, List.append_assoc]
  · rw [insert_new_scope_stack, hsc]
  · rw [insert_new_blocks_length, hlen, Nat.add_zero]
  · rw [← hcur] at htblk ⊢
    rw [insert_new_blocks_self t 0 _ _ htblk, hst]
    simp [List.range'_concat, List.length_append]
  · intro b hb
    by_cases hlt : b < t.builder.blocks.length
    · rw [insert_new_blocks_ne t 0 _ b (by rw [hcur]; exact hb) hlt]
      exact hne b hb
    · have h1 : (t.insert_new 0 (fun _ => stmt)).builder.blocks[b]? = none := by
        apply List.getElem?_eq_none
        rw [insert_new_blocks_length]
        simp only [BlockPtr] at *
        omega
      have h2 : s.builder.blocks[b]? = none := by
        apply List.getElem?_eq_none
        simp only [BlockPtr] at *
        omega
      rw [h1, h2]

/-- The statement appended last is the last statement of the current block. -/
theorem appends_get_last_stmt (s t : State) (new : List Stmt) (stmt : Stmt)
    (h : appends_to_current_block s t (new ++ [stmt])) :
    t.get_last_stmt = some (s.builder.stmts.length + new.length) ∧
      t.builder.stmts[s.builder.stmts.length + new.length]? = some stmt := by
  obtain ⟨hst, hsc, _, ⟨blk, _, htblk⟩, _⟩ := h
  have hcur : t.current_block = s.current_block := current_block_of_scope_stack_eq s t hsc
  constructor
  · unfold State.get_last_stmt
    rw [hcur, htblk]
    simp [List.range'_concat, List.length_append]
  · rw [hst, ← List.append_assoc]
    rw [List.getElem?_append_right (by simp)]
    simp

theorem local_tensor_assigns_cons (ext : Externals) (var : Expr) (shape : List Int)
    (ty : DataType) (i : Nat) (e : Expr) (es : List Expr) :
    local_tensor_assigns ext var shape ty i (e :: es) =
      .FrontendAssignStmt
        (.TensorElementExpression var ((local_tensor_indices shape (i : Int)).getD []) shape
          (ext.data_type_size ty)) e "" :: local_tensor_assigns ext var shape ty (i + 1) es := by
  simp [local_tensor_assigns, List.enumFrom_cons]

theorem local_tensor_assigns_length (ext : Externals) (var : Expr) (shape : List Int)
    (ty : DataType) (i : Nat) (es : List Expr) :
    (local_tensor_assigns ext var shape ty i es).length = es.length := by
  simp [local_tensor_assigns]

/-- With no zero extent the loop of lines 874-889 returns, having appended one
assignment per element, in order. -/
theorem alloca_local_tensor_loop_appends (ext : Externals) (var : Expr) (shape : List Int)
    (ty : DataType) (hne : ∀ e ∈ shape, e ≠ 0) (es : List Expr) (i : Nat) (s t : State)
    (new : List Stmt) (h : appends_to_current_block s t new) :
    (alloca_local_tensor_loop ext var shape ty i es t).1 = .ok () ∧
      appends_to_current_block s (alloca_local_tensor_loop ext var shape ty i es t).2
        (new ++ local_tensor_assigns ext var shape ty i es) := by
  induction es generalizing i t new with
  | nil =>
    unfold alloca_local_tensor_loop
    simpa [local_tensor_assigns] using h
  | cons e es ih =>
    have hrev := reversed_indices_of_nonzero shape.reverse (i : Int)
      (fun x hx => hne x (List.mem_reverse.mp hx))
    have hidx : local_tensor_indices shape (i : Int) =
        some ((reversed_index_values shape.reverse (i : Int)).map
          Expr.ConstExpression_int32).reverse := by
      unfold local_tensor_indices
      rw [hrev]
    unfold alloca_local_tensor_loop
    rw [hrev]
    simp only []
    rw [local_tensor_assigns_cons, hidx]
    have h2 := ih (i + 1) _ _ (appends_insert_leaf s t new
      (.FrontendAssignStmt (.TensorElementExpression var
        ((reversed_index_values shape.reverse (i : Int)).map
          Expr.ConstExpression_int32).reverse shape (ext.data_type_size ty)) e "") h)
    simpa [List.append_assoc] using h2

/-- With a zero extent the first element already divides by zero. -/
theorem alloca_local_tensor_loop_zero (ext : Externals) (var : Expr) (shape : List Int)
    (ty : DataType) (h0 : (0 : Int) ∈ shape) (e : Expr) (es : List Expr) (i : Nat) (t : State) :
    alloca_local_tensor_loop ext var shape ty i (e :: es) t =
      (.undefined_behavior "integer division by zero", t) := by
  unfold alloca_local_tensor_loop
  rw [reversed_indices_of_zero _ _ (List.mem_reverse.mpr h0)]


theorem insert_leaf_id_counter (t : State) (stmt : Stmt) :
    (t.insert_leaf stmt).id_counter = t.id_counter := by
  unfold State.insert_leaf State.insert
  simp only []
  split <;> rfl

theorem alloca_local_tensor_loop_id_counter (ext : Externals) (var : Expr) (shape : List Int)
    (ty : DataType) (es : List Expr) (i : Nat) (t : State) :
    (alloca_local_tensor_loop ext var shape ty i es t).2.id_counter = t.id_counter := by
  induction es generalizing i t with
  | nil => rfl
  | cons e es ih =>
    unfold alloca_local_tensor_loop
    cases hrev : reversed_indices shape.reverse (i : Int) with
    | none => rfl
    | some r =>
      simp only []
      rw [ih, insert_leaf_id_counter]

/-- The effect of `expr_alloca_local_tensor` whenever the element loop cannot
divide by zero: the allocation, then one assignment per element. -/
theorem expr_alloca_local_tensor_effect (ext : Externals) (shape : List Int) (ty : DataType)
    (elements : ExprGroup) (s : State)
    (hcur : s.current_block < s.builder.blocks.length)
    (hne : (∀ e ∈ shape, e ≠ 0) ∨ elements.exprs = []) :
    (expr_alloca_local_tensor ext shape ty elements s).1 =
        .ok (.IdExpression s.id_counter "" (.tensor shape ty)) ∧
      appends_to_current_block s (expr_alloca_local_tensor ext shape ty elements s).2
        (.FrontendAllocaStmt s.id_counter (.tensor shape ty) ::
          local_tensor_assigns ext (.IdExpression s.id_counter "" (.tensor shape ty)) shape ty 0
            elements.exprs) ∧
      (expr_alloca_local_tensor ext shape ty elements s).2.id_counter = s.id_counter + 1 := by
  have h0 : appends_to_current_block s s.fresh_id.2 [] :=
    appends_of_builder_eq s _ rfl rfl hcur
  have h1 := appends_insert_leaf s s.fresh_id.2 []
    (.FrontendAllocaStmt s.id_counter (.tensor shape ty)) h0
  have hty : (s.fresh_id.2.insert_leaf
      (.FrontendAllocaStmt s.id_counter (.tensor shape ty))).last_ret_type =
      .tensor shape ty := by
    have h2 := appends_get_last_stmt s _ [] _ h1
    unfold State.last_ret_type
    rw [h2.1]
    simp only []
    rw [h2.2]
  have hloop : (alloca_local_tensor_loop ext (.IdExpression s.id_counter "" (.tensor shape ty))
        shape ty 0 elements.exprs
        (s.fresh_id.2.insert_leaf (.FrontendAllocaStmt s.id_counter (.tensor shape ty)))).1 =
        .ok () ∧
      appends_to_current_block s
        (alloca_local_tensor_loop ext (.IdExpression s.id_counter "" (.tensor shape ty))
          shape ty 0 elements.exprs
          (s.fresh_id.2.insert_leaf (.FrontendAllocaStmt s.id_counter (.tensor shape ty)))).2
        ([] ++ [.FrontendAllocaStmt s.id_counter (.tensor shape ty)] ++
          local_tensor_assigns ext (.IdExpression s.id_counter "" (.tensor shape ty)) shape ty 0
            elements.exprs) := by
    rcases hne with hne | hemp
    · exact alloca_local_tensor_loop_appends ext _ shape ty hne elements.exprs 0 s _ _ h1
    · rw [hemp]
      unfold alloca_local_tensor_loop
      simpa [local_tensor_assigns] using h1
  have hid := alloca_local_tensor_loop_id_counter ext
    (.IdExpression s.id_counter "" (.tensor shape ty)) shape ty elements.exprs 0
    (s.fresh_id.2.insert_leaf (.FrontendAllocaStmt s.id_counter (.tensor shape ty)))
  unfold expr_alloca_local_tensor
  simp only []
  have hfst : s.fresh_id.1 = s.id_counter := rfl
  rw [hfst, hty]
  generalize alloca_local_tensor_loop ext (.IdExpression s.id_counter "" (.tensor shape ty))
        shape ty 0 elements.exprs
        (s.fresh_id.2.insert_leaf (.FrontendAllocaStmt s.id_counter (.tensor shape ty))) = r
    at hloop hid ⊢
  obtain ⟨st, s2⟩ := r
  simp only at hloop hid
  rw [hloop.1]
  refine ⟨rfl, by simpa using hloop.2, ?_⟩
  simp only []
  rw [hid, insert_leaf_id_counter]
  rfl


theorem local_tensor_indices_emod (shape : List Int) (li : Int) (hpos : ∀ e ∈ shape, 0 < e)
    (h0 : 0 ≤ li) :
    local_tensor_indices shape li = local_tensor_indices shape (li % shape.prod) := by
  have hne : ∀ e ∈ shape, e ≠ 0 := fun e he => Int.ne_of_gt (hpos e he)
  have hrev : ∀ e ∈ shape.reverse, 0 < e := fun e he => hpos e (List.mem_reverse.mp he)
  rw [local_tensor_indices_of_nonzero _ _ hne, local_tensor_indices_of_nonzero _ _ hne]
  unfold local_tensor_index_values
  rw [reversed_index_values_emod _ _ hrev h0, List.prod_reverse]

theorem local_tensor_assigns_getElem (ext : Externals) (var : Expr) (shape : List Int)
    (ty : DataType) (i0 k : Nat) (es : List Expr) (e : Expr) (h : es[k]? = some e) :
    (local_tensor_assigns ext var shape ty i0 es)[k]? =
      some (.FrontendAssignStmt
        (.TensorElementExpression var
          ((local_tensor_indices shape ((i0 + k : Nat) : Int)).getD []) shape
          (ext.data_type_size ty)) e "") := by
  simp [local_tensor_assigns, List.getElem?_map, List.getElem?_enumFrom, h]

/-- C23: `expr_alloca_local_tensor` has no capacity check.  For positive
extents with product `P` the call returns for any number of elements, and every
element, also one at a position `i ≥ P`, is assigned to the index tuple of
position `i mod P`.  With an extent `0` and at least one element the index
computation divides by zero. -/
theorem expr_alloca_local_tensor_no_capacity_check (ext : Externals) (shape : List Int)
    (ty : DataType) (elements : ExprGroup) (s : State) :
    ((∀ e ∈ shape, 0 < e) → s.current_block < s.builder.blocks.length →
      (expr_alloca_local_tensor ext shape ty elements s).1 =
          .ok (.IdExpression s.id_counter "" (.tensor shape ty)) ∧
        ∀ (i : Nat) (e : Expr), elements.exprs[i]? = some e →
          local_tensor_indices shape (i : Int) =
              local_tensor_indices shape ((i : Int) % shape.prod) ∧
            (expr_alloca_local_tensor ext shape ty elements s).2.builder.stmts[
                s.builder.stmts.length + 1 + i]? =
              some (.FrontendAssignStmt
                (.TensorElementExpression (.IdExpression s.id_counter "" (.tensor shape ty))
                  ((local_tensor_indices shape ((i : Int) % shape.prod)).getD []) shape
                  (ext.data_type_size ty)) e "")) ∧
      ((0 : Int) ∈ shape → elements.exprs ≠ [] →
        (expr_alloca_local_tensor ext shape ty elements s).1 =
          .undefined_behavior "integer division by zero") := by
  constructor
  · intro hpos hcur
    have hne : ∀ e ∈ shape, e ≠ 0 := fun e he => Int.ne_of_gt (hpos e he)
    have h := expr_alloca_local_tensor_effect ext shape ty elements s hcur (Or.inl hne)
    refine ⟨h.1, ?_⟩
    intro i e hi
    have hmod := local_tensor_indices_emod shape (i : Int) hpos (Int.ofNat_nonneg i)
    refine ⟨hmod, ?_⟩
    rw [h.2.1.1, ← hmod, Nat.add_assoc]
    rw [List.getElem?_append_right (Nat.le_add_right _ _), Nat.add_sub_cancel_left,
      Nat.add_comm 1 i]
    rw [List.getElem?_cons_succ, local_tensor_assigns_getElem _ _ _ _ 0 i _ e hi, Nat.zero_add]
  · intro h0 hes
    cases hexprs : elements.exprs with
    | nil => exact absurd hexprs hes
    | cons e es =>
      unfold expr_alloca_local_tensor
      simp only []
      rw [hexprs, alloca_local_tensor_loop_zero _ _ _ _ h0]

theorem expr_alloca_local_tensor_no_capacity_check_witness :
    (expr_alloca_local_tensor sample_externals [2] (.primitive 0)
        ⟨[sample_expr "a", sample_expr "b", sample_expr "c"]⟩ (State.init 0)).2.builder.stmts[3]? =
        some (.FrontendAssignStmt
          (.TensorElementExpression (.IdExpression 0 "" (.tensor [2] (.primitive 0)))
            [.ConstExpression_int32 0] [2] 4) (sample_expr "c") "") ∧
      (expr_alloca_local_tensor sample_externals [2, 0] (.primitive 0)
        ⟨[sample_expr "a"]⟩ (State.init 0)).1 =
        .undefined_behavior "integer division by zero" :=
  ⟨(((expr_alloca_local_tensor_no_capacity_check sample_externals [2] (.primitive 0)
      ⟨[sample_expr "a", sample_expr "b", sample_expr "c"]⟩ (State.init 0)).1
      (by decide) (by decide)).2 2 (sample_expr "c") rfl).2,
    (expr_alloca_local_tensor_no_capacity_check sample_externals [2, 0] (.primitive 0)
      ⟨[sample_expr "a"]⟩ (State.init 0)).2 (by decide) (List.cons_ne_nil _ _)⟩


/-! ## Assignment, pickling, scope closers, mesh setters -/

/-- C24: `expr_assign` is atomic on failure: when `lhs` is not an lvalue the
assertion fires before any statement is built and the state (blocks and scope
stack) is the one before the call; when `lhs` is an lvalue the call returns and
appends exactly one statement, the assignment `lhs := rhs` with the traceback
`tb`, to the current block. -/
theorem expr_assign_atomic (ext : Externals) (lhs rhs : Expr) (tb : String) (s : State)
    (hcur : s.current_block < s.builder.blocks.length) :
    (ext.is_lvalue lhs = false →
        expr_assign ext lhs rhs tb s = (.assertion_failure "lhs->is_lvalue()", s)) ∧
      (ext.is_lvalue lhs = true →
        (expr_assign ext lhs rhs tb s).1 = .ok () ∧
          appends_to_current_block s (expr_assign ext lhs rhs tb s).2
            [.FrontendAssignStmt lhs rhs tb]) := by
  constructor
  · intro h
    unfold expr_assign
    rw [h]
    rfl
  · intro h
    unfold expr_assign
    rw [h]
    exact ⟨rfl, appends_insert_leaf s s [] _ (appends_of_builder_eq s s rfl rfl hcur)⟩

theorem expr_assign_atomic_witness :
    expr_assign sample_externals (sample_expr "x") (sample_expr "y") "tb" sample_trace_state =
        (.assertion_failure "lhs->is_lvalue()", sample_trace_state) ∧
      (expr_assign sample_externals (.IdExpression 0 "v" .unknown) (sample_expr "y") "tb"
          sample_trace_state).2.builder.stmts =
        sample_trace_state.builder.stmts ++
          [.FrontendAssignStmt (.IdExpression 0 "v" .unknown) (sample_expr "y") "tb"] :=
  ⟨(expr_assign_atomic sample_externals (sample_expr "x") (sample_expr "y") "tb"
      sample_trace_state (by decide)).1 rfl,
    ((expr_assign_atomic sample_externals (.IdExpression 0 "v" .unknown) (sample_expr "y") "tb"
      sample_trace_state (by decide)).2 rfl).2.1⟩

/-- C25: the get-state function on a `DataType` that does not wrap a primitive
type fails the assertion `primitive` and produces no tuple. -/
theorem getstate_non_primitive (values : PrimitiveTypeValues) (dt : DataType)
    (h : dt.primitive_type = none) :
    dt.getstate values = .assertion_failure "primitive" ∧
      ∀ t : List PyObject, dt.getstate values ≠ .ok t := by
  have h1 : dt.getstate values = .assertion_failure "primitive" := by
    unfold DataType.getstate
    rw [h]
  refine ⟨h1, ?_⟩
  intro t ht
  rw [h1] at ht
  cases ht

theorem getstate_non_primitive_witness :
    (DataType.custom 3).primitive_type = none ∧
      (DataType.custom 3).getstate sample_primitive_values = .assertion_failure "primitive" :=
  ⟨rfl, (getstate_non_primitive sample_primitive_values (.custom 3) rfl).1⟩

/-- C27: `end_frontend_range_for`, `end_frontend_struct_for`,
`end_frontend_mesh_for`, `end_func(funcid)` and `pop_scope` are one operation,
`end_func` does not look at `funcid`, and on a stack with top scope `g`, pushed
by any construct, each of them returns and leaves the stack below `g`. -/
theorem scope_closers_are_one_operation (s : State) (funcid funcid1 : String) :
    end_frontend_range_for s = pop_scope s ∧
      end_frontend_struct_for s = pop_scope s ∧
      end_frontend_mesh_for s = pop_scope s ∧
      end_func funcid s = pop_scope s ∧
      end_func funcid s = end_func funcid1 s ∧
      (∀ (rest : List ScopeGuard) (g : ScopeGuard), s.scope_stack = rest ++ [g] →
        pop_scope s = (.ok (), { s with scope_stack := rest })) := by
  refine ⟨rfl, rfl, rfl, rfl, rfl, ?_⟩
  intro rest g h
  unfold pop_scope
  rw [pop_back_nonempty s (by rw [h]; simp), h, List.dropLast_concat]

theorem scope_closers_are_one_operation_witness :
    end_frontend_mesh_for (begin_func "f" (State.init 0)).2 =
      (.ok (), { (begin_func "f" (State.init 0)).2 with scope_stack := [] }) :=
  ((scope_closers_are_one_operation (begin_func "f" (State.init 0)).2 "f" "g").2.2.1).trans
    ((scope_closers_are_one_operation (begin_func "f" (State.init 0)).2 "f" "g").2.2.2.2.2
      [] ⟨1⟩ rfl)


theorem StdMap.find_insert_ne_none {K V : Type} [DecidableEq K] (m : StdMap K V) (k : K)
    (v : V) : (m.insert k v).find k ≠ none := by
  cases h : m.find k with
  | none =>
    rw [StdMap.find_insert_self m k v h]
    exact Option.some_ne_none v
  | some w =>
    rw [StdMap.insert_of_present m k v (by rw [h]; exact Option.some_ne_none w), h]
    exact Option.some_ne_none w

/-- C28: the map-backed mesh setters never overwrite: when the key is already
in the map the call leaves the mesh as it is, so after `set_relation_fixed` a
`set_relation_dynamic` for the same relation has no effect (and the other way
round); `set_num_patches` always replaces the stored number. -/
theorem mesh_setters_never_overwrite (mesh : Mesh) :
    (∀ (type : MeshElementType) (snode : SNodePtr),
        mesh.owned_offset.find type ≠ none → set_owned_offset mesh type snode = mesh) ∧
      (∀ (type : MeshElementType) (snode : SNodePtr),
        mesh.total_offset.find type ≠ none → set_total_offset mesh type snode = mesh) ∧
      (∀ (type : MeshElementType) (n : Int),
        mesh.num_elements.find type ≠ none → set_num_elements mesh type n = mesh) ∧
      (∀ (type : MeshElementType) (n : Int),
        mesh.patch_max_element_num.find type ≠ none →
          set_patch_max_element_num mesh type n = mesh) ∧
      (∀ (type : MeshElementType) (conv : ConvType) (snode : SNodePtr),
        mesh.index_mapping.find (type, conv) ≠ none →
          set_index_mapping mesh type conv snode = mesh) ∧
      (∀ (type : MeshRelationType) (value : SNodePtr),
        mesh.relations.find type ≠ none → set_relation_fixed mesh type value = mesh) ∧
      (∀ (type : MeshRelationType) (value offset : SNodePtr),
        mesh.relations.find type ≠ none →
          set_relation_dynamic mesh type value offset = mesh) ∧
      (∀ (type : MeshRelationType) (value value1 offset : SNodePtr),
        set_relation_dynamic (set_relation_fixed mesh type value) type value1 offset =
          set_relation_fixed mesh type value) ∧
      (∀ (type : MeshRelationType) (value value1 offset : SNodePtr),
        set_relation_fixed (set_relation_dynamic mesh type value offset) type value1 =
          set_relation_dynamic mesh type value offset) ∧
      (∀ n m : Int, (set_num_patches (set_num_patches mesh m) n).num_patches = n ∧
        set_num_patches (set_num_patches mesh m) n = set_num_patches mesh n) := by
  refine ⟨?_, ?_, ?_, ?_, ?_, ?_, ?_, ?_, ?_, ?_⟩
  · intro type snode h
    unfold set_owned_offset
    rw [StdMap.insert_of_present _ _ _ h]
  · intro type snode h
    unfold set_total_offset
    rw [StdMap.insert_of_present _ _ _ h]
  · intro type n h
    unfold set_num_elements
    rw [StdMap.insert_of_present _ _ _ h]
  · intro type n h
    unfold set_patch_max_element_num
    rw [StdMap.insert_of_present _ _ _ h]
  · intro type conv snode h
    unfold set_index_mapping
    rw [StdMap.insert_of_present _ _ _ h]
  · intro type value h
    unfold set_relation_fixed
    rw [StdMap.insert_of_present _ _ _ h]
  · intro type value offset h
    unfold set_relation_dynamic
    rw [StdMap.insert_of_present _ _ _ h]
  · intro type value value1 offset
    unfold set_relation_dynamic set_relation_fixed
    simp only []
    rw [StdMap.insert_of_present _ type (MeshLocalRelation.of_value_offset value1 offset)
      (StdMap.find_insert_ne_none mesh.relations type (MeshLocalRelation.of_value value))]
  · intro type value value1 offset
    unfold set_relation_dynamic set_relation_fixed
    simp only []
    rw [StdMap.insert_of_present _ type (MeshLocalRelation.of_value value1)
      (StdMap.find_insert_ne_none mesh.relations type
        (MeshLocalRelation.of_value_offset value offset))]
  · intro n m
    exact ⟨rfl, rfl⟩

theorem mesh_setters_never_overwrite_witness :
    set_owned_offset sample_full_mesh .Vertex 9 = sample_full_mesh ∧
      set_total_offset sample_full_mesh .Vertex 9 = sample_full_mesh ∧
      set_num_elements sample_full_mesh .Vertex 99 = sample_full_mesh ∧
      set_patch_max_element_num sample_full_mesh .Vertex 99 = sample_full_mesh ∧
      set_index_mapping sample_full_mesh .Vertex .l2g 9 = sample_full_mesh ∧
      set_relation_fixed sample_full_mesh .EV 9 = sample_full_mesh ∧
      set_relation_dynamic sample_full_mesh .EV 9 10 = sample_full_mesh :=
  ⟨(mesh_setters_never_overwrite sample_full_mesh).1 .Vertex 9 (by decide),
    (mesh_setters_never_overwrite sample_full_mesh).2.1 .Vertex 9 (by decide),
    (mesh_setters_never_overwrite sample_full_mesh).2.2.1 .Vertex 99 (by decide),
    (mesh_setters_never_overwrite sample_full_mesh).2.2.2.1 .Vertex 99 (by decide),
    (mesh_setters_never_overwrite sample_full_mesh).2.2.2.2.1 .Vertex .l2g 9 (by decide),
    (mesh_setters_never_overwrite sample_full_mesh).2.2.2.2.2.1 .EV 9 (by decide),
    (mesh_setters_never_overwrite sample_full_mesh).2.2.2.2.2.2.1 .EV 9 10 (by decide)⟩


/-- C22, as stated, fails for a zero extent: with shape `[0]` and one element
the call does not return; it stops at the division by zero of line 879 after
the allocation alone has been inserted, so one statement and not `1 + 1` is in
the block. -/
theorem expr_alloca_local_tensor_zero_extent_stops :
    (expr_alloca_local_tensor sample_externals [0] (.primitive 0) ⟨[sample_expr "a"]⟩
        (State.init 0)).1 = .undefined_behavior "integer division by zero" ∧
      (expr_alloca_local_tensor sample_externals [0] (.primitive 0) ⟨[sample_expr "a"]⟩
        (State.init 0)).2.builder.stmts =
        [.FrontendAllocaStmt 0 (.tensor [0] (.primitive 0))] ∧
      (expr_alloca_local_tensor sample_externals [0] (.primitive 0) ⟨[sample_expr "a"]⟩
        (State.init 0)).2.builder.blocks = [{ statements := [0], parent_stmt := none }] :=
  ⟨rfl, rfl, rfl⟩


/-! ## The set-state function on arbitrary tuples -/

/-- C26, as stated, fails: on the tuple of length 1 whose element is a string
the set-state function returns no `DataType`; the cast of line 128 raises.  Nor
does it return one for the integer `1` when no enumerator has the value `1`. -/
theorem setstate_one_tuple_not_looked_up :
    [PyObject.other "abc"].length = 1 ∧
      DataType.setstate sample_primitive_values [.other "abc"] = .error "py::cast_error" ∧
      (DataType.setstate sample_primitive_values [.other "abc"]).isOk = false ∧
      (DataType.setstate sample_gap_primitive_values [.integer 1]).isOk = false :=
  ⟨rfl, rfl, rfl, rfl⟩

/-- C26 (amended): the set-state function rejects every tuple whose length is
not `1` with the error "Invalid state!".  For a tuple of length 1 whose element
casts to the `std::size_t` value of an enumerator it returns the primitive
`DataType` of that enumerator, the one whose get-state is this tuple.  For a
tuple of length 1 whose element does not cast, the cast raises, and for a
number that is the value of no enumerator nothing is found: in both cases no
`DataType` is returned. -/
theorem setstate_cases (values : PrimitiveTypeValues) (t : List PyObject) :
    (t.length ≠ 1 → DataType.setstate values t = .error "Invalid state!") ∧
      (∀ n : Nat, t = [.integer n] → values.is_enumerator n = true →
        DataType.setstate values t = .ok (PrimitiveType_get (values.of_size_t n)) ∧
          (PrimitiveType_get (values.of_size_t n)).primitive_type =
            some (values.of_size_t n) ∧
          (PrimitiveType_get (values.of_size_t n)).getstate values = .ok t) ∧
      (∀ repr : String, t = [.other repr] →
        DataType.setstate values t = .error "py::cast_error") ∧
      (∀ n : Nat, t = [.integer n] → values.is_enumerator n = false →
        ∀ dt : DataType, DataType.setstate values t ≠ .ok dt) ∧
      (t.length = 1 → ∃ obj, t = [obj]) := by
  refine ⟨?_, ?_, ?_, ?_, ?_⟩
  · intro h
    unfold DataType.setstate
    rw [if_pos h]
  · intro n ht hn
    have hget : (PrimitiveType_get (values.of_size_t n)).primitive_type =
        some (values.of_size_t n) := by
      cases values.of_size_t n <;> rfl
    have hval : values.to_size_t (values.of_size_t n) = n := by
      simpa [PrimitiveTypeValues.is_enumerator] using hn
    refine ⟨?_, hget, ?_⟩
    · rw [ht]
      unfold DataType.setstate
      simp only [List.length_singleton, ne_eq, not_true_eq_false, if_false]
      have : [PyObject.integer n][0]? = some (PyObject.integer n) := rfl
      rw [this]
      simp only [PyObject.cast_size_t, PrimitiveType_get_of_size_t, hn, if_true]
    · unfold DataType.getstate
      rw [hget]
      simp only [hval, ht]
  · intro repr ht
    rw [ht]
    rfl
  · intro n ht hn dt
    rw [ht]
    unfold DataType.setstate
    simp only [List.length_singleton, ne_eq, not_true_eq_false, if_false]
    have : [PyObject.integer n][0]? = some (PyObject.integer n) := rfl
    rw [this]
    simp only [PyObject.cast_size_t, PrimitiveType_get_of_size_t, hn]
    intro h
    cases h
  · intro h
    match t, h with
    | [obj], _ => exact ⟨obj, rfl⟩

theorem setstate_cases_witness :
    DataType.setstate sample_primitive_values [] = .error "Invalid state!" ∧
      DataType.setstate sample_primitive_values [.integer 4, .integer 5] =
        .error "Invalid state!" ∧
      DataType.setstate sample_primitive_values [.integer 4] = .ok (.primitive 3) ∧
      DataType.setstate sample_primitive_values [.other "4.5"] = .error "py::cast_error" ∧
      (∀ dt : DataType, DataType.setstate sample_gap_primitive_values [.integer 1] ≠ .ok dt) ∧
      (∃ obj, [PyObject.integer 4] = [obj]) :=
  ⟨(setstate_cases sample_primitive_values []).1 (by decide),
    (setstate_cases sample_primitive_values [.integer 4, .integer 5]).1 (by decide),
    ((setstate_cases sample_primitive_values [.integer 4]).2.1 4 rfl rfl).1,
    (setstate_cases sample_primitive_values [.other "4.5"]).2.2.1 "4.5" rfl,
    (setstate_cases sample_gap_primitive_values [.integer 1]).2.2.2.1 1 rfl rfl,
    (setstate_cases sample_primitive_values [.integer 4]).2.2.2.2 rfl⟩


/-- The effect of `expr_alloca_local_tensor` when an extent is zero and there
is an element: the allocation is inserted and the first pass of the element
loop divides by zero. -/
theorem expr_alloca_local_tensor_effect_zero (ext : Externals) (shape : List Int)
    (ty : DataType) (elements : ExprGroup) (s : State)
    (hcur : s.current_block < s.builder.blocks.length)
    (h0 : (0 : Int) ∈ shape) (hes : elements.exprs ≠ []) :
    (expr_alloca_local_tensor ext shape ty elements s).1 =
        .undefined_behavior "integer division by zero" ∧
      appends_to_current_block s (expr_alloca_local_tensor ext shape ty elements s).2
        [.FrontendAllocaStmt s.id_counter (.tensor shape ty)] ∧
      (expr_alloca_local_tensor ext shape ty elements s).2.id_counter = s.id_counter + 1 := by
  have ha : appends_to_current_block s s.fresh_id.2 [] :=
    appends_of_builder_eq s _ rfl rfl hcur
  have h1 := appends_insert_leaf s s.fresh_id.2 []
    (.FrontendAllocaStmt s.id_counter (.tensor shape ty)) ha
  cases hexprs : elements.exprs with
  | nil => exact absurd hexprs hes
  | cons e es =>
    unfold expr_alloca_local_tensor
    simp only []
    rw [hexprs, alloca_local_tensor_loop_zero _ _ _ _ h0]
    refine ⟨rfl, by simpa using h1, ?_⟩
    simp only []
    rw [insert_leaf_id_counter]
    rfl

/-- C22 (amended): when no extent is zero, or there is no element,
`expr_alloca_local_tensor` returns the identifier with the fresh id and the
type of the allocation, and appends exactly `1 + elements.size()` statements to
the current block: first the allocation (fresh id, shape, element type), then
for `k = 0, 1, ...` in order the assignment of `elements[k]` to the tensor
element of the returned variable at the index tuple of `k`; nothing else
changes but the id counter.  When an extent is zero and there is an element,
the call does not return: it stops at the division by zero of the index
computation with the allocation alone appended to the current block. -/
theorem expr_alloca_local_tensor_statements (ext : Externals) (shape : List Int)
    (ty : DataType) (elements : ExprGroup) (s : State)
    (hcur : s.current_block < s.builder.blocks.length) :
    (((∀ e ∈ shape, e ≠ 0) ∨ elements.exprs = []) →
      (expr_alloca_local_tensor ext shape ty elements s).1 =
          .ok (.IdExpression s.id_counter "" (.tensor shape ty)) ∧
        appends_to_current_block s (expr_alloca_local_tensor ext shape ty elements s).2
          (.FrontendAllocaStmt s.id_counter (.tensor shape ty) ::
            local_tensor_assigns ext (.IdExpression s.id_counter "" (.tensor shape ty)) shape ty 0
              elements.exprs) ∧
        (Stmt.FrontendAllocaStmt s.id_counter (.tensor shape ty) ::
            local_tensor_assigns ext (.IdExpression s.id_counter "" (.tensor shape ty)) shape ty
              0 elements.exprs).length = 1 + elements.exprs.length ∧
        (expr_alloca_local_tensor ext shape ty elements s).2.id_counter = s.id_counter + 1) ∧
      ((0 : Int) ∈ shape → elements.exprs ≠ [] →
        (expr_alloca_local_tensor ext shape ty elements s).1 =
            .undefined_behavior "integer division by zero" ∧
          appends_to_current_block s (expr_alloca_local_tensor ext shape ty elements s).2
            [.FrontendAllocaStmt s.id_counter (.tensor shape ty)] ∧
          (expr_alloca_local_tensor ext shape ty elements s).2.id_counter = s.id_counter + 1) ∧
      (((∀ e ∈ shape, e ≠ 0) ∨ elements.exprs = []) ∨
        ((0 : Int) ∈ shape ∧ elements.exprs ≠ [])) := by
  refine ⟨?_, ?_, ?_⟩
  · intro hne
    have h := expr_alloca_local_tensor_effect ext shape ty elements s hcur hne
    refine ⟨h.1, h.2.1, ?_, h.2.2⟩
    rw [List.length_cons, local_tensor_assigns_length, Nat.add_comm]
  · intro h0 hes
    exact expr_alloca_local_tensor_effect_zero ext shape ty elements s hcur h0 hes
  · by_cases h0 : (0 : Int) ∈ shape
    · by_cases hes : elements.exprs = []
      · exact Or.inl (Or.inr hes)
      · exact Or.inr ⟨h0, hes⟩
    · exact Or.inl (Or.inl (fun e he hz => h0 (hz ▸ he)))

theorem expr_alloca_local_tensor_statements_witness :
    (expr_alloca_local_tensor sample_externals [2, 2] (.primitive 0)
        ⟨[sample_expr "a", sample_expr "b", sample_expr "c"]⟩ (State.init 0)).2.builder.stmts =
      [.FrontendAllocaStmt 0 (.tensor [2, 2] (.primitive 0)),
        .FrontendAssignStmt
          (.TensorElementExpression (.IdExpression 0 "" (.tensor [2, 2] (.primitive 0)))
            [.ConstExpression_int32 0, .ConstExpression_int32 0] [2, 2] 4) (sample_expr "a") "",
        .FrontendAssignStmt
          (.TensorElementExpression (.IdExpression 0 "" (.tensor [2, 2] (.primitive 0)))
            [.ConstExpression_int32 0, .ConstExpression_int32 1] [2, 2] 4) (sample_expr "b") "",
        .FrontendAssignStmt
          (.TensorElementExpression (.IdExpression 0 "" (.tensor [2, 2] (.primitive 0)))
            [.ConstExpression_int32 1, .ConstExpression_int32 0] [2, 2] 4) (sample_expr "c") ""] ∧
      (expr_alloca_local_tensor sample_externals [3, 0] (.primitive 0)
        ⟨[sample_expr "a", sample_expr "b"]⟩ sample_trace_state).2.builder.stmts =
        sample_trace_state.builder.stmts ++
          [.FrontendAllocaStmt 0 (.tensor [3, 0] (.primitive 0))] :=
  ⟨((expr_alloca_local_tensor_statements sample_externals [2, 2] (.primitive 0)
      ⟨[sample_expr "a", sample_expr "b", sample_expr "c"]⟩ (State.init 0) (by decide)).1
      (Or.inl (by decide))).2.1.1,
    ((expr_alloca_local_tensor_statements sample_externals [3, 0] (.primitive 0)
      ⟨[sample_expr "a", sample_expr "b"]⟩ sample_trace_state (by decide)).2.1
      (by decide) (List.cons_ne_nil _ _)).2.1.1⟩


/-! ## The exported mesh enumerations -/

/-- C20: the exported `MeshElementType` enumeration has exactly the four values
Vertex, Edge, Face, Cell, and the exported `MeshRelationType` enumeration has
16 entries with pairwise distinct names and pairwise distinct values, one for
each ordered pair `(from, to)` of element types: the entries are, pair by pair,
the name made of the initial of `from` followed by the initial of `to` (VV, VE,
VF, VC, EV, ..., CC) together with the enumerator of that pair, and no pair is
missing or has two entries. -/
theorem mesh_enumerations :
    exported_MeshElementType.map Prod.fst = ["Vertex", "Edge", "Face", "Cell"] ∧
      exported_MeshElementType.map Prod.snd = all_element_types ∧
      (∀ t : MeshElementType, t ∈ exported_MeshElementType.map Prod.snd) ∧
      (exported_MeshElementType.map Prod.snd).Nodup ∧
      exported_MeshRelationType.length = 16 ∧
      exported_MeshRelationType.map Prod.fst = relation_names_by_pairs ∧
      (exported_MeshRelationType.map Prod.fst).Nodup ∧
      (exported_MeshRelationType.map Prod.snd).Nodup ∧
      (∀ r : MeshRelationType, r ∈ exported_MeshRelationType.map Prod.snd) ∧
      exported_MeshRelationType = relation_entries_by_pairs ∧
      (∀ (name : String) (r : MeshRelationType) (a b : MeshElementType),
        (name, r) ∈ exported_MeshRelationType →
          (name = a.initial ++ b.initial ↔ r = MeshRelationType.of_pair a b)) ∧
      (∀ a b : MeshElementType,
        (exported_MeshRelationType.filter
          (fun e => decide (e.2 = MeshRelationType.of_pair a b))) =
          [(a.initial ++ b.initial, MeshRelationType.of_pair a b)]) ∧
      (∀ a b c d : MeshElementType,
        MeshRelationType.of_pair a b = MeshRelationType.of_pair c d → a = c ∧ b = d) := by
  refine ⟨rfl, rfl, ?_, by decide, rfl, by decide, by decide, by decide, ?_, by decide, ?_, ?_,
    ?_⟩
  · intro t
    cases t <;> decide
  · intro r
    cases r <;> decide
  · intro name r a b hmem
    simp only [exported_MeshRelationType, List.mem_cons, Prod.mk.injEq, List.mem_nil_iff,
      or_false] at hmem
    rcases hmem with h | h | h | h | h | h | h | h | h | h | h | h | h | h | h | h <;>
      obtain ⟨h1, h2⟩ := h <;> subst h1 <;> subst h2 <;> cases a <;> cases b <;> decide
  · intro a b
    cases a <;> cases b <;> decide
  · intro a b c d h
    cases a <;> cases b <;> cases c <;> cases d <;> first | exact ⟨rfl, rfl⟩ | cases h


/-! ## Scope-stack balance with failing calls -/

theorem status_isOk_iff (st : Status Unit) : st.isOk = true ↔ st = .ok () := by
  cases st <;> simp [Status.isOk]

theorem run_all_depth (ext : Externals) (cs : List Call) (s : State)
    (h : no_pop_on_empty ext cs s = true) :
    (run_all ext cs s).scope_stack.length + count_pop cs =
      s.scope_stack.length + count_returned_push ext cs s := by
  induction cs generalizing s with
  | nil => simp [run_all, count_pop, count_returned_push]
  | cons c cs ih =>
    simp only [no_pop_on_empty, Bool.and_eq_true, Bool.not_eq_true', Bool.and_eq_false_iff]
      at h
    obtain ⟨hc, hrest⟩ := h
    have ih2 := ih _ hrest
    simp only [run_all, count_returned_push]
    by_cases hp : c.is_push = true
    · have hq := is_push_not_is_pop c hp
      by_cases hok : (step ext c s).1 = .ok ()
      · obtain ⟨g, hg⟩ := step_push_scope_stack ext c s hp hok
        have hisok : (step ext c s).1.isOk = true := (status_isOk_iff _).mpr hok
        simp [count_pop, List.filter_cons, hp, hq, hg, hisok] at ih2 ⊢
        omega
      · have hs := step_push_fail ext c s hp hok
        have hisok : (step ext c s).1.isOk = false := by
          cases hb : (step ext c s).1.isOk with
          | false => rfl
          | true => exact absurd ((status_isOk_iff _).mp hb) hok
        rw [hs] at ih2
        simp [count_pop, List.filter_cons, hp, hq, hs, hisok] at ih2 ⊢
        omega
    · by_cases hq : c.is_pop = true
      · have hne : s.scope_stack ≠ [] := by
          rcases hc with hc | hc
          · rw [hq] at hc
            cases hc
          · intro he
            rw [he] at hc
            cases hc
        have hstep : (step ext c s).2.scope_stack = s.scope_stack.dropLast := by
          rw [step_pop_eq ext c s hq, pop_back_nonempty s hne]
        have hlen : 0 < s.scope_stack.length := List.length_pos.mpr hne
        simp [count_pop, List.filter_cons, hp, hq, hstep] at ih2 ⊢
        omega
      · have hs := step_other_scope_stack ext c s (by simpa using hp) (by simpa using hq)
        simp [count_pop, List.filter_cons, hp, hq, hs] at ih2 ⊢
        omega

theorem count_returned_push_le (ext : Externals) (cs : List Call) (s : State) :
    count_returned_push ext cs s ≤ count_push cs := by
  induction cs generalizing s with
  | nil => simp [count_returned_push]
  | cons c cs ih =>
    have ih2 := ih (step ext c s).2
    simp only [count_returned_push, count_push, List.filter_cons] at ih2 ⊢
    by_cases hp : c.is_push = true
    · by_cases hok : (step ext c s).1.isOk = true
      · simp [hp, hok]
        omega
      · simp [hp, hok]
        omega
    · simp [hp]
      omega

/-- The five loop and function openers always return. -/
theorem step_push_ok_of_not_if_branch (ext : Externals) (c : Call) (s : State)
    (hp : c.is_push = true) (hb : c.is_if_branch = false) : (step ext c s).1 = .ok () := by
  cases c <;> simp [Call.is_push] at hp <;> simp [Call.is_if_branch] at hb <;> rfl

theorem count_returned_push_of_no_if_branch (ext : Externals) (cs : List Call) (s : State)
    (h : ∀ c ∈ cs, c.is_if_branch = false) :
    count_returned_push ext cs s = count_push cs := by
  induction cs generalizing s with
  | nil => simp [count_returned_push, count_push]
  | cons c cs ih =>
    have ih2 := ih (step ext c s).2 (fun x hx => h x (List.mem_cons_of_mem _ hx))
    simp only [count_returned_push, count_push, List.filter_cons] at ih2 ⊢
    by_cases hp : c.is_push = true
    · have hok := step_push_ok_of_not_if_branch ext c s hp (h c (List.mem_cons_self _ _))
      simp [hp, hok, Status.isOk, ih2]
      omega
    · simp [hp, ih2]

/-- A sequence in which every call returns: `run_all` ends in the state `run`
gives, and every pushing call has returned. -/
theorem run_all_of_run (ext : Externals) (cs : List Call) (s s2 : State)
    (h : run ext cs s = some s2) :
    run_all ext cs s = s2 ∧ count_returned_push ext cs s = count_push cs ∧
      no_pop_on_empty ext cs s = true := by
  induction cs generalizing s with
  | nil =>
    simp [run] at h
    subst h
    simp [run_all, count_returned_push, count_push, no_pop_on_empty]
  | cons c cs ih =>
    obtain ⟨hok, hrun⟩ := run_cons_some ext c cs s s2 h
    obtain ⟨h1, h2, h3⟩ := ih _ hrun
    have hisok : (step ext c s).1.isOk = true := (status_isOk_iff _).mpr hok
    refine ⟨by simp [run_all, h1], ?_, ?_⟩
    · simp only [count_returned_push, count_push, List.filter_cons] at h2 ⊢
      by_cases hp : c.is_push = true
      · simp [hp, hisok, h2]
        omega
      · simp [hp, h2]
    · simp only [no_pop_on_empty, Bool.and_eq_true, Bool.not_eq_true', h3, and_true]
      by_cases hq : c.is_pop = true
      · have hne := (step_pop_scope_stack ext c s hq hok).1
        cases hs : s.scope_stack with
        | nil => exact absurd hs hne
        | cons a l => simp
      · simp [hq]


/-- C1, as stated, fails: in the sequence `insert_break_stmt`,
`begin_frontend_if_true`, started on the empty stack, no pop is applied to an
empty stack and there is one pushing call and no popping call, yet the depth at
the end is `0`, not `1 - 0`: the pushing call fails the assertion
`is<FrontendIfStmt>()` before its `push_back`; the stack is empty at the end
although the push is matched by no pop. -/
theorem scope_stack_balance_fails_on_failed_push :
    no_pop_on_empty sample_externals sample_failed_push_trace (State.init 0) = true ∧
      count_push sample_failed_push_trace = 1 ∧
      count_pop sample_failed_push_trace = 0 ∧
      (step sample_externals .begin_frontend_if_true
        (step sample_externals .insert_break_stmt (State.init 0)).2).1 =
        .assertion_failure "is<FrontendIfStmt>()" ∧
      (run_all sample_externals sample_failed_push_trace (State.init 0)).scope_stack = [] ∧
      (run_all sample_externals sample_failed_push_trace (State.init 0)).scope_stack.length ≠
        count_push sample_failed_push_trace - count_pop sample_failed_push_trace :=
  ⟨rfl, rfl, rfl, rfl, rfl, by decide⟩

/-- C1 (amended, scope-stack balance): for every sequence of binding calls
started on the empty scope stack in which no pop is applied to an empty stack,
whether or not each call returns, the depth at the end is the number of pushing
calls that returned minus the number of popping calls, the pops never outnumber
the returned pushes, and the stack is empty at the end exactly when the two
numbers agree.  The pushing calls that returned are all the pushing calls when
the sequence has no `begin_frontend_if_true` / `begin_frontend_if_false`, and
when every call of the sequence returns. -/
theorem scope_stack_balance (ext : Externals) (arch : Arch) (cs : List Call)
    (h : no_pop_on_empty ext cs (State.init arch) = true) :
    (run_all ext cs (State.init arch)).scope_stack.length =
        count_returned_push ext cs (State.init arch) - count_pop cs ∧
      count_pop cs ≤ count_returned_push ext cs (State.init arch) ∧
      ((run_all ext cs (State.init arch)).scope_stack = [] ↔
        count_returned_push ext cs (State.init arch) = count_pop cs) ∧
      count_returned_push ext cs (State.init arch) ≤ count_push cs ∧
      ((∀ c ∈ cs, c.is_if_branch = false) →
        (run_all ext cs (State.init arch)).scope_stack.length =
          count_push cs - count_pop cs) ∧
      (∀ s : State, run ext cs (State.init arch) = some s →
        run_all ext cs (State.init arch) = s ∧
          s.scope_stack.length = count_push cs - count_pop cs ∧
          (s.scope_stack = [] ↔ count_push cs = count_pop cs)) := by
  have hd := run_all_depth ext cs (State.init arch) h
  have h0 : (State.init arch).scope_stack.length = 0 := rfl
  rw [h0] at hd
  refine ⟨by omega, by omega, ?_, count_returned_push_le ext cs _, ?_, ?_⟩
  · rw [← List.length_eq_zero]
    omega
  · intro hno
    rw [← count_returned_push_of_no_if_branch ext cs (State.init arch) hno]
    omega
  · intro s hrun
    obtain ⟨h1, h2, _⟩ := run_all_of_run ext cs _ s hrun
    rw [h1, h2] at hd
    refine ⟨h1, by omega, ?_⟩
    rw [← List.length_eq_zero]
    omega

/-- Witness of C1 on a trace with two calls that do not return. -/
theorem scope_stack_balance_witness :
    no_pop_on_empty sample_externals sample_mixed_trace (State.init 0) = true ∧
      count_returned_push sample_externals sample_mixed_trace (State.init 0) = 2 ∧
      count_push sample_mixed_trace = 3 ∧
      count_pop sample_mixed_trace = 1 ∧
      (run_all sample_externals sample_mixed_trace (State.init 0)).scope_stack.length =
        count_returned_push sample_externals sample_mixed_trace (State.init 0) -
          count_pop sample_mixed_trace ∧
      (run sample_externals sample_trace (State.init 0) = some sample_trace_state ∧
        sample_trace_state.scope_stack.length =
          count_push sample_trace - count_pop sample_trace) ∧
      (run_all sample_externals sample_trace (State.init 0)).scope_stack.length =
        count_push sample_trace - count_pop sample_trace :=
  ⟨rfl, rfl, rfl, rfl,
    (scope_stack_balance sample_externals 0 sample_mixed_trace rfl).1,
    ⟨rfl, ((scope_stack_balance sample_externals 0 sample_trace rfl).2.2.2.2.2
      sample_trace_state rfl).2.1⟩,
    (scope_stack_balance sample_externals 0 sample_trace rfl).2.2.2.2.1 (by decide)⟩


/-- Witness of C20 on the relation from vertices to edges. -/
theorem mesh_enumerations_witness :
    ("VE" = MeshElementType.Vertex.initial ++ MeshElementType.Edge.initial ↔
        MeshRelationType.VE = MeshRelationType.of_pair .Vertex .Edge) ∧
      (MeshElementType.Vertex = MeshElementType.Vertex ∧
        MeshElementType.Edge = MeshElementType.Edge) :=
  ⟨mesh_enumerations.2.2.2.2.2.2.2.2.2.2.1 "VE" .VE .Vertex .Edge (by decide),
    mesh_enumerations.2.2.2.2.2.2.2.2.2.2.2.2 .Vertex .Edge .Vertex .Edge rfl⟩

end Taichi
